import Mathlib

/-!
# libhomegear-base: descriptor registry and HTTP/RPC server

A shallow embedding of `src/Managers/FileDescriptorManager.cpp` and of the parts of
`src/Sockets/HttpServer.cpp` that the verified properties speak about.

* `std::shared_ptr<T>` becomes an address (`Nat`) into an explicit object store; an address
  that is not in the store stands for the null pointer.
* `std::map<K, V>` becomes a list of key/value pairs kept in ascending key order.
* Calls into the operating system and into GnuTLS are recorded, in program order, in a trace;
  so are the server's thread joins, map erasures and socket writes.
* The server is modelled sequentially. Mutexes, pauses (`sleep_for`), log output and
  `try`/`catch` wrappers that only log are not represented.
* What the environment decides (the result of `accept`, of a socket read or write, of a
  TLS handshake, the time) is an argument of the function that consumes it.
* The codecs and parsers the server calls (`BinaryRpc`, `Http`, `WebSocket`, the encoders
  and decoders, the web server) are not among the sources: what they return is supplied
  by the environment, and of a parser only the state that the server reads is kept.
-/

set_option linter.unusedSectionVars false

namespace BaseLib

/-! ## `std::map` -/

namespace StdMap

variable {K V : Type} [DecidableEq K] [LT K] [DecidableRel (fun a b : K => a < b)]

/-- The lookup `m.find(k)`: the mapped value, or `none` for `m.end()`. -/
def find (k : K) : List (K × V) → Option V
  | [] => none
  | (k', v) :: rest => if k' = k then some v else find k rest

/-- The removal `m.erase(k)`. -/
def erase (k : K) : List (K × V) → List (K × V)
  | [] => []
  | (k', v) :: rest => if k' = k then erase k rest else (k', v) :: erase k rest

/-- Insertion of a binding at its place in the key order (the key is taken to be absent). -/
def insertSorted (k : K) (v : V) : List (K × V) → List (K × V)
  | [] => [(k, v)]
  | (k', v') :: rest =>
    if k < k' then (k, v) :: (k', v') :: rest else (k', v') :: insertSorted k v rest

/-- The assignment `m[k] = v`: replaces the binding of `k` or creates it. -/
def assign (k : K) (v : V) (m : List (K × V)) : List (K × V) :=
  insertSorted k v (erase k m)

/-- The call `m.insert(std::pair(k, v))`: no effect when `k` is already bound. -/
def insert (k : K) (v : V) (m : List (K × V)) : List (K × V) :=
  match find k m with
  | some _ => m
  | none => insertSorted k v m

/-- Representation invariant of `std::map`: keys strictly ascending. -/
def WF (m : List (K × V)) : Prop :=
  List.Pairwise (fun a b => a.1 < b.1) m

end StdMap

/-! ## `FileDescriptor` and `FileDescriptorManager` -/

/-- Modelled from the spec: the class declaration (`FileDescriptor.h`) is not among the
sources. A handle has a raw descriptor, a generation `id` and an optional owned TLS
session; a default-constructed handle is the always-invalid placeholder, with the sentinel
descriptor `-1` that the manager itself writes when it clears a handle, and no session. -/
structure FileDescriptor where
  id : Int := 0
  descriptor : Int := -1
  tlsSession : Option Nat := none
  deriving DecidableEq, Repr

/-- Operating-system and GnuTLS calls issued by the manager. -/
inductive SysCall where
  | close (fd : Int)
  | shutdown (fd : Int) (how : Int)
  | gnutls_bye (session : Nat)
  | gnutls_deinit (session : Nat)
  deriving DecidableEq, Repr

/-- The manager's members (`_descriptors`, `_currentID`, `_disposed`) together with the
store of `FileDescriptor` objects that `PFileDescriptor` values point into and the trace of
calls issued so far. -/
structure FileDescriptorManager where
  heap : List FileDescriptor := []
  _descriptors : List (Int × Nat) := []
  _currentID : Nat := 0
  _disposed : Bool := false
  sysCalls : List SysCall := []
  deriving DecidableEq, Repr

/-- Conversion of a counter value to `int32_t` (two's complement). -/
def toInt32 (n : Nat) : Int :=
  if n % 2 ^ 32 < 2 ^ 31 then (n % 2 ^ 32 : Nat) else (n % 2 ^ 32 : Nat) - 2 ^ 32

namespace FileDescriptorManager

/-- Allocation `new FileDescriptor()`: the address of the fresh object is returned. -/
def alloc (s : FileDescriptorManager) (o : FileDescriptor) : FileDescriptorManager × Nat :=
  ({ s with heap := s.heap ++ [o] }, s.heap.length)

/-- The comparison `descriptorIterator->second->id == id` for the entry's handle `q`. -/
def entryHasId (s : FileDescriptorManager) (q : Nat) (id : Int) : Bool :=
  match s.heap[q]? with
  | some e => e.id == id
  | none => false

/-- The call `isValid(PFileDescriptor descriptor)`. -/
def isValid (s : FileDescriptorManager) (descriptor : Nat) : Bool :=
  match s.heap[descriptor]? with
  | none => false
  | some o =>
    if o.descriptor < 0 then false
    else
      match StdMap.find o.descriptor s._descriptors with
      | some q => entryHasId s q o.id
      | none => false

/-- The call `isValid(int32_t fileDescriptor, int32_t id)`. -/
def isValidId (s : FileDescriptorManager) (fileDescriptor : Int) (id : Int) : Bool :=
  if fileDescriptor < 0 then false
  else
    match StdMap.find fileDescriptor s._descriptors with
    | some q => entryHasId s q id
    | none => false

/-- The call `get(int32_t fileDescriptor)`; `none` is the null pointer. -/
def get (s : FileDescriptorManager) (fileDescriptor : Int) : Option Nat :=
  if fileDescriptor < 0 then none else StdMap.find fileDescriptor s._descriptors

/-- First half of `add` (the `if(descriptorIterator != _descriptors.end())` block): a handle
still registered under `fileDescriptor` loses its TLS session and its descriptor. -/
def addInvalidateOld (s : FileDescriptorManager) (fileDescriptor : Int) :
    FileDescriptorManager :=
  match StdMap.find fileDescriptor s._descriptors with
  | none => s
  | some q =>
    match s.heap[q]? with
    | none => s
    | some oldDescriptor =>
      match oldDescriptor.tlsSession with
      | some t =>
        { s with
          sysCalls := s.sysCalls ++ [SysCall.gnutls_deinit t]
          heap := s.heap.set q { oldDescriptor with tlsSession := none, descriptor := -1 } }
      | none =>
        { s with heap := s.heap.set q { oldDescriptor with descriptor := -1 } }

/-- Second half of `add`: a fresh handle takes the counter value as its id and is stored
under `fileDescriptor`. -/
def addInsertNew (s : FileDescriptorManager) (fileDescriptor : Int) :
    FileDescriptorManager × Nat :=
  let descriptor : FileDescriptor := { id := toInt32 s._currentID, descriptor := fileDescriptor }
  ({ s with
      heap := s.heap ++ [descriptor]
      _currentID := (s._currentID + 1) % 2 ^ 32
      _descriptors := StdMap.assign fileDescriptor s.heap.length s._descriptors },
    s.heap.length)

/-- The call `add(int32_t fileDescriptor)`. -/
def add (s : FileDescriptorManager) (fileDescriptor : Int) : FileDescriptorManager × Nat :=
  if fileDescriptor < 0 ∨ s._disposed = true then alloc s {}
  else addInsertNew (addInvalidateOld s fileDescriptor) fileDescriptor

/-- The guard shared by `remove`, `close` and `shutdown`: the handle is non-null, its
descriptor is not negative and the map entry under that descriptor carries its id. -/
def registered (s : FileDescriptorManager) (descriptor : Nat) : Option FileDescriptor :=
  match s.heap[descriptor]? with
  | none => none
  | some o =>
    if o.descriptor < 0 then none
    else
      match StdMap.find o.descriptor s._descriptors with
      | some q => if entryHasId s q o.id then some o else none
      | none => none

/-- The call `remove(PFileDescriptor descriptor)`: the descriptor field is overwritten with
`-1` first and the erase then uses the overwritten value as key. -/
def remove (s : FileDescriptorManager) (descriptor : Nat) : FileDescriptorManager :=
  match registered s descriptor with
  | none => s
  | some o =>
    { s with
      heap := s.heap.set descriptor { o with descriptor := -1 }
      _descriptors := StdMap.erase (-1) s._descriptors }

/-- The call `close(PFileDescriptor descriptor)`. -/
def close (s : FileDescriptorManager) (descriptor : Nat) : FileDescriptorManager :=
  match registered s descriptor with
  | none => s
  | some o =>
    { s with
      _descriptors := StdMap.erase o.descriptor s._descriptors
      sysCalls := s.sysCalls
        ++ (match o.tlsSession with
            | some t => [SysCall.gnutls_bye t]
            | none => [])
        ++ [SysCall.close o.descriptor]
        ++ (match o.tlsSession with
            | some t => [SysCall.gnutls_deinit t]
            | none => [])
      heap := s.heap.set descriptor { o with tlsSession := none, descriptor := -1 } }

/-- The call `shutdown(PFileDescriptor descriptor)`. -/
def shutdown (s : FileDescriptorManager) (descriptor : Nat) : FileDescriptorManager :=
  match registered s descriptor with
  | none => s
  | some o =>
    { s with
      _descriptors := StdMap.erase o.descriptor s._descriptors
      sysCalls := s.sysCalls
        ++ (match o.tlsSession with
            | some t => [SysCall.gnutls_bye t]
            | none => [SysCall.shutdown o.descriptor 0])
        ++ [SysCall.close o.descriptor]
        ++ (match o.tlsSession with
            | some t => [SysCall.gnutls_deinit t]
            | none => [])
      heap := s.heap.set descriptor { o with tlsSession := none, descriptor := -1 } }

/-- The `::close` calls of `dispose`, one per map entry in key order. -/
def disposeCalls (s : FileDescriptorManager) : List (Int × Nat) → List SysCall
  | [] => []
  | (_, q) :: rest =>
    match s.heap[q]? with
    | none => disposeCalls s rest
    | some o => SysCall.close o.descriptor :: disposeCalls s rest

/-- The call `dispose()`. -/
def dispose (s : FileDescriptorManager) : FileDescriptorManager :=
  { s with
    _disposed := true
    sysCalls := s.sysCalls ++ disposeCalls s s._descriptors
    _descriptors := [] }

/-- Assignment to the public member `descriptor->tlsSession` by socket code (for instance
`gnutls_init(&client->socketDescriptor->tlsSession, ...)`); no effect on a null handle. -/
def setTlsSession (s : FileDescriptorManager) (descriptor : Nat) (t : Option Nat) :
    FileDescriptorManager :=
  match s.heap[descriptor]? with
  | none => s
  | some o => { s with heap := s.heap.set descriptor { o with tlsSession := t } }

/-- One call on the manager. -/
inductive Op where
  | add (fileDescriptor : Int)
  | close (descriptor : Nat)
  | shutdown (descriptor : Nat)
  | setTlsSession (descriptor : Nat) (t : Option Nat)
  | remove (descriptor : Nat)
  | dispose
  deriving DecidableEq, Repr

/-- Execution of one call; the handle returned by `add` is dropped here. -/
def step (s : FileDescriptorManager) : Op → FileDescriptorManager
  | .add fileDescriptor => (add s fileDescriptor).1
  | .close descriptor => close s descriptor
  | .shutdown descriptor => shutdown s descriptor
  | .setTlsSession descriptor t => setTlsSession s descriptor t
  | .remove descriptor => remove s descriptor
  | .dispose => dispose s

/-- Execution of a sequence of calls, first to last. -/
def run (s : FileDescriptorManager) (ops : List Op) : FileDescriptorManager :=
  ops.foldl step s

/-- Calls other than `remove` and `dispose`. -/
def Op.isLifecycle : Op → Bool
  | .remove _ => false
  | .dispose => false
  | _ => true

/-- A freshly constructed manager. -/
def init : FileDescriptorManager := {}

/-- The `descriptor` field read through a handle; `-1` for the null pointer. -/
def descriptorOf (s : FileDescriptorManager) (descriptor : Nat) : Int :=
  match s.heap[descriptor]? with
  | some o => o.descriptor
  | none => -1

/-- The `tlsSession` field read through a handle. -/
def tlsSessionOf (s : FileDescriptorManager) (descriptor : Nat) : Option Nat :=
  match s.heap[descriptor]? with
  | some o => o.tlsSession
  | none => none

/-- The handle as `close` and `shutdown` leave it. -/
def cleared (o : FileDescriptor) : FileDescriptor :=
  { o with tlsSession := none, descriptor := -1 }

/-- The `id` field read through a handle; `0` for the null pointer. -/
def idOf (s : FileDescriptorManager) (descriptor : Nat) : Int :=
  match s.heap[descriptor]? with
  | some o => o.id
  | none => 0

/-- What every call, `remove` and `dispose` included, keeps true of a registry: no map key
is negative, and either every handle with a non-negative descriptor is the map entry under
that descriptor, or the registry is disposed and its map empty. -/
structure Consistent (s : FileDescriptorManager) : Prop where
  keys : ∀ k q, StdMap.find k s._descriptors = some q → 0 ≤ k
  live : (∀ p, 0 ≤ descriptorOf s p →
      StdMap.find (descriptorOf s p) s._descriptors = some p) ∨
    (s._disposed = true ∧ s._descriptors = [])

/-- Consistency of map and handles in a registry driven by `add`, `close` and `shutdown`:
a handle with a non-negative descriptor is the map entry under that descriptor, and every
map entry points to a handle carrying the entry's key. -/
structure Inv (s : FileDescriptorManager) : Prop where
  live : ∀ p o, s.heap[p]? = some o → 0 ≤ o.descriptor →
    StdMap.find o.descriptor s._descriptors = some p
  entry : ∀ d q, StdMap.find d s._descriptors = some q →
    ∃ o, s.heap[q]? = some o ∧ o.descriptor = d

end FileDescriptorManager

/-! ## Strings, SHA-1 and Base64

A `std::string` (and a `std::vector<char>`) is a `String` whose characters are its bytes. -/

namespace HelperFunctions

/-- The helper `toLower(std::string&)`: `::tolower` applied to every byte. -/
def toLower (s : String) : String :=
  String.mk (s.data.map Char.toLower)

end HelperFunctions

/-- The call `s.find(c, start)`: position of the first `c` at or after `start`. -/
def findCharFrom (c : Char) (start : Nat) (s : String) : Option Nat :=
  match (s.data.drop start).indexOf? c with
  | some i => some (start + i)
  | none => none

/-- The call `s.substr(pos, n)`. -/
def substr (s : String) (pos n : Nat) : String :=
  String.mk ((s.data.drop pos).take n)

/-- The call `s.substr(pos)`. -/
def substrFrom (s : String) (pos : Nat) : String :=
  String.mk (s.data.drop pos)

/-- The bytes of a string. -/
def bytesOf (s : String) : List Nat :=
  s.data.map (fun c => c.toNat % 256)

namespace Security

/-- Rotation of a 32-bit word to the left. -/
def rotl32 (x n : Nat) : Nat :=
  ((x <<< n) ||| (x >>> (32 - n))) % 2 ^ 32

/-- The `k` low-order bytes of `n`, most significant first. -/
def beBytes (n : Nat) : Nat → List Nat
  | 0 => []
  | k + 1 => (n >>> (8 * k)) % 256 :: beBytes n k

/-- The SHA-1 padding: a one bit, zeros up to 56 modulo 64, the bit length on 8 bytes. -/
def sha1Pad (msg : List Nat) : List Nat :=
  msg ++ [128] ++ List.replicate ((119 - msg.length % 64) % 64) 0 ++ beBytes (8 * msg.length) 8

/-- The first `k` big-endian 32-bit words of a byte sequence. -/
def beWords : Nat → List Nat → List Nat
  | 0, _ => []
  | k + 1, b0 :: b1 :: b2 :: b3 :: rest =>
    (((b0 * 256 + b1) * 256 + b2) * 256 + b3) :: beWords k rest
  | _ + 1, _ => []

/-- Extension of the message schedule, kept most recent word first, by `k` words. -/
def sha1Extend : Nat → List Nat → List Nat
  | 0, ws => ws
  | k + 1, ws =>
    sha1Extend k
      (rotl32 (ws.getD 2 0 ^^^ ws.getD 7 0 ^^^ ws.getD 13 0 ^^^ ws.getD 15 0) 1 :: ws)

/-- The five working words of SHA-1. -/
structure Sha1State where
  a : Nat
  b : Nat
  c : Nat
  d : Nat
  e : Nat
  deriving DecidableEq, Repr

/-- The round function of round `t`. -/
def sha1F (t b c d : Nat) : Nat :=
  if t < 20 then (b &&& c) ||| ((b ^^^ (2 ^ 32 - 1)) &&& d)
  else if t < 40 then b ^^^ c ^^^ d
  else if t < 60 then (b &&& c) ||| (b &&& d) ||| (c &&& d)
  else b ^^^ c ^^^ d

/-- The round constant of round `t`. -/
def sha1K (t : Nat) : Nat :=
  if t < 20 then 0x5A827999
  else if t < 40 then 0x6ED9EBA1
  else if t < 60 then 0x8F1BBCDC
  else 0xCA62C1D6

/-- The rounds from round `t` on, one per schedule word. -/
def sha1Rounds : Nat → List Nat → Sha1State → Sha1State
  | _, [], s => s
  | t, w :: ws, s =>
    sha1Rounds (t + 1) ws
      { a := (rotl32 s.a 5 + sha1F t s.b s.c s.d + s.e + sha1K t + w) % 2 ^ 32
        b := s.a
        c := rotl32 s.b 30
        d := s.c
        e := s.d }

/-- Compression of one 64-byte block into the chaining value. -/
def sha1Block (h : Sha1State) (bytes : List Nat) : Sha1State :=
  let w := (sha1Extend 64 (beWords 16 bytes).reverse).reverse
  let r := sha1Rounds 0 w h
  { a := (h.a + r.a) % 2 ^ 32
    b := (h.b + r.b) % 2 ^ 32
    c := (h.c + r.c) % 2 ^ 32
    d := (h.d + r.d) % 2 ^ 32
    e := (h.e + r.e) % 2 ^ 32 }

/-- Compression of the first `k` blocks. -/
def sha1Blocks : Nat → Sha1State → List Nat → Sha1State
  | 0, h, _ => h
  | k + 1, h, bytes => sha1Blocks k (sha1Block h (bytes.take 64)) (bytes.drop 64)

namespace Hash

/-- Modelled from the spec: `BaseLib::Security::Hash::sha1` is not among the sources; the
spec names the standard WebSocket handshake derivation, so this is SHA-1 as standardised
(FIPS 180), from bytes to the 20 bytes of the digest. -/
def sha1 (msg : List Nat) : List Nat :=
  let h := sha1Blocks ((sha1Pad msg).length / 64)
    ⟨0x67452301, 0xEFCDAB89, 0x98BADCFE, 0x10325476, 0xC3D2E1F0⟩ (sha1Pad msg)
  beBytes h.a 4 ++ beBytes h.b 4 ++ beBytes h.c 4 ++ beBytes h.d 4 ++ beBytes h.e 4

end Hash

end Security

namespace Base64

/-- The Base64 alphabet. -/
def alphabet : List Char :=
  "ABCDEFGHIJKLMNOPQRSTUVWXYZabcdefghijklmnopqrstuvwxyz0123456789+/".data

/-- The character of a 6-bit value. -/
def digit (n : Nat) : Char :=
  alphabet.getD n 'A'

/-- Encoding of a byte sequence, three bytes to four characters, padded with `=`. -/
def encodeBytes : List Nat → List Char
  | [] => []
  | [a] => [digit (a / 4), digit (a % 4 * 16), '=', '=']
  | [a, b] => [digit (a / 4), digit (a % 4 * 16 + b / 16), digit (b % 16 * 4), '=']
  | a :: b :: c :: rest =>
    digit (a / 4) :: digit (a % 4 * 16 + b / 16) :: digit (b % 16 * 4 + c / 64)
      :: digit (c % 64) :: encodeBytes rest

/-- Modelled from the spec: `BaseLib::Base64::encode` is not among the sources; the spec
names the standard handshake derivation, so this is Base64 as standardised (RFC 4648). -/
def encode (bytes : List Nat) : String :=
  String.mk (encodeBytes bytes)

end Base64

/-! ## `HttpServer` -/

/-- The enumeration `BaseLib::RpcType`, as far as the server assigns it. -/
inductive RpcType where
  | unknown
  | binary
  | xml
  | json
  | websocket
  deriving DecidableEq, Repr

/-- The enumeration `ServerInfo::Info::AuthType`. -/
inductive AuthType where
  | none
  | basic
  | session
  deriving DecidableEq, Repr

/-- A connection record: the members of `RpcClientInfo` followed by those of
`HttpServer::Client` that the server code reads or writes. `socketDescriptor` is the
address of the record's handle; `socket` is the handle wrapped by the record's `TcpSocket`
(`none` for a socket without descriptor or a null pointer). -/
structure Client where
  id : Int := -1
  closed : Bool := false
  addon : Bool := false
  xmlRpc : Bool := false
  jsonRpc : Bool := false
  binaryRpc : Bool := false
  webSocket : Bool := false
  webSocketClientId : String := ""
  address : String := ""
  port : Int := 0
  initUrl : String := ""
  initInterfaceId : String := ""
  initKeepAlive : Bool := false
  initBinaryMode : Bool := false
  initNewFormat : Bool := false
  initSubscribePeers : Bool := false
  initJsonMode : Bool := false
  socketDescriptor : Nat := 0
  socket : Option Nat := Option.none
  rpcType : RpcType := RpcType.unknown
  webSocketClient : Bool := false
  nodeClient : Bool := false
  webSocketAuthorized : Bool := false
  deriving DecidableEq, Repr

/-- Steps of the server that the embedding records in program order: thread joins and
starts, removals from the connection map, writes on a client socket, hand-overs of a
socket to the outbound-client registry, calls of `packetReceived`, and requests passed to
the web server (`_webServer->get`, `_webServer->post`) with the socket to answer on. -/
inductive ServerAction where
  | joinMainThread
  | startReadThread (clientId : Int)
  | joinReadThread (clientId : Int)
  | eraseClient (clientId : Int)
  | proofwrite (clientId : Int) (socket : Option Nat) (data : String)
  | addWebSocketServer (socket : Option Nat) (webSocketClientId : String) (address : String)
      (nodeClient : Bool)
  | packetReceived (clientId : Int) (packet : String) (keepAlive : Bool)
  | webServerGet (socket : Option Nat)
  | webServerPost (socket : Option Nat)
  deriving DecidableEq, Repr

/-- What `client->socket->proofwrite(data)` does for the caller: it returns, or it throws
one of the two socket exceptions the caller handles, or something else. -/
inductive WriteOutcome where
  | ok
  | dataLimitException
  | operationException
  | otherException
  deriving DecidableEq, Repr

/-- The parts of a parsed HTTP header that the upgrade handler reads. -/
structure HttpHeader where
  path : String := ""
  fields : List (String × String) := []
  deriving DecidableEq, Repr

/-- The server's members, the settings it reads (`rpcServerMaxConnections`, `ssl`,
`websocketAuthType`), the descriptor registry `GD::bl->fileDescriptorManager` and the
record of the server's steps. The lifetick pairs are (time of the call, completed). -/
structure HttpServer where
  fdm : FileDescriptorManager := {}
  _clients : List (Int × Client) := []
  _currentClientID : Int := 0
  _rpcMethods : List (String × Nat) := []
  _stopped : Bool := true
  _stopServer : Bool := true
  _serverFileDescriptor : Nat := 0
  _lastGargabeCollection : Int := 0
  rpcServerMaxConnections : Nat := 0
  ssl : Bool := false
  websocketAuthType : AuthType := AuthType.none
  actions : List ServerAction := []
  _lifetick1 : Int × Bool := (0, true)
  _lifetick2 : Int × Bool := (0, true)
  deriving DecidableEq, Repr

namespace HttpServer

/-- The call `registerMethod(methodName, method)`; a method is the address of its handler
object. A name already in the table is refused with a warning. -/
def registerMethod (s : HttpServer) (methodName : String) (method : Nat) : HttpServer :=
  match StdMap.find methodName s._rpcMethods with
  | some _ => s
  | none => { s with _rpcMethods := StdMap.insert methodName method s._rpcMethods }

/-- The call `closeClientConnection(client)`. -/
def closeClientConnection (s : HttpServer) (client : Client) : HttpServer × Client :=
  ({ s with fdm := FileDescriptorManager.shutdown s.fdm client.socketDescriptor },
    { client with closed := true })

/-- The call `clientValid(client)`. -/
def clientValid (s : HttpServer) (client : Client) : Bool :=
  if FileDescriptorManager.descriptorOf s.fdm client.socketDescriptor < 0 then false else true

/-- The call `sendRPCResponseToClient(client, data, keepAlive)`; `w` is what the write
does. The pauses before the write are not represented. -/
def sendRPCResponseToClient (s : HttpServer) (client : Client) (data : String)
    (keepAlive : Bool) (w : WriteOutcome) : HttpServer × Client :=
  if s._stopped then (s, client)
  else if !clientValid s client then (s, client)
  else if data = "" then (s, client)
  else
    let s1 := { s with
      actions := s.actions ++ [ServerAction.proofwrite client.id client.socket data] }
    match w with
    | WriteOutcome.ok => if !keepAlive then closeClientConnection s1 client else (s1, client)
    | WriteOutcome.dataLimitException =>
      if !keepAlive then closeClientConnection s1 client else (s1, client)
    | WriteOutcome.operationException => closeClientConnection s1 client
    | WriteOutcome.otherException => (s1, client)

/-- The loop of `getClientInfo`: records flagged closed are skipped. -/
def getClientInfoLoop : List (Int × Client) → List Client
  | [] => []
  | (_, c) :: rest => if c.closed then getClientInfoLoop rest else c :: getClientInfoLoop rest

/-- The call `getClientInfo()`: the server as the call leaves it and the vector returned. -/
def getClientInfo (s : HttpServer) : HttpServer × List Client :=
  (s, getClientInfoLoop s._clients)

/-- First loop of `collectGarbage`: the records flagged closed, in map order. -/
def clientsToRemove : List (Int × Client) → List Client
  | [] => []
  | (_, c) :: rest => if c.closed then c :: clientsToRemove rest else clientsToRemove rest

/-- Body of the second loop of `collectGarbage`: the record's reader thread is joined, then
the record is erased from the map under its id. -/
def removeClient (s : HttpServer) (c : Client) : HttpServer :=
  let s1 := { s with actions := s.actions ++ [ServerAction.joinReadThread c.id] }
  { s1 with
    _clients := StdMap.erase c.id s1._clients
    actions := s1.actions ++ [ServerAction.eraseClient c.id] }

/-- The call `collectGarbage()` at time `now`. -/
def collectGarbage (s : HttpServer) (now : Int) : HttpServer :=
  (clientsToRemove s._clients).foldl removeClient { s with _lastGargabeCollection := now }

/-- First loop of `stop`: `closeClientConnection` on every record of the map. -/
def closeAllClients (s : HttpServer) : List (Int × Client) → HttpServer × List (Int × Client)
  | [] => (s, [])
  | (k, c) :: rest =>
    ((closeAllClients (closeClientConnection s c).1 rest).1,
      (k, (closeClientConnection s c).2) :: (closeAllClients (closeClientConnection s c).1 rest).2)

/-- The loop `while(_clients.size() > 0)` of `stop`, for at most `fuel` passes; `none` when
the map is not empty after them. -/
def stopDrain (now : Int) : Nat → HttpServer → Option HttpServer
  | 0, s => if s._clients.length > 0 then none else some s
  | fuel + 1, s =>
    if s._clients.length > 0 then stopDrain now fuel (collectGarbage s now) else some s

/-- The part of `stop()` before its drain loop: the flags are set, the acceptor thread is
joined and every record of the map is closed. -/
def stopCloseAll (s : HttpServer) : HttpServer :=
  let s1 := { s with
    _stopped := true
    _stopServer := true
    actions := s.actions ++ [ServerAction.joinMainThread] }
  { (closeAllClients s1 s1._clients).1 with _clients := (closeAllClients s1 s1._clients).2 }

/-- The call `stop()` at time `now`, its drain loop bounded by `fuel` passes. -/
def stop (now : Int) (fuel : Nat) (s : HttpServer) : Option HttpServer :=
  if s._stopped then some s else stopDrain now fuel (stopCloseAll s)

/-- The WebSocket handshake GUID appended to the client's key. -/
def websocketGuid : String := "258EAFA5-E914-47DA-95CA-C5AB0DC85B11"

/-- The accept token computed by `handleConnectionUpgrade`: Base64 of the SHA-1 digest of
the key followed by the GUID. -/
def websocketAccept (key : String) : String :=
  Base64.encode (Security.Hash.sha1 (bytesOf (key ++ websocketGuid)))

/-- The `101 Switching Protocols` header built in both role branches of
`handleConnectionUpgrade`. -/
def switchingProtocolsHeader (accept protocol : String) : String :=
  "HTTP/1.1 101 Switching Protocols\r\n"
    ++ "Connection: Upgrade\r\n"
    ++ "Upgrade: websocket\r\n"
    ++ ("Sec-WebSocket-Accept: " ++ accept ++ "\r\n")
    ++ (if protocol = "" then "" else "Sec-WebSocket-Protocol: " ++ protocol ++ "\r\n")
    ++ "\r\n"

/-- The role named by the path in `handleConnectionUpgrade`, before the client id is
taken: the first 6 or the first 10 characters after the leading slash, or nothing. -/
def pathProtocolPrefix (path : String) : String :=
  if path.length = 7 ∨ findCharFrom '/' 1 path = some 7 then substr path 1 6
  else if path.length = 11 ∨ findCharFrom '/' 1 path = some 11 then substr path 1 10
  else ""

/-- The role and the client id that `handleConnectionUpgrade` takes from the path;
`current` is the record's `webSocketClientId` before the call. The id is not yet
lower-cased. -/
def resolvePath (path : String) (current : String) : String × String :=
  if pathProtocolPrefix path = "client" ∨ pathProtocolPrefix path = "server" then
    (pathProtocolPrefix path, if path.length > 8 then substrFrom path 8 else current)
  else if pathProtocolPrefix path = "nodeclient" ∨ pathProtocolPrefix path = "nodeserver" then
    (pathProtocolPrefix path, if path.length > 12 then substrFrom path 12 else current)
  else if path.length > 1 then ("", substrFrom path 1)
  else (pathProtocolPrefix path, current)

/-- The four role names that `handleConnectionUpgrade` compares the path role with. -/
def upgradeRoles : List String :=
  ["client", "server", "nodeclient", "nodeserver"]

/-- The call `handleConnectionUpgrade(client, http)`; `w` is what the write of the response
does. Header field names are lower-case, as the HTTP parser stores them. -/
def handleConnectionUpgrade (s : HttpServer) (client : Client) (http : HttpHeader)
    (w : WriteOutcome) : HttpServer × Client :=
  if (StdMap.find "upgrade" http.fields).map HelperFunctions.toLower = some "websocket" then
    if StdMap.find "sec-websocket-protocol" http.fields = none
        ∧ (http.path = "" ∨ http.path = "/") then
      closeClientConnection s client
    else
      match StdMap.find "sec-websocket-key" http.fields with
      | none => closeClientConnection s client
      | some key =>
        let protocol :=
          HelperFunctions.toLower ((StdMap.find "sec-websocket-protocol" http.fields).getD "")
        let pathProtocol := (resolvePath http.path client.webSocketClientId).1
        let client1 := { client with
          webSocketClientId :=
            HelperFunctions.toLower (resolvePath http.path client.webSocketClientId).2 }
        if protocol = "server" ∨ pathProtocol = "server" ∨ protocol = "nodeserver"
            ∨ pathProtocol = "nodeserver" then
          sendRPCResponseToClient s
            { client1 with
              rpcType := RpcType.websocket
              initJsonMode := true
              initKeepAlive := true
              initNewFormat := true
              initSubscribePeers := true }
            (switchingProtocolsHeader (websocketAccept key) protocol) true w
        else if protocol = "client" ∨ pathProtocol = "client" ∨ protocol = "nodeclient"
            ∨ pathProtocol = "nodeclient" then
          let r := sendRPCResponseToClient s
            { client1 with
              rpcType := RpcType.websocket
              webSocketClient := true
              nodeClient :=
                if protocol = "nodeclient" ∨ pathProtocol = "nodeclient" then true
                else client1.nodeClient }
            (switchingProtocolsHeader (websocketAccept key) protocol) true w
          if r.1.websocketAuthType = AuthType.none then
            ({ r.1 with
                fdm := (FileDescriptorManager.alloc r.1.fdm {}).1
                actions := r.1.actions ++ [ServerAction.addWebSocketServer r.2.socket
                  r.2.webSocketClientId r.2.address r.2.nodeClient] },
              { r.2 with
                socketDescriptor := (FileDescriptorManager.alloc r.1.fdm {}).2
                socket := none
                closed := true })
          else r
        else closeClientConnection s client1
  else closeClientConnection s client

/-- The course of the TLS handshake in `getSSLSocketDescriptor`. -/
inductive TlsOutcome where
  | noSession
  | failedAfterInit (session : Nat)
  | established (session : Nat)
  deriving DecidableEq, Repr

/-- What the environment supplies to one pass of the accept loop: the time, whether a
connection is pending and the value `accept()` returns for it, the peer's address, and the
course of the TLS handshake. -/
structure AcceptInput where
  now : Int := 0
  accepted : Option Int := none
  address : String := ""
  port : Int := 0
  tls : TlsOutcome := TlsOutcome.noSession
  deriving DecidableEq, Repr

/-- The call `getClientSocketDescriptor(address, port)`: the handle of the accepted
connection, or the null pointer. The comparison with the ceiling is on the size of the
connection map, before and after a garbage-collection pass. The function is defined in
`HttpServer.cpp` but called by no function of the sources; the accept loop of `mainThread`
does not use it. -/
def getClientSocketDescriptor (s : HttpServer) (inp : AcceptInput) : HttpServer × Option Nat :=
  let s1 :=
    if s._clients.length > s.rpcServerMaxConnections then collectGarbage s inp.now else s
  let tooManyConnections : Bool :=
    decide (s._clients.length > s.rpcServerMaxConnections)
      && decide (s1._clients.length > s.rpcServerMaxConnections)
  if FileDescriptorManager.descriptorOf s1.fdm s1._serverFileDescriptor + 1 ≤ 0 then (s1, none)
  else
    match inp.accepted with
    | none =>
      (if inp.now - s1._lastGargabeCollection > 60000
          ∨ s1._clients.length > s.rpcServerMaxConnections * 100 % 2 ^ 32 / 112 then
        collectGarbage s1 inp.now
      else s1, none)
    | some fd =>
      if tooManyConnections then
        ({ s1 with
            fdm := FileDescriptorManager.shutdown (FileDescriptorManager.add s1.fdm fd).1
              (FileDescriptorManager.add s1.fdm fd).2 }, none)
      else
        ({ s1 with fdm := (FileDescriptorManager.add s1.fdm fd).1 },
          some (FileDescriptorManager.add s1.fdm fd).2)

/-- Increment of an `int32_t` counter (wrapping). -/
def nextInt32 (x : Int) : Int :=
  if x = 2 ^ 31 - 1 then -2 ^ 31 else x + 1

/-- The loop `while(_clients.find(client->id) != _clients.end())` of `mainThread`, for at
most `fuel` passes: the counter and the first free id, or `none` when none was found. -/
def freshClientId : Nat → List (Int × Client) → Int → Int → Option (Int × Int)
  | 0, _, _, _ => none
  | fuel + 1, m, counter, id =>
    match StdMap.find id m with
    | some _ => freshClientId fuel m (nextInt32 counter) (nextInt32 id)
    | none => some (counter, id)

/-- The call `getSSLSocketDescriptor(client)`, by the course of the handshake: no session
was created, or a session was created and a later step failed (the handle is shut down), or
the handshake succeeded. -/
def getSSLSocketDescriptor (s : HttpServer) (client : Client) : TlsOutcome → HttpServer
  | TlsOutcome.noSession => s
  | TlsOutcome.failedAfterInit t =>
    { s with
      fdm := FileDescriptorManager.shutdown
        (FileDescriptorManager.setTlsSession s.fdm client.socketDescriptor (some t))
        client.socketDescriptor }
  | TlsOutcome.established t =>
    { s with fdm := FileDescriptorManager.setTlsSession s.fdm client.socketDescriptor (some t) }

/-- Last part of a pass of the accept loop: the record gets its socket and the peer's
address, and its reader thread is started. -/
def startClient (s : HttpServer) (client : Client) (inp : AcceptInput) : HttpServer :=
  { s with
    _clients := StdMap.assign client.id
      { client with
        socket := some client.socketDescriptor
        address := inp.address
        port := inp.port }
      s._clients
    actions := s.actions ++ [ServerAction.startReadThread client.id] }

/-- Modelled from the spec: `TcpSocket::waitForConnection` is not among the sources. The
call returns the handle under which the descriptor of the accepted connection is registered
with the descriptor registry, or the null pointer when no connection is pending, and hands
out the peer's address and port. It knows nothing of the server's connection map or of
the ceiling `rpcServerMaxConnections`. -/
def waitForConnection (s : HttpServer) (inp : AcceptInput) : HttpServer × Option Nat :=
  match inp.accepted with
  | none => (s, none)
  | some fd =>
    ({ s with fdm := (FileDescriptorManager.add s.fdm fd).1 },
      some (FileDescriptorManager.add s.fdm fd).2)

/-- One pass of the loop of `mainThread`, the listening socket being connected: the handle
is taken from `_socket->waitForConnection`, the record gets the next free id and is stored
in the connection map, and after the TLS handshake (if configured) the reader thread is
started. The size of the map is not compared with anything. The result is `none` when the
search for a free id does not end. -/
def mainThreadAccept (s : HttpServer) (inp : AcceptInput) : Option HttpServer :=
  if s._stopServer then some s
  else
    match (waitForConnection s inp).2 with
    | none => some (waitForConnection s inp).1
    | some fd =>
      let s1 := (waitForConnection s inp).1
      if FileDescriptorManager.descriptorOf s1.fdm fd = -1 then some s1
      else
        let first : Int × Int :=
          if s1._currentClientID = -1 then
            (nextInt32 (nextInt32 s1._currentClientID), nextInt32 s1._currentClientID)
          else (nextInt32 s1._currentClientID, s1._currentClientID)
        match freshClientId (s1._clients.length + 1) s1._clients first.1 first.2 with
        | none => none
        | some (counter, id) =>
          let client : Client := { id := id, socketDescriptor := fd }
          let s2 := { s1 with
            _currentClientID := counter
            _clients := StdMap.assign id client s1._clients }
          if s2.ssl then
            let s3 := getSSLSocketDescriptor s2 client inp.tls
            if FileDescriptorManager.tlsSessionOf s3.fdm fd = none then
              some { (closeClientConnection s3 client).1 with
                _clients := StdMap.assign id (closeClientConnection s3 client).2 s3._clients }
            else some (startClient s3 client inp)
          else some (startClient s2 client inp)

/-- A run of the accept loop over a sequence of inputs. -/
def mainThreadRun (s : HttpServer) : List AcceptInput → Option HttpServer
  | [] => some s
  | inp :: rest =>
    match mainThreadAccept s inp with
    | none => none
    | some s1 => mainThreadRun s1 rest

/-- Well-formedness of the connection map: keys ascending and every record stored under
its own id, as `mainThread` inserts it (`_clients[client->id] = client`). -/
def ClientsWF (m : List (Int × Client)) : Prop :=
  StdMap.WF m ∧ ∀ e ∈ m, e.2.id = e.1

/-- A started server that listens on raw descriptor `3`, has no connection yet and admits
`ceiling` connections by its settings. -/
def listening (ceiling : Nat) : HttpServer :=
  { fdm := (FileDescriptorManager.add FileDescriptorManager.init 3).1
    _serverFileDescriptor := (FileDescriptorManager.add FileDescriptorManager.init 3).2
    _stopped := false
    _stopServer := false
    rpcServerMaxConnections := ceiling }

end HttpServer

/-! ## Responses and dispatch -/

/-- The enumeration `PacketType::Enum`. -/
inductive PacketType where
  | binaryRequest
  | binaryResponse
  | xmlRequest
  | xmlResponse
  | jsonRequest
  | jsonResponse
  | webSocketRequest
  | webSocketResponse
  deriving DecidableEq, Repr

/-- The enumeration `WebSocket::Header::Opcode`. -/
inductive WebSocketOpcode where
  | continuation
  | text
  | binary
  | close
  | ping
  | pong
  deriving DecidableEq, Repr

/-- Modelled from the spec: `BaseLib::Variable` is not among the sources. Of an RPC value
the server reads whether it is an error structure and its integer value; an error value
carries the fault code and text given to `createError`; `content` stands for everything
else in the value. -/
structure Variable where
  errorStruct : Bool := false
  faultCode : Int := 0
  faultString : String := ""
  integerValue : Int := 0
  content : Nat := 0
  deriving DecidableEq, Repr

/-- Modelled from the spec: `Variable::createError(faultCode, faultString)`, the error value
with the given code and text. -/
def Variable.createError (faultCode : Int) (faultString : String) : Variable :=
  { errorStruct := true, faultCode := faultCode, faultString := faultString }

/-- The encoders the server calls (`_xmlRpcEncoder`, `_rpcEncoder`, `_jsonEncoder`,
`WebSocket::encode`, `WebSocket::encodeClose`): external codecs, taken as given. -/
structure Codecs where
  xmlRpcEncodeResponse : Variable → String
  rpcEncodeResponse : Variable → String
  jsonEncodeResponse : Variable → Int → String
  webSocketEncode : String → WebSocketOpcode → String
  webSocketEncodeClose : String

/-- The call `std::to_string` on an unsigned number: its decimal digits. -/
def toStdString (n : Nat) : String :=
  String.mk (Nat.toDigits 10 n)

/-- Splitting of an HTTP message at its first blank line (`\r\n\r\n`): the header lines
before it and the body after it; `none` when there is no blank line. -/
def splitAtBlankLine : List Char → Option (List Char × List Char)
  | [] => none
  | c :: rest =>
    if (c :: rest).take 4 = ['\r', '\n', '\r', '\n'] then some ([], rest.drop 3)
    else (splitAtBlankLine rest).map (fun r => (c :: r.1, r.2))

namespace HttpServer

/-- The call `getHttpResponseHeader(contentType, contentLength, closeConnection)`; the
length parameter is a `uint32_t`. -/
def getHttpResponseHeader (contentType : String) (contentLength : Nat)
    (closeConnection : Bool) : String :=
  "HTTP/1.1 200 OK\r\n"
    ++ "Connection: "
    ++ (if closeConnection then "close\r\n" else "Keep-Alive\r\n")
    ++ ("Content-Type: " ++ contentType ++ "\r\n")
    ++ ("Content-Length: " ++ toStdString (contentLength % 2 ^ 32) ++ "\r\n\r\n")

/-- The data that `sendRPCResponseToClient(client, variable, messageId, responseType,
keepAlive)` builds from the value `variable` before it hands them to the overload that writes; empty for a packet
type that is no response type. -/
def encodeResponse (codecs : Codecs) (value : Variable) (messageId : Int)
    (responseType : PacketType) (keepAlive : Bool) : String :=
  match responseType with
  | PacketType.xmlResponse =>
    getHttpResponseHeader "text/xml"
        ((codecs.xmlRpcEncodeResponse value ++ "\r\n").length + 21) (!keepAlive)
      ++ "<?xml version=\"1.0\"?>"
      ++ (codecs.xmlRpcEncodeResponse value ++ "\r\n")
  | PacketType.binaryResponse => codecs.rpcEncodeResponse value
  | PacketType.jsonResponse =>
    getHttpResponseHeader "application/json"
        (codecs.jsonEncodeResponse value messageId ++ "\r\n").length (!keepAlive)
      ++ (codecs.jsonEncodeResponse value messageId ++ "\r\n")
  | PacketType.webSocketResponse =>
    codecs.webSocketEncode (codecs.jsonEncodeResponse value messageId) WebSocketOpcode.text
  | _ => ""

/-- The call `sendRPCResponseToClient(client, variable, messageId, responseType,
keepAlive)`. -/
def sendRPCResponseToClientVariable (codecs : Codecs) (s : HttpServer) (client : Client)
    (value : Variable) (messageId : Int) (responseType : PacketType) (keepAlive : Bool)
    (w : WriteOutcome) : HttpServer × Client :=
  if s._stopped then (s, client)
  else
    sendRPCResponseToClient s client
      (encodeResponse codecs value messageId responseType keepAlive) keepAlive w

/-- The top level of a decoded JSON packet, as `analyzeRPC` inspects it: whether it is a
structure and, if so, whether it has the members `user`, `id`, `method` and `params`. -/
structure DecodedJson where
  isStruct : Bool := true
  hasUser : Bool := false
  id : Option Int := none
  method : Option String := none
  params : Option (List Variable) := none

/-- What the environment supplies to one dispatch: the process-wide shutdown flag, the
time, what the binary or XML decoder and the JSON decoder make of the packet (method name
and parameters, `none` for a null parameter vector), what the fallback collaborator
`GD::ipcServer->callRpcMethod` and the handler of a registered method return (`none` when
they throw), and what the write of the response does. -/
structure DispatchEnv where
  shuttingDown : Bool := false
  now : Int := 0
  decodedRequest : String × Option (List Variable) := ("", none)
  decodedJson : DecodedJson := {}
  fallback : Option Variable := none
  invoke : Nat → List Variable → Option Variable := fun _ _ => none
  write : WriteOutcome := WriteOutcome.ok

/-- The call `callMethod(methodName, parameters)`: the server as the call leaves it and the
value returned. A failure of the handler or of the fallback is caught and answered by the
error value `-32500`. -/
def callMethod (s : HttpServer) (env : DispatchEnv) (methodName : String)
    (parameters : List Variable) : HttpServer × Variable :=
  if s._stopped || env.shuttingDown then (s, Variable.createError 100000 "Server is stopped.")
  else
    match StdMap.find methodName s._rpcMethods with
    | none =>
      match env.fallback with
      | some result => (s, result)
      | none => (s, Variable.createError (-32500) ": Unknown application error.")
    | some method =>
      match env.invoke method parameters with
      | some ret => ({ s with _lifetick1 := (env.now, true) }, ret)
      | none =>
        ({ s with _lifetick1 := (env.now, false) },
          Variable.createError (-32500) ": Unknown application error.")

/-- The call `callMethod(client, methodName, parameters, messageId, responseType,
keepAlive)`. A failure of the handler or of the fallback is caught by the handlers of the
function, which log and return. -/
def callMethodClient (codecs : Codecs) (s : HttpServer) (client : Client) (env : DispatchEnv)
    (methodName : String) (parameters : List Variable) (messageId : Int)
    (responseType : PacketType) (keepAlive : Bool) : HttpServer × Client :=
  if s._stopped || env.shuttingDown then (s, client)
  else if methodName = "setClientType" ∧ parameters.length > 0 then
    if (parameters.headD {}).integerValue = 1 then
      sendRPCResponseToClientVariable codecs s { client with addon := true } {} messageId
        responseType keepAlive env.write
    else (s, client)
  else
    match StdMap.find methodName s._rpcMethods with
    | none =>
      match env.fallback with
      | some result =>
        sendRPCResponseToClientVariable codecs s client result messageId responseType
          keepAlive env.write
      | none => (s, client)
    | some method =>
      match env.invoke method parameters with
      | some ret =>
        ({ (sendRPCResponseToClientVariable codecs { s with _lifetick2 := (env.now, false) }
              client ret messageId responseType keepAlive env.write).1 with
            _lifetick2 := (env.now, true) },
          (sendRPCResponseToClientVariable codecs { s with _lifetick2 := (env.now, false) }
            client ret messageId responseType keepAlive env.write).2)
      | none => ({ s with _lifetick2 := (env.now, false) }, client)

/-- The response type that `analyzeRPC` derives from the packet type. -/
def responseTypeOf : PacketType → PacketType
  | PacketType.binaryRequest => PacketType.binaryResponse
  | PacketType.xmlRequest => PacketType.xmlResponse
  | PacketType.jsonRequest => PacketType.jsonResponse
  | PacketType.webSocketRequest => PacketType.webSocketResponse
  | _ => PacketType.xmlResponse

/-- The record after `analyzeRPC` has noted the wire format of a connection whose format
was unknown. -/
def noteRpcType (client : Client) (t : RpcType) : Client :=
  if client.rpcType = RpcType.unknown then { client with rpcType := t } else client

/-- The tail of `analyzeRPC`, from the test of the parameter vector on. -/
def analyzeRPCParameters (codecs : Codecs) (s : HttpServer) (client : Client)
    (env : DispatchEnv) (methodName : String) (parameters : Option (List Variable))
    (messageId : Int) (responseType : PacketType) (keepAlive : Bool) : HttpServer × Client :=
  match parameters with
  | none =>
    sendRPCResponseToClientVariable codecs s client
      (Variable.createError (-32500) "Could not decode RPC packet. Parameters are empty.")
      messageId responseType keepAlive env.write
  | some ps =>
    match ps with
    | p :: _ =>
      if p.errorStruct then
        sendRPCResponseToClientVariable codecs s client p messageId responseType keepAlive
          env.write
      else
        callMethodClient codecs s client env methodName ps messageId responseType keepAlive
    | [] => callMethodClient codecs s client env methodName ps messageId responseType keepAlive

/-- The call `analyzeRPC(client, packet, packetType, keepAlive)`; what the decoders make of
the packet is in `env`. -/
def analyzeRPC (codecs : Codecs) (s : HttpServer) (client : Client) (env : DispatchEnv)
    (packetType : PacketType) (keepAlive : Bool) : HttpServer × Client :=
  if s._stopped then (s, client)
  else
    match packetType with
    | PacketType.binaryRequest =>
      analyzeRPCParameters codecs s (noteRpcType client RpcType.binary) env
        env.decodedRequest.1 env.decodedRequest.2 0 (responseTypeOf packetType) keepAlive
    | PacketType.xmlRequest =>
      analyzeRPCParameters codecs s (noteRpcType client RpcType.xml) env
        env.decodedRequest.1 env.decodedRequest.2 0 (responseTypeOf packetType) keepAlive
    | PacketType.jsonRequest | PacketType.webSocketRequest =>
      if env.decodedJson.isStruct then
        if env.decodedJson.hasUser then
          closeClientConnection s (noteRpcType client RpcType.json)
        else
          match env.decodedJson.method with
          | none =>
            sendRPCResponseToClientVariable codecs s (noteRpcType client RpcType.json)
              (Variable.createError (-32500)
                "Could not decode RPC packet. \"method\" not found in JSON.")
              (env.decodedJson.id.getD 0) (responseTypeOf packetType) keepAlive env.write
          | some methodName =>
            analyzeRPCParameters codecs s (noteRpcType client RpcType.json) env methodName
              (some (env.decodedJson.params.getD [])) (env.decodedJson.id.getD 0)
              (responseTypeOf packetType) keepAlive
      else
        analyzeRPCParameters codecs s (noteRpcType client RpcType.json) env "" none 0
          (responseTypeOf packetType) keepAlive
    | _ =>
      analyzeRPCParameters codecs s client env "" none 0 (responseTypeOf packetType) keepAlive

/-- A request is decoded to a call of `methodName` with the parameters `ps` and the message
id `mid`: for a binary or XML request by `decodeRequest` (the id is `0`); for a JSON or
WebSocket request by the JSON decoder, which yields a structure without the member `user`
and with the member `method` (parameters from `params`, else none; id from `id`, else
`0`). -/
def decodesTo (env : DispatchEnv) (packetType : PacketType) (methodName : String)
    (ps : List Variable) (mid : Int) : Prop :=
  ((packetType = PacketType.binaryRequest ∨ packetType = PacketType.xmlRequest)
      ∧ env.decodedRequest = (methodName, some ps) ∧ mid = 0)
    ∨ ((packetType = PacketType.jsonRequest ∨ packetType = PacketType.webSocketRequest)
      ∧ env.decodedJson.isStruct = true ∧ env.decodedJson.hasUser = false
      ∧ env.decodedJson.method = some methodName
      ∧ env.decodedJson.params.getD [] = ps ∧ env.decodedJson.id.getD 0 = mid)

instance (env : DispatchEnv) (packetType : PacketType) (methodName : String)
    (ps : List Variable) (mid : Int) : Decidable (decodesTo env packetType methodName ps mid) := by
  unfold decodesTo
  infer_instance

/-- The call `packetReceived(client, packet, packetType, keepAlive)`: requests go to
`analyzeRPC`; responses go to `analyzeRPCResponse`, which decodes and logs only. -/
def packetReceived (codecs : Codecs) (s : HttpServer) (client : Client) (env : DispatchEnv)
    (packet : String) (packetType : PacketType) (keepAlive : Bool) : HttpServer × Client :=
  let s1 := { s with
    actions := s.actions ++ [ServerAction.packetReceived client.id packet keepAlive] }
  match packetType with
  | PacketType.binaryRequest | PacketType.xmlRequest | PacketType.jsonRequest
  | PacketType.webSocketRequest => analyzeRPC codecs s1 client env packetType keepAlive
  | _ => (s1, client)

/-- A finished frame as the WebSocket parser presents it: the close flag and the opcode of
its header, and its content. -/
structure WebSocketFrame where
  close : Bool := false
  opcode : WebSocketOpcode := WebSocketOpcode.text
  content : String := ""
  deriving DecidableEq, Repr

/-- What the authentication check (`auth.basicServer`, `auth.sessionServer`) does with the
frame: it accepts, it rejects, or it throws an `AuthException`. -/
inductive AuthOutcome where
  | accepted
  | rejected
  | exception
  deriving DecidableEq, Repr

/-- How a pass of the reader loop ends: the loop goes on, or it is left by `break`. -/
inductive LoopControl where
  | next
  | exit
  deriving DecidableEq, Repr

/-- Hand-over of a client-role connection to the outbound-client registry: the socket is
passed on, the record gets a fresh placeholder handle and a socket without descriptor and
is flagged closed. -/
def transferToRpcClient (s : HttpServer) (client : Client) : HttpServer × Client :=
  ({ s with
      fdm := (FileDescriptorManager.alloc s.fdm {}).1
      actions := s.actions ++ [ServerAction.addWebSocketServer client.socket
        client.webSocketClientId client.address client.nodeClient] },
    { client with
      socketDescriptor := (FileDescriptorManager.alloc s.fdm {}).2
      socket := none
      closed := true })

/-- The block of `readClient` that handles a finished WebSocket frame on a connection whose
`rpcType` is `websocket`. -/
def readClientWebSocketFrame (codecs : Codecs) (s : HttpServer) (client : Client)
    (frame : WebSocketFrame) (packetType : PacketType) (auth : AuthOutcome)
    (env : DispatchEnv) : (HttpServer × Client) × LoopControl :=
  if frame.close then
    (closeClientConnection
        (sendRPCResponseToClient s client
          (codecs.webSocketEncode frame.content WebSocketOpcode.close) false env.write).1
        (sendRPCResponseToClient s client
          (codecs.webSocketEncode frame.content WebSocketOpcode.close) false env.write).2,
      LoopControl.next)
  else if (s.websocketAuthType = AuthType.basic ∨ s.websocketAuthType = AuthType.session)
      ∧ client.webSocketAuthorized = false then
    match auth with
    | AuthOutcome.rejected =>
      (sendRPCResponseToClient s client codecs.webSocketEncodeClose false env.write,
        LoopControl.exit)
    | AuthOutcome.exception => ((s, client), LoopControl.exit)
    | AuthOutcome.accepted =>
      if client.webSocketClient then
        (transferToRpcClient s { client with webSocketAuthorized := true }, LoopControl.exit)
      else ((s, { client with webSocketAuthorized := true }), LoopControl.next)
  else if frame.opcode = WebSocketOpcode.ping then
    (sendRPCResponseToClient s client
      (codecs.webSocketEncode frame.content WebSocketOpcode.pong) false env.write,
      LoopControl.next)
  else (packetReceived codecs s client env frame.content packetType true, LoopControl.next)

/-- The end of `readClient`, reached when the loop is left: a WebSocket connection is sent
a close frame, and the connection is closed. -/
def readClientExit (codecs : Codecs) (s : HttpServer) (client : Client) (w : WriteOutcome) :
    HttpServer × Client :=
  if client.rpcType = RpcType.websocket then
    closeClientConnection
      (sendRPCResponseToClient s client
        (codecs.webSocketEncode "" WebSocketOpcode.close) false w).1
      (sendRPCResponseToClient s client
        (codecs.webSocketEncode "" WebSocketOpcode.close) false w).2
  else closeClientConnection s client

/-- The settings of `_info` that `readClient` reads besides `websocketAuthType`: which
servers are enabled, the redirect target and the auth type of plain requests. -/
structure ServerInfo where
  xmlrpcServer : Bool := true
  jsonrpcServer : Bool := true
  webServer : Bool := false
  webSocket : Bool := true
  redirectTo : String := ""
  authType : AuthType := AuthType.none
  deriving DecidableEq, Repr

/-- Modelled from the spec: the parser `BaseLib::Rpc::BinaryRpc` is not among the sources.
What the server reads of it: whether processing has started, whether a packet is finished,
whether that packet is a request (`getType()`), and the packet's data. `reset()` returns
the parser to this initial state. -/
structure BinaryRpc where
  processingStarted : Bool := false
  finished : Bool := false
  request : Bool := true
  data : String := ""
  deriving DecidableEq, Repr

/-- Modelled from the spec: the parser `BaseLib::Http` is not among the sources. What the
server reads of it: whether header processing has started, whether a message is finished,
the size of the content received and the content, and of the header the parts read by the
upgrade handler, the method, the content type and the `upgrade` and `keepAlive` bits of
`connection`. `reset()` returns the parser to this initial state. -/
structure Http where
  headerProcessingStarted : Bool := false
  finished : Bool := false
  contentSize : Nat := 0
  content : String := ""
  header : HttpHeader := {}
  method : String := ""
  contentType : String := ""
  connectionUpgrade : Bool := false
  connectionKeepAlive : Bool := false
  deriving DecidableEq, Repr

/-- Modelled from the spec: the parser `BaseLib::WebSocket` is not among the sources. What
the server reads of it: whether data processing has started, whether a frame is finished,
and that frame. `reset()` returns the parser to this initial state. -/
structure WebSocket where
  dataProcessingStarted : Bool := false
  finished : Bool := false
  frame : WebSocketFrame := {}
  deriving DecidableEq, Repr

/-- The local variables of `readClient` that live across passes of its loop: the packet
type and the three parsers. -/
structure ReaderState where
  packetType : PacketType := PacketType.binaryRequest
  binaryRpc : BinaryRpc := {}
  http : Http := {}
  webSocket : WebSocket := {}
  deriving DecidableEq, Repr

/-- What `client->socket->proofread` does in one pass of the loop: it delivers bytes, or it
throws one of the three socket exceptions the loop handles. -/
inductive ReadOutcome where
  | data
  | timeOut
  | closed
  | operationException
  deriving DecidableEq, Repr

/-- What the environment supplies to one round of the inner loop of the binary branch: what
`binaryRpc.process` does (the number of bytes it consumed and the parser after the call,
or `none` when it throws `BinaryRpcException`), what the authentication check makes of a
finished packet, and the dispatch environment for that packet. -/
structure BinaryRound where
  processed : Option (Nat × BinaryRpc) := none
  auth : AuthOutcome := AuthOutcome.accepted
  dispatch : DispatchEnv := {}

/-- What the environment supplies to one pass of the reader loop: the outcome of the read,
the buffer after it and the number of bytes read (a second read that follows a first read
of one byte is part of this); what `http.process` and `webSocket.process` make of a parser
and the bytes (for HTTP together with whether the call throws `HttpException`); the rounds
of the binary loop; the page `_webServer->getError` builds; what the authentication check
does; what a write of the reader itself does; and the dispatch environment. -/
structure ReaderEnv where
  read : ReadOutcome := ReadOutcome.data
  buffer : String := ""
  bytesRead : Nat := 0
  httpProcess : Http → String → Nat → Http × Bool := fun h _ _ => (h, false)
  webSocketProcess : WebSocket → String → Nat → WebSocket := fun w _ _ => w
  binaryRounds : List BinaryRound := []
  getError : Nat → String → String → List String → String := fun _ _ _ _ => "error"
  auth : AuthOutcome := AuthOutcome.accepted
  write : WriteOutcome := WriteOutcome.ok
  dispatch : DispatchEnv := {}

/-- The test `!strncmp(buffer, str, n)` for a text `str` of at least `n` characters: the
first `n` bytes of the buffer are those of `str`. -/
def strncmpIsZero (buffer str : String) (n : Nat) : Bool :=
  decide (buffer.data.take n = str.data.take n)

/-- The four branches of the framing chain of `readClient`: the binary branch, the branch
taken when no parser has started, the branch that continues an HTTP message or a WebSocket
frame, and the final `else` (`Uninterpretable packet received`). -/
inductive FramingBranch where
  | binary
  | sniff
  | continuation
  | uninterpretable
  deriving DecidableEq, Repr

/-- The conditions of the framing chain of `readClient`, in order. -/
def framingBranch (r : ReaderState) (buffer : String) : FramingBranch :=
  if r.binaryRpc.processingStarted = true
      ∨ (r.binaryRpc.processingStarted = false ∧ r.http.headerProcessingStarted = false
        ∧ r.webSocket.dataProcessingStarted = false ∧ strncmpIsZero buffer "Bin" 3 = true) then
    FramingBranch.binary
  else if r.binaryRpc.processingStarted = false ∧ r.http.headerProcessingStarted = false
      ∧ r.webSocket.dataProcessingStarted = false then
    FramingBranch.sniff
  else if r.http.headerProcessingStarted = true ∨ r.webSocket.dataProcessingStarted = true then
    FramingBranch.continuation
  else FramingBranch.uninterpretable

/-- The inner loop of the binary branch, from `processedBytes` on. Each round feeds the
parser; a finished packet is checked (with auth type `basic`), dispatched, and the parser
reset. A failed check leaves the inner loop only; `BinaryRpcException` resets the parser
and leaves the reader loop. `none` when the rounds supplied run out. -/
def readClientBinaryLoop (codecs : Codecs) (info : ServerInfo) (bytesRead : Nat) :
    List BinaryRound → Nat → HttpServer → Client → ReaderState →
    Option ((HttpServer × Client) × ReaderState × LoopControl)
  | [], processedBytes, s, client, r =>
    if processedBytes < bytesRead then none else some ((s, client), r, LoopControl.next)
  | round :: rest, processedBytes, s, client, r =>
    if processedBytes < bytesRead then
      match round.processed with
      | none => some ((s, client), { r with binaryRpc := {} }, LoopControl.exit)
      | some (n, parser) =>
        if parser.finished then
          if info.authType = AuthType.basic ∧ round.auth ≠ AuthOutcome.accepted then
            some ((s, client), { r with binaryRpc := parser }, LoopControl.next)
          else if FileDescriptorManager.descriptorOf
              (packetReceived codecs s client round.dispatch parser.data
                (if parser.request then PacketType.binaryRequest
                  else PacketType.binaryResponse) true).1.fdm
              (packetReceived codecs s client round.dispatch parser.data
                (if parser.request then PacketType.binaryRequest
                  else PacketType.binaryResponse) true).2.socketDescriptor = -1 then
            some (packetReceived codecs s client round.dispatch parser.data
                (if parser.request then PacketType.binaryRequest
                  else PacketType.binaryResponse) true,
              { r with
                packetType := if parser.request then PacketType.binaryRequest
                  else PacketType.binaryResponse
                binaryRpc := {} },
              LoopControl.next)
          else
            readClientBinaryLoop codecs info bytesRead rest (processedBytes + n)
              (packetReceived codecs s client round.dispatch parser.data
                (if parser.request then PacketType.binaryRequest
                  else PacketType.binaryResponse) true).1
              (packetReceived codecs s client round.dispatch parser.data
                (if parser.request then PacketType.binaryRequest
                  else PacketType.binaryResponse) true).2
              { r with
                packetType := if parser.request then PacketType.binaryRequest
                  else PacketType.binaryResponse
                binaryRpc := {} }
        else
          readClientBinaryLoop codecs info bytesRead rest (processedBytes + n) s client
            { r with binaryRpc := parser }
    else some ((s, client), r, LoopControl.next)

/-- The binary branch of the framing chain: skipped when the XML-RPC server is disabled;
the pass ends with `continue` unless the loop is left. -/
def readClientBinary (codecs : Codecs) (info : ServerInfo) (s : HttpServer) (client : Client)
    (r : ReaderState) (env : ReaderEnv) :
    Option ((HttpServer × Client) × ReaderState × LoopControl) :=
  if info.xmlrpcServer = false then some ((s, client), r, LoopControl.next)
  else readClientBinaryLoop codecs info env.bytesRead env.binaryRounds 0 s client r

/-- The branch of the framing chain taken when no parser has started. The last component
is `some LoopControl.next` when the pass ends with `continue`, and `none` when the pass
goes on after the chain. -/
def readClientSniff (info : ServerInfo) (s : HttpServer) (client : Client)
    (r : ReaderState) (env : ReaderEnv) :
    (HttpServer × Client) × ReaderState × Option LoopControl :=
  if strncmpIsZero env.buffer "GET " 4 = true ∨ strncmpIsZero env.buffer "HEAD " 5 = true then
    if info.redirectTo ≠ "" then
      (sendRPCResponseToClient s client
          (env.getError 301 "Moved Permanently"
            ("The document has moved <a href=\"" ++ info.redirectTo ++ "\">here</a>.")
            ["Location: " ++ info.redirectTo]) false env.write,
        { r with packetType := PacketType.xmlRequest }, some LoopControl.next)
    else if info.webServer = false then
      (sendRPCResponseToClient s client
          (env.getError 400 "Bad Request"
            "Your client sent a request that this server could not understand." [])
          false env.write,
        { r with packetType := PacketType.xmlRequest }, some LoopControl.next)
    else if (env.httpProcess {} env.buffer env.bytesRead).2 = true then
      (sendRPCResponseToClient s client
          (env.getError 400 "Bad Request"
            "Your client sent a request that this server could not understand." [])
          false env.write,
        { r with
          packetType := PacketType.xmlRequest
          http := (env.httpProcess {} env.buffer env.bytesRead).1 }, none)
    else
      ((s, client),
        { r with
          packetType := PacketType.xmlRequest
          http := (env.httpProcess {} env.buffer env.bytesRead).1 }, none)
  else if strncmpIsZero env.buffer "POST" 4 = true
      ∨ strncmpIsZero env.buffer "HTTP/1." 7 = true then
    if env.bytesRead < 8 then ((s, client), r, some LoopControl.next)
    else
      ((s, client),
        { r with
          packetType :=
            if strncmpIsZero env.buffer "POST" 4 = true then PacketType.xmlRequest
            else PacketType.xmlResponse
          http := (env.httpProcess {} env.buffer env.bytesRead).1 }, none)
  else if client.rpcType = RpcType.websocket then
    ((s, client),
      { r with
        packetType := PacketType.webSocketRequest
        webSocket := env.webSocketProcess {} env.buffer env.bytesRead }, none)
  else ((s, client), r, none)

/-- The HTTP parser as the continuation branch leaves it after the feed and before the
test of the content size: the parser after the call, or the reset parser when the call
threw. -/
def httpAfterFeed (r : ReaderState) (env : ReaderEnv) : Http :=
  if (env.httpProcess r.http env.buffer env.bytesRead).2 = true then {}
  else (env.httpProcess r.http env.buffer env.bytesRead).1

/-- The branch of the framing chain that continues an HTTP message or a WebSocket frame.
For HTTP, a failure of the parser is answered by `400` and a reset; then a content size
above 10485760 is answered by `400` and a reset. -/
def readClientContinuation (s : HttpServer) (client : Client) (r : ReaderState)
    (env : ReaderEnv) : (HttpServer × Client) × ReaderState :=
  if client.rpcType = RpcType.websocket then
    ((s, client),
      { r with webSocket := env.webSocketProcess r.webSocket env.buffer env.bytesRead })
  else if (httpAfterFeed r env).contentSize > 10485760 then
    (sendRPCResponseToClient
        (if (env.httpProcess r.http env.buffer env.bytesRead).2 = true then
          sendRPCResponseToClient s client
            (env.getError 400 "Bad Request"
              "Your client sent a request that the server couldn't understand.." [])
            false env.write
        else (s, client)).1
        (if (env.httpProcess r.http env.buffer env.bytesRead).2 = true then
          sendRPCResponseToClient s client
            (env.getError 400 "Bad Request"
              "Your client sent a request that the server couldn't understand.." [])
            false env.write
        else (s, client)).2
        (env.getError 400 "Bad Request" "Your client sent a request larger than 10 MiB." [])
        false env.write,
      { r with http := {} })
  else
    (if (env.httpProcess r.http env.buffer env.bytesRead).2 = true then
        sendRPCResponseToClient s client
          (env.getError 400 "Bad Request"
            "Your client sent a request that the server couldn't understand.." [])
          false env.write
      else (s, client),
      { r with http := httpAfterFeed r env })

/-- The framing chain of `readClient`. The last component is `some` when the pass ends in
the chain (`continue` or `break`) and `none` when the pass goes on after it. -/
def readClientFraming (codecs : Codecs) (info : ServerInfo) (s : HttpServer)
    (client : Client) (r : ReaderState) (env : ReaderEnv) :
    Option ((HttpServer × Client) × ReaderState × Option LoopControl) :=
  match framingBranch r env.buffer with
  | FramingBranch.binary =>
    (readClientBinary codecs info s client r env).map (fun x => (x.1, x.2.1, some x.2.2))
  | FramingBranch.sniff => some (readClientSniff info s client r env)
  | FramingBranch.continuation =>
    some ((readClientContinuation s client r env).1,
      (readClientContinuation s client r env).2, none)
  | FramingBranch.uninterpretable => some ((s, client), r, some LoopControl.exit)

/-- Whether a finished HTTP message goes to the web server: the web server is enabled and
the message is neither an XML-RPC nor a JSON-RPC request that the server answers itself. -/
def isWebServerRequest (info : ServerInfo) (http : Http) : Bool :=
  info.webServer
    && (!info.xmlrpcServer || decide (http.method ≠ "POST")
      || (decide (http.contentType ≠ "") && decide (http.contentType ≠ "text/xml")))
    && (!info.jsonrpcServer || decide (http.method ≠ "POST")
      || (decide (http.contentType ≠ "") && decide (http.contentType ≠ "application/json"))
      || decide (http.header.path = "/flows/flows"))

/-- The packet type with which a finished HTTP message is dispatched. -/
def httpPacketType (r : ReaderState) : PacketType :=
  if r.http.contentType = "application/json" ∨ r.http.content.data.head? = some '\x7b' then
    PacketType.jsonRequest
  else r.packetType

/-- The block of `readClient` that handles a finished HTTP message: a connection upgrade
goes to `handleConnectionUpgrade`, after which the loop is left when the record is flagged
closed; otherwise, after the authentication check, the message goes to the web server or is
dispatched, the parser is reset, and the loop is left when the record's handle has lost its
descriptor. Of the web server only the call is recorded; what it does with the socket is
not represented. -/
def readClientHttpFinished (codecs : Codecs) (info : ServerInfo) (s : HttpServer)
    (client : Client) (r : ReaderState) (env : ReaderEnv) :
    (HttpServer × Client) × ReaderState × LoopControl :=
  if info.webSocket = true ∧ r.http.connectionUpgrade = true then
    if (handleConnectionUpgrade s client r.http.header env.write).2.closed = true then
      (handleConnectionUpgrade s client r.http.header env.write, r, LoopControl.exit)
    else
      (handleConnectionUpgrade s client r.http.header env.write, { r with http := {} },
        LoopControl.next)
  else if info.authType = AuthType.basic ∧ env.auth ≠ AuthOutcome.accepted then
    ((s, client), r, LoopControl.exit)
  else if isWebServerRequest info r.http = true then
    if r.http.method = "POST" then
      (({ s with actions := s.actions ++ [ServerAction.webServerPost client.socket] }, client),
        { r with http := {} },
        if FileDescriptorManager.descriptorOf s.fdm client.socketDescriptor = -1 then
          LoopControl.exit
        else LoopControl.next)
    else if r.http.method = "GET" ∨ r.http.method = "HEAD" then
      (({ s with actions := s.actions ++ [ServerAction.webServerGet client.socket] }, client),
        { r with http := {} },
        if FileDescriptorManager.descriptorOf s.fdm client.socketDescriptor = -1 then
          LoopControl.exit
        else LoopControl.next)
    else
      ((s, client), { r with http := {} },
        if FileDescriptorManager.descriptorOf s.fdm client.socketDescriptor = -1 then
          LoopControl.exit
        else LoopControl.next)
  else if r.http.contentSize > 0 ∧ (info.xmlrpcServer = true ∨ info.jsonrpcServer = true) then
    (packetReceived codecs s client env.dispatch r.http.content (httpPacketType r)
        r.http.connectionKeepAlive,
      { r with packetType := httpPacketType r, http := {} },
      if FileDescriptorManager.descriptorOf
          (packetReceived codecs s client env.dispatch r.http.content (httpPacketType r)
            r.http.connectionKeepAlive).1.fdm
          (packetReceived codecs s client env.dispatch r.http.content (httpPacketType r)
            r.http.connectionKeepAlive).2.socketDescriptor = -1 then
        LoopControl.exit
      else LoopControl.next)
  else
    ((s, client), { r with http := {} },
      if FileDescriptorManager.descriptorOf s.fdm client.socketDescriptor = -1 then
        LoopControl.exit
      else LoopControl.next)

/-- The part of a pass of `readClient` after the framing chain: a finished WebSocket frame
of a WebSocket connection is handled and the parser reset (unless the loop is left);
otherwise a finished HTTP message is handled. -/
def readClientAfterFraming (codecs : Codecs) (info : ServerInfo) (s : HttpServer)
    (client : Client) (r : ReaderState) (env : ReaderEnv) :
    (HttpServer × Client) × ReaderState × LoopControl :=
  if client.rpcType = RpcType.websocket ∧ r.webSocket.finished = true then
    match (readClientWebSocketFrame codecs s client r.webSocket.frame r.packetType env.auth
        env.dispatch).2 with
    | LoopControl.exit =>
      ((readClientWebSocketFrame codecs s client r.webSocket.frame r.packetType env.auth
          env.dispatch).1, r, LoopControl.exit)
    | LoopControl.next =>
      ((readClientWebSocketFrame codecs s client r.webSocket.frame r.packetType env.auth
          env.dispatch).1, { r with webSocket := {} }, LoopControl.next)
  else if r.http.finished = true then readClientHttpFinished codecs info s client r env
  else ((s, client), r, LoopControl.next)

/-- One pass of the loop of `readClient`: the read, the test of the client, the framing
chain and the handling of a finished frame or message. `LoopControl.next` stands for
going on with the next pass and `LoopControl.exit` for leaving the loop; `none` when the
rounds supplied for the binary loop run out. -/
def readClientPass (codecs : Codecs) (info : ServerInfo) (s : HttpServer) (client : Client)
    (r : ReaderState) (env : ReaderEnv) :
    Option ((HttpServer × Client) × ReaderState × LoopControl) :=
  match env.read with
  | ReadOutcome.timeOut => some ((s, client), r, LoopControl.next)
  | ReadOutcome.closed => some ((s, client), r, LoopControl.exit)
  | ReadOutcome.operationException => some ((s, client), r, LoopControl.exit)
  | ReadOutcome.data =>
    if clientValid s client = false then some ((s, client), r, LoopControl.exit)
    else
      match readClientFraming codecs info s client r env with
      | none => none
      | some (sc, r1, some control) => some (sc, r1, control)
      | some (sc, r1, none) => some (readClientAfterFraming codecs info sc.1 sc.2 r1 env)

/-- What it means that a step has handed the connection of `client` over to the
outbound-client registry and released it, `r` being server and record after the step and
`written` the writes of the step before the hand-over: after `written`, the socket of the
record was passed to `addWebSocketServer` with the record's id; the record is flagged
closed and its handle is a fresh placeholder; no call was issued on a descriptor; the
original handle is still valid in the registry; and the end of `readClient` changes
nothing any more, so it issues no call and no write either. -/
structure HandedOver (codecs : Codecs) (s : HttpServer) (client : Client)
    (r : HttpServer × Client) (written : List ServerAction) : Prop where
  passed : r.1.actions = s.actions ++ written ++
    [ServerAction.addWebSocketServer client.socket r.2.webSocketClientId client.address
      r.2.nodeClient]
  closed : r.2.closed = true
  placeholder : FileDescriptorManager.descriptorOf r.1.fdm r.2.socketDescriptor = -1
  fresh : r.2.socketDescriptor ≠ client.socketDescriptor
  noCalls : r.1.fdm.sysCalls = s.fdm.sysCalls
  stillValid : FileDescriptorManager.isValid r.1.fdm client.socketDescriptor = true
  exitIdle : ∀ w, readClientExit codecs r.1 r.2 w = r

end HttpServer

/-- Sample codecs for concrete runs: every encoder returns a fixed short text. -/
def sampleCodecs : Codecs :=
  { xmlRpcEncodeResponse := fun _ => "<methodResponse/>"
    rpcEncodeResponse := fun _ => "Bin"
    jsonEncodeResponse := fun _ _ => "{}"
    webSocketEncode := fun content _ => "ws:" ++ content
    webSocketEncodeClose := "ws-close" }

/-- A running server with one connection on raw descriptor `10` (handle `0`) and the
method `listDevices` registered with handler `1`. -/
def sampleServer : HttpServer :=
  { fdm := (FileDescriptorManager.add FileDescriptorManager.init 10).1
    _clients := [(0, { id := 0, socketDescriptor := 0, socket := some 0 })]
    _rpcMethods := [("listDevices", 1)]
    _stopped := false
    _stopServer := false }

/-- The record of the connection of `sampleServer`. -/
def sampleClient : Client :=
  { id := 0, socketDescriptor := 0, socket := some 0 }

/-- Codecs whose XML encoder returns a text of `2 ^ 32 - 23` bytes. -/
def longCodecs : Codecs :=
  { xmlRpcEncodeResponse := fun _ => String.mk (List.replicate 4294967273 'x')
    rpcEncodeResponse := fun _ => "Bin"
    jsonEncodeResponse := fun _ _ => "null"
    webSocketEncode := fun content _ => "ws:" ++ content
    webSocketEncodeClose := "ws-close" }

namespace StdMap

variable {K V : Type} [DecidableEq K] [LT K] [DecidableRel (fun a b : K => a < b)]

theorem find_erase (k k' : K) (m : List (K × V)) :
    find k (erase k' m) = if k = k' then none else find k m := by
  induction m with
  | nil => simp [erase, find]
  | cons e rest ih =>
    obtain ⟨a, v⟩ := e
    by_cases h1 : a = k'
    · by_cases h2 : k = k'
      · subst h2
        simpa [erase, find, h1] using ih
      · have h3 : ¬ k' = k := fun h => h2 h.symm
        simp [erase, find, h1, h2, h3, ih]
    · by_cases h2 : k = k'
      · subst h2
        simpa [erase, find, h1] using ih
      · simp [erase, find, h1, h2, ih]

theorem find_insertSorted (k k' : K) (v : V) (m : List (K × V)) (hk : find k' m = none) :
    find k (insertSorted k' v m) = if k = k' then some v else find k m := by
  induction m with
  | nil =>
    by_cases h : k = k'
    · simp [insertSorted, find, h]
    · have h3 : ¬ k' = k := fun e => h e.symm
      simp [insertSorted, find, h, h3]
  | cons e rest ih =>
    obtain ⟨a, w⟩ := e
    have ha : ¬ a = k' := by
      intro e
      simp [find, e] at hk
    have hrest : find k' rest = none := by
      simpa [find, ha] using hk
    by_cases hlt : k' < a
    · by_cases h : k = k'
      · simp [insertSorted, find, hlt, h]
      · have h3 : ¬ k' = k := fun e => h e.symm
        simp [insertSorted, find, hlt, h, h3]
    · by_cases h : k = k'
      · subst h
        simp [insertSorted, find, hlt, ha, ih hrest]
      · simp [insertSorted, find, hlt, h, ih hrest]

theorem find_assign (k k' : K) (v : V) (m : List (K × V)) :
    find k (assign k' v m) = if k = k' then some v else find k m := by
  unfold assign
  rw [find_insertSorted k k' v (erase k' m) (by simp [find_erase])]
  by_cases h : k = k'
  · simp [h]
  · simp [h, find_erase]

end StdMap

/-! ## Lemmas on the descriptor registry -/

namespace FileDescriptorManager

theorem registered_eq_some {s : FileDescriptorManager} {h : Nat} {o : FileDescriptor}
    (hh : registered s h = some o) : s.heap[h]? = some o ∧ 0 ≤ o.descriptor := by
  unfold registered at hh
  split at hh
  · simp at hh
  · rename_i o' ho
    split at hh
    · simp at hh
    · split at hh
      · split at hh
        · simp only [Option.some.injEq] at hh
          subst hh
          exact ⟨ho, by omega⟩
        · simp at hh
      · simp at hh

theorem registered_of_neg {s : FileDescriptorManager} {h : Nat}
    (hneg : descriptorOf s h < 0) : registered s h = none := by
  unfold registered
  unfold descriptorOf at hneg
  split
  · rfl
  · rename_i o ho
    rw [ho] at hneg
    simp only at hneg
    simp [hneg]

theorem registered_of_inv {s : FileDescriptorManager} {h : Nat} {o : FileDescriptor}
    (hinv : Inv s) (ho : s.heap[h]? = some o) (hd : 0 ≤ o.descriptor) :
    registered s h = some o := by
  have hfind := hinv.live h o ho hd
  have hnot : ¬ o.descriptor < 0 := by omega
  simp [registered, ho, hnot, hfind, entryHasId]

theorem isValid_eq_isSome (s : FileDescriptorManager) (h : Nat) :
    isValid s h = (registered s h).isSome := by
  unfold isValid registered
  split
  · rfl
  · split
    · rfl
    · split
      · split <;> simp_all
      · rfl

theorem isValid_iff_of_inv {s : FileDescriptorManager} (hinv : Inv s) {h : Nat}
    (hh : h < s.heap.length) : isValid s h = true ↔ 0 ≤ descriptorOf s h := by
  rw [isValid_eq_isSome]
  obtain ⟨o, ho⟩ : ∃ o, s.heap[h]? = some o := ⟨s.heap[h], by simp [hh]⟩
  have hdesc : descriptorOf s h = o.descriptor := by simp [descriptorOf, ho]
  rw [hdesc]
  constructor
  · intro hv
    cases hr : registered s h with
    | none => simp [hr] at hv
    | some o' =>
      have := registered_eq_some hr
      rw [ho] at this
      simp only [Option.some.injEq] at this
      rw [this.1]
      exact this.2
  · intro hd
    rw [registered_of_inv hinv ho hd]
    rfl

theorem close_of_none {s : FileDescriptorManager} {h : Nat} (hr : registered s h = none) :
    close s h = s := by
  simp [close, hr]

theorem shutdown_of_none {s : FileDescriptorManager} {h : Nat} (hr : registered s h = none) :
    shutdown s h = s := by
  simp [shutdown, hr]

theorem close_of_some {s : FileDescriptorManager} {h : Nat} {o : FileDescriptor}
    (hr : registered s h = some o) :
    (close s h).heap = s.heap.set h (cleared o) ∧
    (close s h)._descriptors = StdMap.erase o.descriptor s._descriptors ∧
    (close s h)._disposed = s._disposed := by
  simp [close, hr, cleared]

theorem shutdown_of_some {s : FileDescriptorManager} {h : Nat} {o : FileDescriptor}
    (hr : registered s h = some o) :
    (shutdown s h).heap = s.heap.set h (cleared o) ∧
    (shutdown s h)._descriptors = StdMap.erase o.descriptor s._descriptors ∧
    (shutdown s h)._disposed = s._disposed := by
  simp [shutdown, hr, cleared]

/-- Clearing a registered handle and erasing its entry keeps map and handles consistent. -/
theorem inv_release {s s' : FileDescriptorManager} {h : Nat} {o : FileDescriptor}
    (hinv : Inv s) (hr : registered s h = some o)
    (hheap : s'.heap = s.heap.set h (cleared o))
    (hmap : s'._descriptors = StdMap.erase o.descriptor s._descriptors) : Inv s' := by
  obtain ⟨ho, hd⟩ := registered_eq_some hr
  have hfind := hinv.live h o ho hd
  constructor
  · intro p o' hp hd'
    rw [hheap, List.getElem?_set] at hp
    by_cases hph : h = p
    · subst hph
      split at hp
      · split at hp
        · simp only [Option.some.injEq] at hp
          subst hp
          simp [cleared] at hd'
        · simp at hp
      · contradiction
    · simp only [hph, if_false] at hp
      have hf := hinv.live p o' hp hd'
      have hne : o'.descriptor ≠ o.descriptor := by
        intro e
        rw [e, hfind] at hf
        simp only [Option.some.injEq] at hf
        exact hph hf
      rw [hmap, StdMap.find_erase]
      simp [hne, hf]
  · intro d q hq
    rw [hmap, StdMap.find_erase] at hq
    by_cases hdo : d = o.descriptor
    · simp [hdo] at hq
    · simp only [hdo, if_false] at hq
      obtain ⟨o', ho', hd'⟩ := hinv.entry d q hq
      have hqh : h ≠ q := by
        intro e
        subst e
        rw [ho] at ho'
        simp only [Option.some.injEq] at ho'
        subst ho'
        exact hdo hd'.symm
      refine ⟨o', ?_, hd'⟩
      rw [hheap, List.getElem?_set]
      simp [hqh, ho']

theorem descriptorOf_release {s s' : FileDescriptorManager} {h : Nat} {o : FileDescriptor}
    (hr : registered s h = some o) (hheap : s'.heap = s.heap.set h (cleared o)) (p : Nat) :
    descriptorOf s' p = if p = h then -1 else descriptorOf s p := by
  obtain ⟨ho, _⟩ := registered_eq_some hr
  have hlt : h < s.heap.length := by
    rcases List.getElem?_eq_some.mp ho with ⟨hlt, _⟩
    exact hlt
  unfold descriptorOf
  rw [hheap, List.getElem?_set]
  by_cases hph : p = h
  · subst hph
    simp [hlt, cleared]
  · have hhp : ¬ h = p := fun e => hph e.symm
    simp [hph, hhp]

theorem addInvalidateOld_descriptors (s : FileDescriptorManager) (d : Int) :
    (addInvalidateOld s d)._descriptors = s._descriptors := by
  unfold addInvalidateOld
  split
  · rfl
  · split
    · rfl
    · split <;> rfl

theorem addInvalidateOld_disposed (s : FileDescriptorManager) (d : Int) :
    (addInvalidateOld s d)._disposed = s._disposed := by
  unfold addInvalidateOld
  split
  · rfl
  · split
    · rfl
    · split <;> rfl

/-- The object store after the first half of `add`: only the handle registered under the
descriptor changes, and it is cleared. -/
theorem addInvalidateOld_heap (s : FileDescriptorManager) (d : Int) :
    (addInvalidateOld s d).heap =
      match StdMap.find d s._descriptors with
      | none => s.heap
      | some q =>
        match s.heap[q]? with
        | none => s.heap
        | some o => s.heap.set q (cleared o) := by
  unfold addInvalidateOld
  split
  · rfl
  · split
    · rfl
    · rename_i o ho
      split
      · rfl
      · rename_i hn
        have : cleared o = { o with descriptor := -1 } := by
          cases o
          simp only at hn
          simp [cleared, hn]
        simp [this]

theorem addInvalidateOld_length (s : FileDescriptorManager) (d : Int) :
    (addInvalidateOld s d).heap.length = s.heap.length := by
  rw [addInvalidateOld_heap]
  split
  · rfl
  · split
    · rfl
    · simp

theorem add_of_valid {s : FileDescriptorManager} {d : Int} (hd : 0 ≤ d)
    (hdis : s._disposed = false) :
    add s d = addInsertNew (addInvalidateOld s d) d := by
  have : ¬ d < 0 := by omega
  simp [add, this, hdis]

theorem add_of_invalid {s : FileDescriptorManager} {d : Int}
    (hd : d < 0 ∨ s._disposed = true) : add s d = alloc s {} := by
  simp [add, hd]

theorem add_snd (s : FileDescriptorManager) (d : Int) : (add s d).2 = s.heap.length := by
  unfold add
  split
  · rfl
  · simp [addInsertNew, addInvalidateOld_length]

theorem add_length (s : FileDescriptorManager) (d : Int) :
    (add s d).1.heap.length = s.heap.length + 1 := by
  unfold add
  split
  · simp [alloc]
  · simp [addInsertNew, addInvalidateOld_length]

theorem descriptorOf_addInvalidateOld (s : FileDescriptorManager) (d : Int) (p : Nat) :
    descriptorOf (addInvalidateOld s d) p =
      if StdMap.find d s._descriptors = some p then -1 else descriptorOf s p := by
  unfold descriptorOf
  rw [addInvalidateOld_heap]
  cases hf : StdMap.find d s._descriptors with
  | none => simp
  | some q =>
    simp only [Option.some.injEq]
    cases hq : s.heap[q]? with
    | none =>
      by_cases e : q = p
      · subst e
        simp [hq]
      · simp [e]
    | some o =>
      have hlt : q < s.heap.length := by
        rcases List.getElem?_eq_some.mp hq with ⟨hlt, _⟩
        exact hlt
      simp only [List.getElem?_set]
      by_cases e : q = p
      · subst e
        simp [hlt, cleared]
      · simp [e]

theorem descriptorOf_add_old (s : FileDescriptorManager) (d : Int) {p : Nat}
    (hp : p < s.heap.length) :
    descriptorOf (add s d).1 p =
      if (0 ≤ d ∧ s._disposed = false) ∧ StdMap.find d s._descriptors = some p then -1
      else descriptorOf s p := by
  by_cases hv : 0 ≤ d ∧ s._disposed = false
  · have hp' : p < (addInvalidateOld s d).heap.length := by
      rw [addInvalidateOld_length]
      exact hp
    have h1 : descriptorOf (add s d).1 p = descriptorOf (addInvalidateOld s d) p := by
      rw [add_of_valid hv.1 hv.2]
      simp [descriptorOf, addInsertNew, List.getElem?_append_left hp']
    rw [h1, descriptorOf_addInvalidateOld]
    simp [hv]
  · have hv' : d < 0 ∨ s._disposed = true := by
      by_cases h0 : 0 ≤ d
      · right
        cases hdis : s._disposed with
        | true => rfl
        | false => exact absurd ⟨h0, hdis⟩ hv
      · left
        omega
    rw [add_of_invalid hv']
    have hv2 : ¬ ((0 ≤ d ∧ s._disposed = false) ∧ StdMap.find d s._descriptors = some p) :=
      fun h => hv h.1
    rw [if_neg hv2]
    simp [descriptorOf, alloc, List.getElem?_append_left hp]

theorem descriptorOf_set_field (s : FileDescriptorManager) (h : Nat) (o o' : FileDescriptor)
    (ho : s.heap[h]? = some o) (hd : o'.descriptor = o.descriptor) (p : Nat) :
    (match (s.heap.set h o')[p]? with
      | some x => x.descriptor
      | none => -1) = descriptorOf s p := by
  have hlt : h < s.heap.length := by
    rcases List.getElem?_eq_some.mp ho with ⟨hlt, _⟩
    exact hlt
  unfold descriptorOf
  rw [List.getElem?_set]
  by_cases e : h = p
  · subst e
    simp [hlt, ho, hd]
  · simp [e]

/-- No call ever writes a value other than `-1` into the descriptor of an existing handle,
and no call frees a handle. -/
theorem descriptorOf_step (s : FileDescriptorManager) (op : Op) {p : Nat}
    (hp : p < s.heap.length) :
    p < (step s op).heap.length ∧
      (descriptorOf (step s op) p = descriptorOf s p ∨ descriptorOf (step s op) p = -1) := by
  cases op with
  | add d =>
    refine ⟨by simp only [step]; rw [add_length]; omega, ?_⟩
    simp only [step]
    rw [descriptorOf_add_old s d hp]
    split
    · right; rfl
    · left; rfl
  | close h =>
    simp only [step]
    cases hr : registered s h with
    | none =>
      rw [close_of_none hr]
      exact ⟨hp, Or.inl rfl⟩
    | some o =>
      obtain ⟨hheap, _, _⟩ := close_of_some hr
      refine ⟨by rw [hheap]; simpa using hp, ?_⟩
      rw [descriptorOf_release hr hheap]
      split
      · right; rfl
      · left; rfl
  | shutdown h =>
    simp only [step]
    cases hr : registered s h with
    | none =>
      rw [shutdown_of_none hr]
      exact ⟨hp, Or.inl rfl⟩
    | some o =>
      obtain ⟨hheap, _, _⟩ := shutdown_of_some hr
      refine ⟨by rw [hheap]; simpa using hp, ?_⟩
      rw [descriptorOf_release hr hheap]
      split
      · right; rfl
      · left; rfl
  | setTlsSession h t =>
    simp only [step, setTlsSession]
    cases ho : s.heap[h]? with
    | none => exact ⟨hp, Or.inl rfl⟩
    | some o =>
      refine ⟨by simpa using hp, Or.inl ?_⟩
      exact descriptorOf_set_field s h o { o with tlsSession := t } ho rfl p
  | remove h =>
    simp only [step, remove]
    cases hr : registered s h with
    | none => exact ⟨hp, Or.inl rfl⟩
    | some o =>
      obtain ⟨ho, _⟩ := registered_eq_some hr
      have hlt : h < s.heap.length := by
        rcases List.getElem?_eq_some.mp ho with ⟨hlt, _⟩
        exact hlt
      refine ⟨by simpa using hp, ?_⟩
      simp only [descriptorOf, List.getElem?_set]
      by_cases e : h = p
      · subst e
        right
        simp [hlt]
      · left
        simp [e]
  | dispose =>
    simp only [step, dispose]
    exact ⟨hp, Or.inl rfl⟩

/-- A handle whose descriptor is negative keeps a negative descriptor for good. -/
theorem descriptorOf_run_neg (ops : List Op) (s : FileDescriptorManager) {p : Nat}
    (hp : p < s.heap.length) (hneg : descriptorOf s p < 0) :
    p < (run s ops).heap.length ∧ descriptorOf (run s ops) p < 0 := by
  induction ops generalizing s with
  | nil => exact ⟨hp, hneg⟩
  | cons op rest ih =>
    obtain ⟨hp1, hd1⟩ := descriptorOf_step s op hp
    have hneg1 : descriptorOf (step s op) p < 0 := by
      rcases hd1 with h | h
      · rw [h]; exact hneg
      · rw [h]; decide
    exact ih (step s op) hp1 hneg1

theorem descriptorOf_nonneg_iff {s : FileDescriptorManager} {p : Nat}
    (h : 0 ≤ descriptorOf s p) :
    ∃ o, s.heap[p]? = some o ∧ o.descriptor = descriptorOf s p := by
  unfold descriptorOf at h ⊢
  cases ho : s.heap[p]? with
  | none => simp [ho] at h
  | some o => exact ⟨o, rfl, rfl⟩

theorem lt_length_of_descriptorOf {s : FileDescriptorManager} {p : Nat}
    (h : 0 ≤ descriptorOf s p) : p < s.heap.length := by
  obtain ⟨o, ho, _⟩ := descriptorOf_nonneg_iff h
  rcases List.getElem?_eq_some.mp ho with ⟨hlt, _⟩
  exact hlt

/-- The invariant, stated through `descriptorOf`. -/
theorem inv_iff (s : FileDescriptorManager) :
    Inv s ↔
      (∀ p, 0 ≤ descriptorOf s p →
        StdMap.find (descriptorOf s p) s._descriptors = some p) ∧
      (∀ d q, StdMap.find d s._descriptors = some q →
        q < s.heap.length ∧ descriptorOf s q = d) := by
  constructor
  · intro hinv
    constructor
    · intro p hp
      obtain ⟨o, ho, hd⟩ := descriptorOf_nonneg_iff hp
      rw [← hd]
      exact hinv.live p o ho (by rw [hd]; exact hp)
    · intro d q hq
      obtain ⟨o, ho, hd⟩ := hinv.entry d q hq
      rcases List.getElem?_eq_some.mp ho with ⟨hlt, _⟩
      exact ⟨hlt, by simp [descriptorOf, ho, hd]⟩
  · rintro ⟨h1, h2⟩
    constructor
    · intro p o ho hd
      have : descriptorOf s p = o.descriptor := by simp [descriptorOf, ho]
      have := h1 p (by rw [this]; exact hd)
      simpa [descriptorOf, ho] using this
    · intro d q hq
      obtain ⟨hlt, hd⟩ := h2 d q hq
      refine ⟨s.heap[q], by simp [hlt], ?_⟩
      simpa [descriptorOf, hlt] using hd

theorem inv_init : Inv init := by
  constructor
  · intro p o ho
    simp [init] at ho
  · intro d q hq
    simp [init, StdMap.find] at hq

theorem descriptorOf_add_new {s : FileDescriptorManager} {d : Int} (hd : 0 ≤ d)
    (hdis : s._disposed = false) : descriptorOf (add s d).1 s.heap.length = d := by
  rw [add_of_valid hd hdis]
  have hl := addInvalidateOld_length s d
  simp [descriptorOf, addInsertNew, ← hl]

theorem add_descriptors {s : FileDescriptorManager} {d : Int} (hd : 0 ≤ d)
    (hdis : s._disposed = false) :
    (add s d).1._descriptors = StdMap.assign d s.heap.length s._descriptors := by
  rw [add_of_valid hd hdis]
  simp [addInsertNew, addInvalidateOld_length, addInvalidateOld_descriptors]

theorem add_disposed (s : FileDescriptorManager) (d : Int) :
    (add s d).1._disposed = s._disposed := by
  unfold add
  split
  · rfl
  · simp [addInsertNew, addInvalidateOld_disposed]

/-- A successful `add` keeps map and handles consistent. -/
theorem inv_add {s : FileDescriptorManager} (hinv : Inv s) {d : Int} (hd : 0 ≤ d)
    (hdis : s._disposed = false) : Inv (add s d).1 := by
  obtain ⟨h1, h2⟩ := (inv_iff s).mp hinv
  rw [inv_iff]
  have hmap := add_descriptors hd hdis
  constructor
  · intro p hp
    have hplt := lt_length_of_descriptorOf hp
    rw [add_length] at hplt
    rw [hmap, StdMap.find_assign]
    by_cases hpl : p = s.heap.length
    · subst hpl
      simp [descriptorOf_add_new hd hdis]
    · have hp' : p < s.heap.length := by omega
      rw [descriptorOf_add_old s d hp'] at hp ⊢
      by_cases hf : StdMap.find d s._descriptors = some p
      · simp [hd, hdis, hf] at hp
      · simp only [hf, and_false, if_false] at hp ⊢
        have hfp := h1 p hp
        have hne : descriptorOf s p ≠ d := by
          intro e
          rw [e] at hfp
          exact hf hfp
        simp [hne, hfp]
  · intro d' q hq
    rw [hmap, StdMap.find_assign] at hq
    by_cases hdd : d' = d
    · subst hdd
      simp only [if_true, Option.some.injEq] at hq
      subst hq
      exact ⟨by rw [add_length]; omega, descriptorOf_add_new hd hdis⟩
    · simp only [hdd, if_false] at hq
      obtain ⟨hlt, hdq⟩ := h2 d' q hq
      refine ⟨by rw [add_length]; omega, ?_⟩
      rw [descriptorOf_add_old s d hlt]
      have hf : ¬ StdMap.find d s._descriptors = some q := by
        intro hf
        have := (h2 d q hf).2
        rw [hdq] at this
        exact hdd this
      simp [hf, hdq]

/-- Allocation of a placeholder keeps map and handles consistent. -/
theorem inv_alloc_default {s : FileDescriptorManager} (hinv : Inv s) : Inv (alloc s {}).1 := by
  constructor
  · intro p o ho hd
    simp only [alloc] at ho ⊢
    rw [List.getElem?_append] at ho
    split at ho
    · exact hinv.live p o ho hd
    · rename_i hge
      cases hpl : p - s.heap.length with
      | zero =>
        rw [hpl] at ho
        simp only [List.getElem?_cons_zero, Option.some.injEq] at ho
        subst ho
        simp at hd
      | succ n =>
        rw [hpl] at ho
        simp at ho
  · intro d q hq
    simp only [alloc] at hq ⊢
    obtain ⟨o, ho, hd⟩ := hinv.entry d q hq
    rcases List.getElem?_eq_some.mp ho with ⟨hlt, _⟩
    exact ⟨o, by rw [List.getElem?_append_left hlt]; exact ho, hd⟩

theorem inv_setTlsSession {s : FileDescriptorManager} (hinv : Inv s) (h : Nat)
    (t : Option Nat) : Inv (setTlsSession s h t) := by
  unfold setTlsSession
  cases ho : s.heap[h]? with
  | none => exact hinv
  | some o =>
    obtain ⟨h1, h2⟩ := (inv_iff s).mp hinv
    rw [inv_iff]
    have hdesc : ∀ p, descriptorOf
        { s with heap := s.heap.set h { o with tlsSession := t } } p = descriptorOf s p :=
      fun p => descriptorOf_set_field s h o { o with tlsSession := t } ho rfl p
    constructor
    · intro p hp
      rw [hdesc] at hp ⊢
      exact h1 p hp
    · intro d q hq
      rw [hdesc]
      obtain ⟨hlt, hd⟩ := h2 d q hq
      exact ⟨by simpa using hlt, hd⟩

/-- Calls other than `remove` and `dispose` keep the registry consistent and open. -/
theorem step_inv {s : FileDescriptorManager} (hinv : Inv s) (hdis : s._disposed = false)
    (op : Op) (hop : Op.isLifecycle op = true) :
    Inv (step s op) ∧ (step s op)._disposed = false := by
  cases op with
  | add d =>
    simp only [step]
    refine ⟨?_, by rw [add_disposed]; exact hdis⟩
    by_cases hd : 0 ≤ d
    · exact inv_add hinv hd hdis
    · rw [add_of_invalid (Or.inl (by omega))]
      exact inv_alloc_default hinv
  | close h =>
    simp only [step]
    cases hr : registered s h with
    | none =>
      rw [close_of_none hr]
      exact ⟨hinv, hdis⟩
    | some o =>
      obtain ⟨hheap, hmap, hd⟩ := close_of_some hr
      exact ⟨inv_release hinv hr hheap hmap, by rw [hd]; exact hdis⟩
  | shutdown h =>
    simp only [step]
    cases hr : registered s h with
    | none =>
      rw [shutdown_of_none hr]
      exact ⟨hinv, hdis⟩
    | some o =>
      obtain ⟨hheap, hmap, hd⟩ := shutdown_of_some hr
      exact ⟨inv_release hinv hr hheap hmap, by rw [hd]; exact hdis⟩
  | setTlsSession h t =>
    simp only [step]
    refine ⟨inv_setTlsSession hinv h t, ?_⟩
    unfold setTlsSession
    split
    · exact hdis
    · exact hdis
  | remove h => simp [Op.isLifecycle] at hop
  | dispose => simp [Op.isLifecycle] at hop

/-- The descriptor of a live handle after one call: `-1` when the call is `close` or
`shutdown` on the handle or an `add` of its raw descriptor, unchanged otherwise. -/
theorem step_descriptorOf {s : FileDescriptorManager} (hinv : Inv s)
    (hdis : s._disposed = false) (op : Op) (hop : Op.isLifecycle op = true) {p : Nat}
    (hp : 0 ≤ descriptorOf s p) :
    descriptorOf (step s op) p =
      if op = Op.close p ∨ op = Op.shutdown p ∨ op = Op.add (descriptorOf s p) then -1
      else descriptorOf s p := by
  obtain ⟨h1, h2⟩ := (inv_iff s).mp hinv
  have hplt := lt_length_of_descriptorOf hp
  obtain ⟨o, ho, hod⟩ := descriptorOf_nonneg_iff hp
  have hreg : registered s p = some o := registered_of_inv hinv ho (by rw [hod]; exact hp)
  cases op with
  | add d =>
    simp only [step]
    rw [descriptorOf_add_old s d hplt]
    by_cases hdd : d = descriptorOf s p
    · subst hdd
      simp [hp, hdis, h1 p hp]
    · have hf : ¬ StdMap.find d s._descriptors = some p := by
        intro hf
        exact hdd (h2 d p hf).2.symm
      simp [hf, hdd]
  | close h =>
    simp only [step]
    by_cases hph : h = p
    · subst hph
      obtain ⟨hheap, _, _⟩ := close_of_some hreg
      rw [descriptorOf_release hreg hheap]
      simp
    · have hph' : ¬ p = h := fun e => hph e.symm
      cases hr : registered s h with
      | none =>
        rw [close_of_none hr]
        simp [hph]
      | some o' =>
        obtain ⟨hheap, _, _⟩ := close_of_some hr
        rw [descriptorOf_release hr hheap]
        simp [hph, hph']
  | shutdown h =>
    simp only [step]
    by_cases hph : h = p
    · subst hph
      obtain ⟨hheap, _, _⟩ := shutdown_of_some hreg
      rw [descriptorOf_release hreg hheap]
      simp
    · have hph' : ¬ p = h := fun e => hph e.symm
      cases hr : registered s h with
      | none =>
        rw [shutdown_of_none hr]
        simp [hph]
      | some o' =>
        obtain ⟨hheap, _, _⟩ := shutdown_of_some hr
        rw [descriptorOf_release hr hheap]
        simp [hph, hph']
  | setTlsSession h t =>
    simp only [step, setTlsSession]
    cases ho' : s.heap[h]? with
    | none => simp
    | some o' =>
      have := descriptorOf_set_field s h o' { o' with tlsSession := t } ho' rfl p
      simpa [descriptorOf] using this
  | remove h => simp [Op.isLifecycle] at hop
  | dispose => simp [Op.isLifecycle] at hop

theorem run_inv (ops : List Op) (s : FileDescriptorManager) (hinv : Inv s)
    (hdis : s._disposed = false) (hops : ∀ op ∈ ops, Op.isLifecycle op = true) :
    Inv (run s ops) ∧ (run s ops)._disposed = false := by
  induction ops generalizing s with
  | nil => exact ⟨hinv, hdis⟩
  | cons op rest ih =>
    obtain ⟨hi, hd⟩ := step_inv hinv hdis op (hops op (List.mem_cons_self _ _))
    exact ih (step s op) hi hd (fun o h => hops o (List.mem_cons_of_mem _ h))

/-- Along any sequence of `add`, `close`, `shutdown` and session assignments, a live handle
keeps its descriptor exactly as long as no call closes it, shuts it down or adds its raw
descriptor again. -/
theorem run_live (ops : List Op) (s : FileDescriptorManager) (hinv : Inv s)
    (hdis : s._disposed = false) (hops : ∀ op ∈ ops, Op.isLifecycle op = true) {p : Nat}
    (hp : 0 ≤ descriptorOf s p) :
    Inv (run s ops) ∧ (run s ops)._disposed = false ∧
      (0 ≤ descriptorOf (run s ops) p ↔
        ∀ op ∈ ops, op ≠ Op.close p ∧ op ≠ Op.shutdown p ∧ op ≠ Op.add (descriptorOf s p)) ∧
      (0 ≤ descriptorOf (run s ops) p → descriptorOf (run s ops) p = descriptorOf s p) := by
  induction ops generalizing s with
  | nil => exact ⟨hinv, hdis, by simp [run, hp], fun _ => rfl⟩
  | cons op rest ih =>
    have hop : Op.isLifecycle op = true := hops op (List.mem_cons_self _ _)
    have hrest : ∀ op' ∈ rest, Op.isLifecycle op' = true :=
      fun op' h => hops op' (List.mem_cons_of_mem _ h)
    obtain ⟨hinv1, hdis1⟩ := step_inv hinv hdis op hop
    have hstep := step_descriptorOf hinv hdis op hop hp
    have hrun : run s (op :: rest) = run (step s op) rest := rfl
    rw [hrun]
    by_cases hk : op = Op.close p ∨ op = Op.shutdown p ∨ op = Op.add (descriptorOf s p)
    · rw [if_pos hk] at hstep
      have hplt : p < (step s op).heap.length :=
        (descriptorOf_step s op (lt_length_of_descriptorOf hp)).1
      have hneg := (descriptorOf_run_neg rest (step s op) hplt (by rw [hstep]; decide)).2
      have hinvr := run_inv rest (step s op) hinv1 hdis1 hrest
      refine ⟨hinvr.1, hinvr.2, ?_, ?_⟩
      · constructor
        · intro h
          omega
        · intro h
          have := h op (List.mem_cons_self _ _)
          rcases hk with e | e | e
          · exact absurd e this.1
          · exact absurd e this.2.1
          · exact absurd e this.2.2
      · intro h
        omega
    · rw [if_neg hk] at hstep
      have hp1 : 0 ≤ descriptorOf (step s op) p := by rw [hstep]; exact hp
      obtain ⟨hi, hd, hiff, heq⟩ := ih (step s op) hinv1 hdis1 hrest hp1
      refine ⟨hi, hd, ?_, ?_⟩
      · rw [hiff, hstep]
        constructor
        · intro h op' hop'
          rcases List.mem_cons.mp hop' with e | e
          · subst e
            exact ⟨fun e => hk (Or.inl e), fun e => hk (Or.inr (Or.inl e)),
              fun e => hk (Or.inr (Or.inr e))⟩
          · exact h op' e
        · intro h op' hop'
          exact h op' (List.mem_cons_of_mem _ hop')
      · intro h
        rw [heq h, hstep]

theorem lt_length_run (ops : List Op) (s : FileDescriptorManager) {p : Nat}
    (hp : p < s.heap.length) : p < (run s ops).heap.length := by
  induction ops generalizing s with
  | nil => exact hp
  | cons op rest ih => exact ih (step s op) (descriptorOf_step s op hp).1

/-- C1: along every sequence of `add`/`close`/`shutdown` calls (no `dispose`, no `remove`)
on a fresh manager, a handle returned by `add d` with `0 ≤ d` is valid at a later point if
and only if, since that `add`, it was neither closed nor shut down and `d` was not added
again; and once it is invalid it is invalid after every further call. -/
theorem isValid_iff_not_invalidated_since_add (pre post : List Op) (d : Int) (hd : 0 ≤ d)
    (hpre : ∀ op ∈ pre, Op.isLifecycle op = true)
    (hpost : ∀ op ∈ post, Op.isLifecycle op = true) :
    (isValid (run (add (run init pre) d).1 post) (add (run init pre) d).2 = true ↔
      ∀ op ∈ post, op ≠ Op.close (add (run init pre) d).2 ∧
        op ≠ Op.shutdown (add (run init pre) d).2 ∧ op ≠ Op.add d) ∧
    (∀ more : List Op,
      isValid (run (add (run init pre) d).1 post) (add (run init pre) d).2 = false →
      isValid (run (add (run init pre) d).1 (post ++ more)) (add (run init pre) d).2 = false) := by
  obtain ⟨hinv0, hdis0⟩ := run_inv pre init inv_init rfl hpre
  have hinv1 : Inv (add (run init pre) d).1 := inv_add hinv0 hd hdis0
  have hdis1 : (add (run init pre) d).1._disposed = false := by
    rw [add_disposed]
    exact hdis0
  have hdesc : descriptorOf (add (run init pre) d).1 (add (run init pre) d).2 = d := by
    rw [add_snd]
    exact descriptorOf_add_new hd hdis0
  have hp : 0 ≤ descriptorOf (add (run init pre) d).1 (add (run init pre) d).2 := by
    rw [hdesc]
    exact hd
  obtain ⟨hinv2, _, hiff, _⟩ := run_live post _ hinv1 hdis1 hpost hp
  have hlen : (add (run init pre) d).2 < (run (add (run init pre) d).1 post).heap.length :=
    lt_length_run post _ (lt_length_of_descriptorOf hp)
  have hvalid := isValid_iff_of_inv hinv2 hlen
  constructor
  · rw [hvalid, hiff, hdesc]
  · intro more hfalse
    have hneg : descriptorOf (run (add (run init pre) d).1 post) (add (run init pre) d).2 < 0 := by
      by_contra hge
      have := hvalid.mpr (by omega)
      rw [this] at hfalse
      exact Bool.noConfusion hfalse
    have hrun : run (add (run init pre) d).1 (post ++ more)
        = run (run (add (run init pre) d).1 post) more := by
      simp [run, List.foldl_append]
    rw [hrun, isValid_eq_isSome]
    have := (descriptorOf_run_neg more _ hlen hneg).2
    rw [registered_of_neg this]
    rfl

/-- C1, at a concrete run: after `add 5`, `close` of that handle and `add 7`, the handle
returned by a second `add 5` is still valid after `add 8` and `close` of the stale first
handle. -/
theorem isValid_iff_not_invalidated_since_add_witness :
    isValid
      (run (add (run init [Op.add 5, Op.close 0, Op.add 7]) 5).1 [Op.add 8, Op.close 0])
      (add (run init [Op.add 5, Op.close 0, Op.add 7]) 5).2 = true :=
  (isValid_iff_not_invalidated_since_add [Op.add 5, Op.close 0, Op.add 7]
    [Op.add 8, Op.close 0] 5 (by decide) (by decide) (by decide)).1.mpr (by decide)

theorem isValid_eq_false_of_neg {s : FileDescriptorManager} {h : Nat}
    (hneg : descriptorOf s h < 0) : isValid s h = false := by
  rw [isValid_eq_isSome, registered_of_neg hneg]
  rfl

theorem descriptorOf_of_isValid {s : FileDescriptorManager} {h : Nat}
    (hv : isValid s h = true) : 0 ≤ descriptorOf s h := by
  rw [isValid_eq_isSome] at hv
  cases hr : registered s h with
  | none => simp [hr] at hv
  | some o =>
    obtain ⟨ho, hd⟩ := registered_eq_some hr
    simpa [descriptorOf, ho] using hd

theorem addInvalidateOld_sysCalls (s : FileDescriptorManager) (d : Int) :
    (addInvalidateOld s d).sysCalls =
      s.sysCalls ++
        (match StdMap.find d s._descriptors with
          | none => []
          | some q =>
            match tlsSessionOf s q with
            | some t => [SysCall.gnutls_deinit t]
            | none => []) := by
  unfold addInvalidateOld tlsSessionOf
  cases hf : StdMap.find d s._descriptors with
  | none => simp
  | some q =>
    cases hq : s.heap[q]? with
    | none => simp [hq]
    | some o =>
      cases ht : o.tlsSession with
      | none => simp [hq, ht]
      | some t => simp [hq, ht]

theorem tlsSessionOf_addInvalidateOld {s : FileDescriptorManager} {d : Int} {q : Nat}
    (hf : StdMap.find d s._descriptors = some q) :
    tlsSessionOf (addInvalidateOld s d) q = none := by
  unfold tlsSessionOf
  rw [addInvalidateOld_heap, hf]
  cases hq : s.heap[q]? with
  | none => simp [hq]
  | some o =>
    have hlt : q < s.heap.length := by
      rcases List.getElem?_eq_some.mp hq with ⟨hlt, _⟩
      exact hlt
    simp [hlt, cleared]

/-- The state in which a handle returned by `add d` is still registered after further
calls: consistent, open, and the handle still carries `d` and is the entry under `d`. -/
theorem still_registered {pre mid : List Op} {d : Int} (hd : 0 ≤ d)
    (hpre : ∀ op ∈ pre, Op.isLifecycle op = true)
    (hmid : ∀ op ∈ mid, Op.isLifecycle op = true)
    (hvalid : isValid (run (add (run init pre) d).1 mid) (add (run init pre) d).2 = true) :
    Inv (run (add (run init pre) d).1 mid) ∧
      (run (add (run init pre) d).1 mid)._disposed = false ∧
      descriptorOf (run (add (run init pre) d).1 mid) (add (run init pre) d).2 = d ∧
      StdMap.find d (run (add (run init pre) d).1 mid)._descriptors
        = some (add (run init pre) d).2 := by
  obtain ⟨hinv0, hdis0⟩ := run_inv pre init inv_init rfl hpre
  have hinv1 : Inv (add (run init pre) d).1 := inv_add hinv0 hd hdis0
  have hdis1 : (add (run init pre) d).1._disposed = false := by
    rw [add_disposed]
    exact hdis0
  have hdesc : descriptorOf (add (run init pre) d).1 (add (run init pre) d).2 = d := by
    rw [add_snd]
    exact descriptorOf_add_new hd hdis0
  have hp : 0 ≤ descriptorOf (add (run init pre) d).1 (add (run init pre) d).2 := by
    rw [hdesc]
    exact hd
  obtain ⟨hinv2, hdis2, _, heq⟩ := run_live mid _ hinv1 hdis1 hmid hp
  have hge := descriptorOf_of_isValid hvalid
  have hd2 := (heq hge).trans hdesc
  refine ⟨hinv2, hdis2, hd2, ?_⟩
  have := ((inv_iff _).mp hinv2).1 _ hge
  rw [hd2] at this
  exact this

/-- C2: when `add d` returned `h1` and `h1` is still registered, a second `add d` returns a
handle `h2` with `isValid h1` false and `isValid h2` true afterwards. The second `add` is the
insertion of `h2` applied to an intermediate state in which the entry under `d` is still
`h1`, the TLS session of `h1` (if it had one) has been deinitialised by exactly one
`gnutls_deinit` and its session pointer is null; the insertion issues no further call. -/
theorem add_supersedes_registered_handle (pre mid : List Op) (d : Int) (hd : 0 ≤ d)
    (hpre : ∀ op ∈ pre, Op.isLifecycle op = true)
    (hmid : ∀ op ∈ mid, Op.isLifecycle op = true)
    (hvalid : isValid (run (add (run init pre) d).1 mid) (add (run init pre) d).2 = true) :
    isValid (add (run (add (run init pre) d).1 mid) d).1 (add (run init pre) d).2 = false ∧
    isValid (add (run (add (run init pre) d).1 mid) d).1
      (add (run (add (run init pre) d).1 mid) d).2 = true ∧
    add (run (add (run init pre) d).1 mid) d
      = addInsertNew (addInvalidateOld (run (add (run init pre) d).1 mid) d) d ∧
    StdMap.find d (addInvalidateOld (run (add (run init pre) d).1 mid) d)._descriptors
      = some (add (run init pre) d).2 ∧
    tlsSessionOf (addInvalidateOld (run (add (run init pre) d).1 mid) d)
      (add (run init pre) d).2 = none ∧
    (addInvalidateOld (run (add (run init pre) d).1 mid) d).sysCalls
      = (run (add (run init pre) d).1 mid).sysCalls ++
        (match tlsSessionOf (run (add (run init pre) d).1 mid) (add (run init pre) d).2 with
          | some t => [SysCall.gnutls_deinit t]
          | none => []) ∧
    (add (run (add (run init pre) d).1 mid) d).1.sysCalls
      = (addInvalidateOld (run (add (run init pre) d).1 mid) d).sysCalls ∧
    StdMap.find d (add (run (add (run init pre) d).1 mid) d).1._descriptors
      = some (add (run (add (run init pre) d).1 mid) d).2 := by
  obtain ⟨hinv, hdis, hdesc, hfind⟩ := still_registered hd hpre hmid hvalid
  generalize run (add (run init pre) d).1 mid = s at *
  generalize (add (run init pre) d).2 = h1 at *
  have hlt : h1 < s.heap.length := lt_length_of_descriptorOf (by rw [hdesc]; exact hd)
  have hadd := add_of_valid hd hdis
  refine ⟨?_, ?_, hadd, ?_, tlsSessionOf_addInvalidateOld hfind, ?_, ?_, ?_⟩
  · apply isValid_eq_false_of_neg
    rw [descriptorOf_add_old s d hlt]
    simp [hd, hdis, hfind]
  · rw [isValid_iff_of_inv (inv_add hinv hd hdis) (by rw [add_length, add_snd]; omega), add_snd,
      descriptorOf_add_new hd hdis]
    exact hd
  · rw [addInvalidateOld_descriptors]
    exact hfind
  · rw [addInvalidateOld_sysCalls, hfind]
  · rw [hadd]
    rfl
  · rw [add_descriptors hd hdis, add_snd, StdMap.find_assign]
    simp

/-- C2, at a concrete run: the first handle of descriptor `5` gets TLS session `9`, and
the second `add 5` deinitialises that session and invalidates the handle. -/
theorem add_supersedes_registered_handle_witness :
    isValid (add (run (add (run init [Op.add 3]) 5).1 [Op.setTlsSession 1 (some 9)]) 5).1
        (add (run init [Op.add 3]) 5).2 = false ∧
      (addInvalidateOld (run (add (run init [Op.add 3]) 5).1 [Op.setTlsSession 1 (some 9)])
        5).sysCalls = [SysCall.gnutls_deinit 9] :=
  ⟨(add_supersedes_registered_handle [Op.add 3] [Op.setTlsSession 1 (some 9)] 5 (by decide)
      (by decide) (by decide) (by decide)).1,
    by decide⟩

theorem registered_close_self (s : FileDescriptorManager) (h : Nat) :
    registered (close s h) h = none := by
  cases hr : registered s h with
  | none =>
    rw [close_of_none hr]
    exact hr
  | some o =>
    apply registered_of_neg
    rw [descriptorOf_release hr (close_of_some hr).1]
    simp

theorem registered_shutdown_self (s : FileDescriptorManager) (h : Nat) :
    registered (shutdown s h) h = none := by
  cases hr : registered s h with
  | none =>
    rw [shutdown_of_none hr]
    exact hr
  | some o =>
    apply registered_of_neg
    rw [descriptorOf_release hr (shutdown_of_some hr).1]
    simp

/-- C3: `close` and `shutdown` are idempotent. In every registry state a `close` or
`shutdown` of a handle that directly follows a `close` or `shutdown` of the same handle
returns the state unchanged (map, handles and the trace of OS and TLS calls), and so does
either call on a handle that is not valid. -/
theorem close_shutdown_idempotent (s : FileDescriptorManager) (h : Nat) :
    close (close s h) h = close s h ∧
    shutdown (close s h) h = close s h ∧
    close (shutdown s h) h = shutdown s h ∧
    shutdown (shutdown s h) h = shutdown s h ∧
    (isValid s h = false → close s h = s ∧ shutdown s h = s) := by
  refine ⟨close_of_none (registered_close_self s h),
    shutdown_of_none (registered_close_self s h),
    close_of_none (registered_shutdown_self s h),
    shutdown_of_none (registered_shutdown_self s h), ?_⟩
  intro hv
  rw [isValid_eq_isSome] at hv
  cases hr : registered s h with
  | none => exact ⟨close_of_none hr, shutdown_of_none hr⟩
  | some o => simp [hr] at hv

/-- C3, at a concrete state: a handle with a TLS session is shut down, which issues
`gnutls_bye`, `::close` and `gnutls_deinit`; a following `close` adds nothing. -/
theorem close_shutdown_idempotent_witness :
    (shutdown (run init [Op.add 4, Op.setTlsSession 0 (some 7)]) 0).sysCalls
        = [SysCall.gnutls_bye 7, SysCall.close 4, SysCall.gnutls_deinit 7] ∧
      close (shutdown (run init [Op.add 4, Op.setTlsSession 0 (some 7)]) 0) 0
        = shutdown (run init [Op.add 4, Op.setTlsSession 0 (some 7)]) 0 :=
  ⟨by decide,
    (close_shutdown_idempotent (run init [Op.add 4, Op.setTlsSession 0 (some 7)]) 0).2.2.1⟩

theorem isValid_of_empty {s : FileDescriptorManager} (hmap : s._descriptors = [])
    (h : Nat) : isValid s h = false := by
  unfold isValid
  split
  · rfl
  · split
    · rfl
    · simp [hmap, StdMap.find]

theorem registered_of_empty {s : FileDescriptorManager} (hmap : s._descriptors = [])
    (h : Nat) : registered s h = none := by
  have := isValid_of_empty hmap h
  rw [isValid_eq_isSome] at this
  cases hr : registered s h with
  | none => rfl
  | some o => simp [hr] at this

/-- A disposed manager with an empty map stays so under every call. -/
theorem step_disposed {s : FileDescriptorManager} (hdis : s._disposed = true)
    (hmap : s._descriptors = []) (op : Op) :
    (step s op)._disposed = true ∧ (step s op)._descriptors = [] := by
  cases op with
  | add d =>
    simp only [step]
    rw [add_of_invalid (Or.inr hdis)]
    exact ⟨hdis, hmap⟩
  | close h =>
    simp only [step]
    rw [close_of_none (registered_of_empty hmap h)]
    exact ⟨hdis, hmap⟩
  | shutdown h =>
    simp only [step]
    rw [shutdown_of_none (registered_of_empty hmap h)]
    exact ⟨hdis, hmap⟩
  | setTlsSession h t =>
    simp only [step, setTlsSession]
    split
    · exact ⟨hdis, hmap⟩
    · exact ⟨hdis, hmap⟩
  | remove h =>
    simp only [step, remove]
    rw [registered_of_empty hmap h]
    exact ⟨hdis, hmap⟩
  | dispose => exact ⟨rfl, rfl⟩

theorem run_disposed (ops : List Op) {s : FileDescriptorManager} (hdis : s._disposed = true)
    (hmap : s._descriptors = []) :
    (run s ops)._disposed = true ∧ (run s ops)._descriptors = [] := by
  induction ops generalizing s with
  | nil => exact ⟨hdis, hmap⟩
  | cons op rest ih =>
    obtain ⟨h1, h2⟩ := step_disposed hdis hmap op
    exact ih h1 h2

/-- C4: after `dispose()`, in whatever state it is called and whatever calls follow, the map
is empty and `isValid` is false for every handle; every later `add d` returns a freshly
allocated placeholder handle (default fields) that is invalid, and leaves the map empty. -/
theorem dispose_invalidates_all (s : FileDescriptorManager) (ops : List Op) (d : Int)
    (h : Nat) :
    (dispose s)._descriptors = [] ∧
    isValid (dispose s) h = false ∧
    (run (dispose s) ops)._descriptors = [] ∧
    isValid (run (dispose s) ops) h = false ∧
    (add (run (dispose s) ops) d).1.heap[(add (run (dispose s) ops) d).2]? = some {} ∧
    isValid (add (run (dispose s) ops) d).1 (add (run (dispose s) ops) d).2 = false ∧
    isValid (add (run (dispose s) ops) d).1 h = false ∧
    (add (run (dispose s) ops) d).1._descriptors = [] := by
  have h0 : (dispose s)._disposed = true ∧ (dispose s)._descriptors = [] := ⟨rfl, rfl⟩
  obtain ⟨h1, h2⟩ := run_disposed ops h0.1 h0.2
  obtain ⟨_, h4⟩ := step_disposed h1 h2 (Op.add d)
  simp only [step] at h4
  refine ⟨rfl, isValid_of_empty rfl h, h2, isValid_of_empty h2 h, ?_,
    isValid_of_empty h4 _, isValid_of_empty h4 h, h4⟩
  rw [add_of_invalid (Or.inr h1)]
  simp [alloc]

/-- C5: a stale handle never closes a reused descriptor. When `h1` returned by `add d` is
still registered and a second `add d` supersedes it by `h2`, then directly afterwards and
after any further calls, `close h1` and `shutdown h1` return the state unchanged: they touch
neither the map nor any handle and issue no call. Directly after the second `add`, the
entry under `d` is `h2` and `h2` is valid, also after `close h1` and `shutdown h1`. -/
theorem stale_handle_close_is_noop (pre mid post : List Op) (d : Int) (hd : 0 ≤ d)
    (hpre : ∀ op ∈ pre, Op.isLifecycle op = true)
    (hmid : ∀ op ∈ mid, Op.isLifecycle op = true)
    (hvalid : isValid (run (add (run init pre) d).1 mid) (add (run init pre) d).2 = true) :
    close (run (add (run (add (run init pre) d).1 mid) d).1 post) (add (run init pre) d).2
      = run (add (run (add (run init pre) d).1 mid) d).1 post ∧
    shutdown (run (add (run (add (run init pre) d).1 mid) d).1 post) (add (run init pre) d).2
      = run (add (run (add (run init pre) d).1 mid) d).1 post ∧
    StdMap.find d (close (add (run (add (run init pre) d).1 mid) d).1
        (add (run init pre) d).2)._descriptors
      = some (add (run (add (run init pre) d).1 mid) d).2 ∧
    StdMap.find d (shutdown (add (run (add (run init pre) d).1 mid) d).1
        (add (run init pre) d).2)._descriptors
      = some (add (run (add (run init pre) d).1 mid) d).2 ∧
    isValid (close (add (run (add (run init pre) d).1 mid) d).1 (add (run init pre) d).2)
      (add (run (add (run init pre) d).1 mid) d).2 = true ∧
    isValid (shutdown (add (run (add (run init pre) d).1 mid) d).1 (add (run init pre) d).2)
      (add (run (add (run init pre) d).1 mid) d).2 = true := by
  obtain ⟨hinv, hdis, hdesc, hfind⟩ := still_registered hd hpre hmid hvalid
  generalize run (add (run init pre) d).1 mid = s at *
  generalize (add (run init pre) d).2 = h1 at *
  have hlt : h1 < s.heap.length := lt_length_of_descriptorOf (by rw [hdesc]; exact hd)
  have hneg : descriptorOf (add s d).1 h1 < 0 := by
    rw [descriptorOf_add_old s d hlt]
    simp [hd, hdis, hfind]
  have hlt' : h1 < (add s d).1.heap.length := by
    rw [add_length]
    omega
  have hpost := (descriptorOf_run_neg post (add s d).1 hlt' hneg).2
  have hnow := registered_of_neg hneg
  have hentry : StdMap.find d (add s d).1._descriptors = some (add s d).2 := by
    rw [add_descriptors hd hdis, add_snd, StdMap.find_assign]
    simp
  have hv2 : isValid (add s d).1 (add s d).2 = true := by
    rw [isValid_iff_of_inv (inv_add hinv hd hdis) (by rw [add_length, add_snd]; omega), add_snd,
      descriptorOf_add_new hd hdis]
    exact hd
  refine ⟨close_of_none (registered_of_neg hpost), shutdown_of_none (registered_of_neg hpost),
    ?_, ?_, ?_, ?_⟩
  · rw [close_of_none hnow]
    exact hentry
  · rw [shutdown_of_none hnow]
    exact hentry
  · rw [close_of_none hnow]
    exact hv2
  · rw [shutdown_of_none hnow]
    exact hv2

/-- C5, at a concrete run: descriptor `5` is added twice; closing the first handle after
the second `add` and a further `add 6` changes nothing. -/
theorem stale_handle_close_is_noop_witness :
    close (run (add (run (add (run init []) 5).1 []) 5).1 [Op.add 6]) (add (run init []) 5).2
      = run (add (run (add (run init []) 5).1 []) 5).1 [Op.add 6] :=
  (stale_handle_close_is_noop [] [] [Op.add 6] 5 (by decide) (by decide) (by decide)
    (by decide)).1

end FileDescriptorManager

/-! ## Theorems on the server -/

namespace StdMap

variable {K V : Type} [DecidableEq K] [LT K] [DecidableRel (fun a b : K => a < b)]

theorem insertSorted_perm (k : K) (v : V) (m : List (K × V)) :
    List.Perm (insertSorted k v m) ((k, v) :: m) := by
  induction m with
  | nil => exact List.Perm.refl _
  | cons e rest ih =>
    obtain ⟨a, w⟩ := e
    unfold insertSorted
    split
    · exact List.Perm.refl _
    · exact (List.Perm.cons (a, w) ih).trans (List.Perm.swap (k, v) (a, w) rest)

theorem mem_erase_iff (k : K) (m : List (K × V)) (e : K × V) :
    e ∈ erase k m ↔ e ∈ m ∧ e.1 ≠ k := by
  induction m with
  | nil => simp [erase]
  | cons x rest ih =>
    obtain ⟨a, w⟩ := x
    unfold erase
    split
    · rename_i hak
      rw [ih]
      constructor
      · rintro ⟨h1, h2⟩
        exact ⟨List.mem_cons_of_mem _ h1, h2⟩
      · rintro ⟨h1, h2⟩
        rcases List.mem_cons.mp h1 with h | h
        · subst h
          exact absurd hak h2
        · exact ⟨h, h2⟩
    · rename_i hak
      rw [List.mem_cons, ih, List.mem_cons]
      constructor
      · rintro (h | ⟨h1, h2⟩)
        · subst h
          exact ⟨Or.inl rfl, hak⟩
        · exact ⟨Or.inr h1, h2⟩
      · rintro ⟨h | h, h2⟩
        · exact Or.inl h
        · exact Or.inr ⟨h, h2⟩

end StdMap

namespace HttpServer

/-- C6: `registerMethod` rejects duplicates without overwriting. When the method table
already binds `methodName`, the server (and with it the table and the handler bound to the
name) is unchanged; otherwise only the table changes, and it becomes the old table plus
exactly the binding `methodName -> method`: every lookup gives the new handler for
`methodName` and the old result for any other name, and the entries are those of the old
table and the new binding. -/
theorem registerMethod_rejects_duplicates (s : HttpServer) (methodName : String)
    (method : Nat) :
    (∀ m0, StdMap.find methodName s._rpcMethods = some m0 →
      registerMethod s methodName method = s ∧
      StdMap.find methodName (registerMethod s methodName method)._rpcMethods = some m0) ∧
    (StdMap.find methodName s._rpcMethods = none →
      (∀ k, StdMap.find k (registerMethod s methodName method)._rpcMethods
        = if k = methodName then some method else StdMap.find k s._rpcMethods) ∧
      List.Perm (registerMethod s methodName method)._rpcMethods
        ((methodName, method) :: s._rpcMethods) ∧
      registerMethod s methodName method
        = { s with _rpcMethods := (registerMethod s methodName method)._rpcMethods }) := by
  constructor
  · intro m0 h
    have : registerMethod s methodName method = s := by simp [registerMethod, h]
    exact ⟨this, by rw [this]; exact h⟩
  · intro h
    have hreg : (registerMethod s methodName method)._rpcMethods
        = StdMap.insertSorted methodName method s._rpcMethods := by
      simp [registerMethod, StdMap.insert, h]
    refine ⟨?_, ?_, ?_⟩
    · intro k
      rw [hreg]
      exact StdMap.find_insertSorted k methodName method s._rpcMethods h
    · rw [hreg]
      exact StdMap.insertSorted_perm methodName method s._rpcMethods
    · simp [registerMethod, h]

/-- C6, at a concrete table: `"init"` is bound to handler `1`; registering it again with
handler `2` changes nothing, and registering `"abc"` adds that binding. -/
theorem registerMethod_rejects_duplicates_witness :
    registerMethod { _rpcMethods := [("init", 1)] } "init" 2 = { _rpcMethods := [("init", 1)] } ∧
      StdMap.find "abc" (registerMethod { _rpcMethods := [("init", 1)] } "abc" 2)._rpcMethods
        = some 2 :=
  ⟨((registerMethod_rejects_duplicates { _rpcMethods := [("init", 1)] } "init" 2).1 1
      (by decide)).1,
    by
      have h := ((registerMethod_rejects_duplicates { _rpcMethods := [("init", 1)] } "abc" 2).2
        (by decide)).1 "abc"
      simpa using h⟩

theorem getClientInfoLoop_eq (m : List (Int × Client)) :
    getClientInfoLoop m = (m.filter (fun e => !e.2.closed)).map Prod.snd := by
  induction m with
  | nil => rfl
  | cons e rest ih =>
    obtain ⟨k, c⟩ := e
    unfold getClientInfoLoop
    cases hc : c.closed with
    | true => simp [hc, ih]
    | false => simp [hc, ih]

theorem wf_erase {V : Type} (k : Int) (m : List (Int × V)) (h : StdMap.WF m) :
    StdMap.WF (StdMap.erase k m) := by
  unfold StdMap.WF at h ⊢
  induction m with
  | nil => exact List.Pairwise.nil
  | cons e rest ih =>
    obtain ⟨a, v⟩ := e
    obtain ⟨h1, h2⟩ := List.pairwise_cons.mp h
    unfold StdMap.erase
    split
    · exact ih h2
    · refine List.pairwise_cons.mpr ⟨?_, ih h2⟩
      intro b hb
      exact h1 b ((StdMap.mem_erase_iff k rest b).mp hb).1

theorem wf_insertSorted {V : Type} (k : Int) (v : V) (m : List (Int × V))
    (h : StdMap.WF m) (hk : StdMap.find k m = none) :
    StdMap.WF (StdMap.insertSorted k v m) := by
  unfold StdMap.WF at h ⊢
  induction m with
  | nil => simp [StdMap.insertSorted]
  | cons e rest ih =>
    obtain ⟨a, w⟩ := e
    obtain ⟨h1, h2⟩ := List.pairwise_cons.mp h
    have ha : ¬ a = k := by
      intro e
      simp [StdMap.find, e] at hk
    have hrest : StdMap.find k rest = none := by
      simpa [StdMap.find, ha] using hk
    unfold StdMap.insertSorted
    split
    · rename_i hlt
      refine List.pairwise_cons.mpr ⟨?_, h⟩
      intro b hb
      rcases List.mem_cons.mp hb with e | e
      · subst e
        exact hlt
      · exact lt_trans hlt (h1 b e)
    · rename_i hlt
      refine List.pairwise_cons.mpr ⟨?_, ih h2 hrest⟩
      intro b hb
      rcases List.mem_cons.mp ((StdMap.insertSorted_perm k v rest).subset hb) with e | e
      · subst e
        show a < k
        omega
      · exact h1 b e

theorem clientsWF_assign {m : List (Int × Client)} (h : ClientsWF m) (c : Client) :
    ClientsWF (StdMap.assign c.id c m) := by
  unfold StdMap.assign
  refine ⟨wf_insertSorted _ _ _ (wf_erase _ _ h.1) (by simp [StdMap.find_erase]), ?_⟩
  intro e he
  rcases List.mem_cons.mp ((StdMap.insertSorted_perm _ _ _).subset he) with e1 | e1
  · subst e1
    rfl
  · exact h.2 e ((StdMap.mem_erase_iff _ _ _).mp e1).1

theorem clientsWF_collectGarbage {s : HttpServer} (h : ClientsWF s._clients) (now : Int) :
    ClientsWF (collectGarbage s now)._clients := by
  unfold collectGarbage
  have key : ∀ (cs : List Client) (t : HttpServer), ClientsWF t._clients →
      ClientsWF (cs.foldl removeClient t)._clients := by
    intro cs
    induction cs with
    | nil => exact fun t ht => ht
    | cons c rest ih =>
      intro t ht
      refine ih (removeClient t c) ⟨wf_erase _ _ ht.1, ?_⟩
      intro e he
      exact ht.2 e ((StdMap.mem_erase_iff _ _ _).mp he).1
  exact key _ _ h

theorem getClientSocketDescriptor_clients (s : HttpServer) (inp : AcceptInput)
    (h : ClientsWF s._clients) : ClientsWF (getClientSocketDescriptor s inp).1._clients := by
  have h1 := clientsWF_collectGarbage h inp.now
  have h2 := clientsWF_collectGarbage h1 inp.now
  have h3 := clientsWF_collectGarbage h inp.now
  unfold getClientSocketDescriptor
  by_cases hc : s._clients.length > s.rpcServerMaxConnections
  · simp only [hc, if_true]
    repeat' split
    all_goals first | exact h1 | exact h2
  · simp only [hc, if_false]
    repeat' split
    all_goals first | exact h | exact h3

theorem getSSLSocketDescriptor_clients (s : HttpServer) (client : Client) (o : TlsOutcome) :
    (getSSLSocketDescriptor s client o)._clients = s._clients := by
  cases o <;> rfl

theorem waitForConnection_clients (s : HttpServer) (inp : AcceptInput)
    (h : ClientsWF s._clients) : ClientsWF (waitForConnection s inp).1._clients := by
  unfold waitForConnection
  split <;> exact h

/-- Every pass of the accept loop keeps the connection map well-formed. -/
theorem mainThreadAccept_clientsWF (s s' : HttpServer) (inp : AcceptInput)
    (h : ClientsWF s._clients) (hs : mainThreadAccept s inp = some s') :
    ClientsWF s'._clients := by
  have h1 := waitForConnection_clients s inp h
  unfold mainThreadAccept at hs
  split at hs
  · simp only [Option.some.injEq] at hs
    subst hs
    exact h
  · split at hs
    · simp only [Option.some.injEq] at hs
      subst hs
      exact h1
    · rename_i fd _
      simp only at hs
      split at hs
      · simp only [Option.some.injEq] at hs
        subst hs
        exact h1
      · split at hs
        · exact absurd hs (by simp)
        · rename_i counter id _
          have h2 : ClientsWF (StdMap.assign id { id := id, socketDescriptor := fd }
              (waitForConnection s inp).1._clients) :=
            clientsWF_assign h1 { id := id, socketDescriptor := fd }
          split at hs
          · split at hs
            · simp only [Option.some.injEq] at hs
              subst hs
              simp only [closeClientConnection, getSSLSocketDescriptor_clients]
              exact clientsWF_assign h2 { id := id, socketDescriptor := fd, closed := true }
            · simp only [Option.some.injEq] at hs
              subst hs
              simp only [startClient, getSSLSocketDescriptor_clients]
              exact clientsWF_assign h2
                { id := id, socketDescriptor := fd, socket := some fd, address := inp.address,
                  port := inp.port }
          · simp only [Option.some.injEq] at hs
            subst hs
            simp only [startClient]
            exact clientsWF_assign h2
              { id := id, socketDescriptor := fd, socket := some fd, address := inp.address,
                port := inp.port }

/-- C7: `getClientInfo()` leaves the server unchanged and returns exactly the records of
the connection map (well-formed: keys ascending, every record stored under its id) whose
closed flag is false: the non-closed records in map order, each once, in ascending id
order. -/
theorem getClientInfo_snapshot (s : HttpServer) (h : ClientsWF s._clients) :
    (getClientInfo s).1 = s ∧
    (getClientInfo s).2 = (s._clients.filter (fun e => !e.2.closed)).map Prod.snd ∧
    (∀ c, c ∈ (getClientInfo s).2 ↔ (c.id, c) ∈ s._clients ∧ c.closed = false) ∧
    (getClientInfo s).2.Nodup ∧
    List.Pairwise (fun a b : Client => a.id < b.id) (getClientInfo s).2 := by
  obtain ⟨hwf, hid⟩ := h
  have heq : (getClientInfo s).2 = (s._clients.filter (fun e => !e.2.closed)).map Prod.snd :=
    getClientInfoLoop_eq s._clients
  have hpw : List.Pairwise (fun a b : Client => a.id < b.id) (getClientInfo s).2 := by
    rw [heq, List.pairwise_map]
    have h1 : List.Pairwise (fun a b : Int × Client => a.1 < b.1)
        (s._clients.filter (fun e => !e.2.closed)) := List.Pairwise.filter _ hwf
    have h2 : ∀ e ∈ s._clients.filter (fun e => !e.2.closed), e.2.id = e.1 :=
      fun e he => hid e (List.mem_filter.mp he).1
    refine List.Pairwise.imp_of_mem ?_ h1
    intro a b ha hb hab
    rw [h2 a ha, h2 b hb]
    exact hab
  refine ⟨rfl, heq, ?_, ?_, hpw⟩
  · intro c
    rw [heq, List.mem_map]
    constructor
    · rintro ⟨e, he, rfl⟩
      obtain ⟨hm, hc⟩ := List.mem_filter.mp he
      have hk := hid e hm
      refine ⟨?_, by simpa using hc⟩
      rw [hk]
      exact hm
    · rintro ⟨hm, hc⟩
      exact ⟨(c.id, c), List.mem_filter.mpr ⟨hm, by simp [hc]⟩, rfl⟩
  · exact (hpw.imp (fun h => ne_of_lt (by exact h))).imp (fun h e => h (by rw [e]))

/-- C7, at a concrete map with records `1`, `2` (closed) and `5`: the snapshot has the
records `1` and `5`, in this order. -/
theorem getClientInfo_snapshot_witness :
    (getClientInfo
      { _clients := [(1, { id := 1 }), (2, { id := 2, closed := true }), (5, { id := 5 })] }).2
      = [{ id := 1 }, { id := 5 }] :=
  (getClientInfo_snapshot
    { _clients := [(1, { id := 1 }), (2, { id := 2, closed := true }), (5, { id := 5 })] }
    ⟨by unfold StdMap.WF; decide, by decide⟩).2.1.trans (by decide)

/-- C8, the code at a failing input: the accept loop of `mainThread` never compares the
size of the connection map with the ceiling. With ceiling `1` and three connections
accepted in a row (raw descriptors `10`, `11` and `12`, none closed), all three records are
in the map, `getClientInfo()` reports three live connections, the handles of all three are
valid, and no `shutdown` or `close` has been issued. -/
theorem accept_loop_ignores_ceiling :
    (mainThreadRun (listening 1)
        [{ accepted := some 10 }, { accepted := some 11 }, { accepted := some 12 }]).map
      (fun s => (s.rpcServerMaxConnections, (getClientInfo s).2.map (fun c => c.id),
        s._clients.map (fun e => FileDescriptorManager.isValid s.fdm e.2.socketDescriptor),
        s.fdm.sysCalls))
      = some (1, [0, 1, 2], [true, true, true], []) := by
  decide

theorem closeAllClients_snd (s : HttpServer) (m : List (Int × Client)) :
    (closeAllClients s m).2 = m.map (fun e => (e.1, { e.2 with closed := true })) := by
  induction m generalizing s with
  | nil => rfl
  | cons e rest ih =>
    obtain ⟨k, c⟩ := e
    simp [closeAllClients, ih, closeClientConnection]

theorem closeAllClients_fst (s : HttpServer) (m : List (Int × Client)) :
    (closeAllClients s m).1 =
      { s with
        fdm := m.foldl (fun f e => FileDescriptorManager.shutdown f e.2.socketDescriptor)
          s.fdm } := by
  induction m generalizing s with
  | nil => rfl
  | cons e rest ih =>
    obtain ⟨k, c⟩ := e
    simp [closeAllClients, ih, closeClientConnection]

theorem clientsToRemove_all_closed (m : List (Int × Client))
    (h : ∀ e ∈ m, e.2.closed = true) : clientsToRemove m = m.map Prod.snd := by
  induction m with
  | nil => rfl
  | cons e rest ih =>
    obtain ⟨k, c⟩ := e
    have hc : c.closed = true := h (k, c) (List.mem_cons_self _ _)
    simp [clientsToRemove, hc, ih (fun e he => h e (List.mem_cons_of_mem _ he))]

/-- The second loop of `collectGarbage` over records `cs`: the map loses the entries under
their ids, each record contributes a join followed by an erase, nothing else changes. -/
theorem foldl_removeClient (cs : List Client) (s : HttpServer) :
    (∀ e, e ∈ (cs.foldl removeClient s)._clients ↔ e ∈ s._clients ∧ ∀ c ∈ cs, e.1 ≠ c.id) ∧
    (cs.foldl removeClient s).actions = s.actions ++
      cs.flatMap (fun c => [ServerAction.joinReadThread c.id, ServerAction.eraseClient c.id]) ∧
    cs.foldl removeClient s =
      { s with
        _clients := (cs.foldl removeClient s)._clients
        actions := (cs.foldl removeClient s).actions } := by
  induction cs generalizing s with
  | nil => simp
  | cons c rest ih =>
    obtain ⟨h1, h2, h3⟩ := ih (removeClient s c)
    refine ⟨?_, ?_, ?_⟩
    · intro e
      rw [List.foldl_cons, h1 e]
      simp only [removeClient, StdMap.mem_erase_iff, List.mem_cons, forall_eq_or_imp]
      tauto
    · rw [List.foldl_cons, h2]
      simp [removeClient]
    · rw [List.foldl_cons, h3]
      simp [removeClient]

theorem stopDrain_of_empty (now : Int) (fuel : Nat) (s : HttpServer) (h : s._clients = []) :
    stopDrain now fuel s = some s := by
  cases fuel with
  | zero => simp [stopDrain, h]
  | succ n => simp [stopDrain, h]

theorem flatMap_join_erase_congr (l : List (Int × Client)) (hl : ∀ e ∈ l, e.2.id = e.1) :
    l.flatMap (fun a => [ServerAction.joinReadThread a.2.id, ServerAction.eraseClient a.2.id])
      = l.flatMap (fun e => [ServerAction.joinReadThread e.1, ServerAction.eraseClient e.1]) := by
  induction l with
  | nil => rfl
  | cons x xs ih =>
    simp only [List.flatMap_cons]
    rw [hl x (List.mem_cons_self _ _), ih (fun e he => hl e (List.mem_cons_of_mem _ he))]

theorem stopCloseAll_eq (s : HttpServer) :
    stopCloseAll s =
      { s with
        _stopped := true
        _stopServer := true
        actions := s.actions ++ [ServerAction.joinMainThread]
        fdm := s._clients.foldl
          (fun f e => FileDescriptorManager.shutdown f e.2.socketDescriptor) s.fdm
        _clients := s._clients.map (fun e => (e.1, { e.2 with closed := true })) } := by
  simp [stopCloseAll, closeAllClients_fst, closeAllClients_snd]

/-- C9: `stop()` on a started server whose records are stored under their ids returns (one
pass of the drain loop is enough, whatever bound `fuel + 1` is given) with an empty
connection map. Before the drain loop every record of the map, under the same keys, is
marked closed and its handle has been shut down; the steps recorded after that are, for
every record in map order, the join of its reader thread directly followed by its
erasure. -/
theorem stop_drains_connection_map (s : HttpServer) (now : Int) (fuel : Nat)
    (hstarted : s._stopped = false) (hid : ∀ e ∈ s._clients, e.2.id = e.1) :
    ∃ s', stop now (fuel + 1) s = some s' ∧
      s'._clients = [] ∧
      s'._stopped = true ∧
      (∀ e ∈ (stopCloseAll s)._clients, e.2.closed = true) ∧
      (stopCloseAll s)._clients.map Prod.fst = s._clients.map Prod.fst ∧
      s'.fdm = s._clients.foldl
        (fun f e => FileDescriptorManager.shutdown f e.2.socketDescriptor) s.fdm ∧
      s'.actions = s.actions ++ [ServerAction.joinMainThread] ++
        s._clients.flatMap
          (fun e => [ServerAction.joinReadThread e.1, ServerAction.eraseClient e.1]) := by
  have hs2 := stopCloseAll_eq s
  generalize stopCloseAll s = s2 at hs2
  have hs2c : s2._clients = s._clients.map (fun e => (e.1, { e.2 with closed := true })) := by
    rw [hs2]
  have hclosed : ∀ e ∈ s2._clients, e.2.closed = true := by
    intro e he
    rw [hs2c, List.mem_map] at he
    obtain ⟨x, _, rfl⟩ := he
    rfl
  have hkeys : s2._clients.map Prod.fst = s._clients.map Prod.fst := by
    rw [hs2c, List.map_map]
    rfl
  have hstop : stop now (fuel + 1) s = stopDrain now (fuel + 1) s2 := by
    simp only [stop, hstarted, Bool.false_eq_true, if_false]
    rw [stopCloseAll_eq, ← hs2]
  by_cases hm : s._clients = []
  · have hempty : s2._clients = [] := by
      rw [hs2c, hm]
      rfl
    refine ⟨s2, ?_, hempty, ?_, hclosed, hkeys, ?_, ?_⟩
    · rw [hstop]
      exact stopDrain_of_empty _ _ _ hempty
    · rw [hs2]
    · rw [hs2]
    · rw [hs2, hm]
      simp
  · have hpos : s2._clients.length > 0 := by
      rw [hs2c, List.length_map]
      exact List.length_pos.mpr hm
    have hstop2 : stop now (fuel + 1) s = stopDrain now fuel (collectGarbage s2 now) := by
      rw [hstop]
      simp only [stopDrain, hpos, if_true]
    have hrem : clientsToRemove s2._clients = s2._clients.map Prod.snd :=
      clientsToRemove_all_closed _ hclosed
    obtain ⟨g1, g2, g3⟩ := foldl_removeClient (s2._clients.map Prod.snd)
      { s2 with _lastGargabeCollection := now }
    have hgc : collectGarbage s2 now = (s2._clients.map Prod.snd).foldl removeClient
        { s2 with _lastGargabeCollection := now } := by
      simp only [collectGarbage, hrem]
    have hid2 : ∀ e ∈ s2._clients, e.2.id = e.1 := by
      intro e he
      rw [hs2c, List.mem_map] at he
      obtain ⟨x, hx, rfl⟩ := he
      exact hid x hx
    have hempty : (collectGarbage s2 now)._clients = [] := by
      rw [hgc, List.eq_nil_iff_forall_not_mem]
      intro e he
      obtain ⟨hmem, hne⟩ := (g1 e).mp he
      exact hne e.2 (List.mem_map.mpr ⟨e, hmem, rfl⟩) (hid2 e hmem).symm
    refine ⟨collectGarbage s2 now, ?_, hempty, ?_, hclosed, hkeys, ?_, ?_⟩
    · rw [hstop2]
      exact stopDrain_of_empty _ _ _ hempty
    · rw [hgc, g3, hs2]
    · rw [hgc, g3, hs2]
    · rw [hgc, g2]
      simp only [hs2c]
      rw [hs2]
      simp only [List.map_map, List.flatMap_map, List.append_assoc, List.append_cancel_left_eq]
      exact flatMap_join_erase_congr _ hid

/-- C9, at a concrete server with two connections: `stop` returns with an empty map, and
reader `4` is joined and erased before reader `7`. -/
theorem stop_drains_connection_map_witness :
    ∃ s', stop 0 1
        { fdm := (FileDescriptorManager.add (FileDescriptorManager.add {} 10).1 11).1
          _clients := [(4, { id := 4, socketDescriptor := 0 }),
            (7, { id := 7, socketDescriptor := 1 })]
          _stopped := false
          _stopServer := false } = some s' ∧
      s'._clients = [] ∧
      s'.actions = [ServerAction.joinMainThread, ServerAction.joinReadThread 4,
        ServerAction.eraseClient 4, ServerAction.joinReadThread 7,
        ServerAction.eraseClient 7] := by
  obtain ⟨s', h1, h2, _, _, _, _, h3⟩ := stop_drains_connection_map
    { fdm := (FileDescriptorManager.add (FileDescriptorManager.add {} 10).1 11).1
      _clients := [(4, { id := 4, socketDescriptor := 0 }),
        (7, { id := 7, socketDescriptor := 1 })]
      _stopped := false
      _stopServer := false } 0 0 rfl (by decide)
  exact ⟨s', h1, h2, h3⟩

set_option maxRecDepth 100000 in
theorem websocketAccept_rfc6455 :
    websocketAccept "dGhlIHNhbXBsZSBub25jZQ==" = "s3pPLMBiTxaQ9kYGzzhZRbK+xOo=" := by
  decide

theorem switchingProtocolsHeader_server (accept : String) :
    switchingProtocolsHeader accept "server" =
      "HTTP/1.1 101 Switching Protocols\r\nConnection: Upgrade\r\nUpgrade: websocket\r\nSec-WebSocket-Accept: "
        ++ accept ++ "\r\nSec-WebSocket-Protocol: server\r\n\r\n" := by
  have h1 : ("HTTP/1.1 101 Switching Protocols\r\nConnection: Upgrade\r\nUpgrade: websocket\r\nSec-WebSocket-Accept: " : String)
      = "HTTP/1.1 101 Switching Protocols\r\n" ++ ("Connection: Upgrade\r\n"
        ++ ("Upgrade: websocket\r\n" ++ "Sec-WebSocket-Accept: ")) := by decide
  have h2 : ("\r\nSec-WebSocket-Protocol: server\r\n\r\n" : String)
      = "\r\n" ++ ("Sec-WebSocket-Protocol: " ++ ("server" ++ ("\r\n" ++ "\r\n"))) := by decide
  have h3 : ¬ ("server" : String) = "" := by decide
  rw [h1, h2]
  simp only [switchingProtocolsHeader, h3, if_false, String.append_assoc]

theorem switchingProtocolsHeader_ne_empty (accept protocol : String) :
    switchingProtocolsHeader accept protocol ≠ "" := by
  intro h
  have := congrArg String.length h
  simp only [switchingProtocolsHeader, String.length_append] at this
  have h0 : ("HTTP/1.1 101 Switching Protocols\r\n" : String).length = 34 := by decide
  have h1 : ("" : String).length = 0 := rfl
  omega

/-- C10: for an upgrade request (`Upgrade: websocket`) with `Sec-WebSocket-Protocol: server`
and `Sec-WebSocket-Key: k`, handled for a valid client while the server runs,
`handleConnectionUpgrade` performs exactly one write on the client's socket, whatever the
write then does, and the data written is the `101 Switching Protocols` header whose accept
value is the Base64 encoding of the SHA-1 digest of `k` followed by the WebSocket GUID; a
successful write leaves the record open. For `k = dGhlIHNhbXBsZSBub25jZQ==` the accept
value is `s3pPLMBiTxaQ9kYGzzhZRbK+xOo=`. -/
theorem handleConnectionUpgrade_server_response (s : HttpServer) (client : Client)
    (http : HttpHeader) (k : String) (w : WriteOutcome)
    (hup : (StdMap.find "upgrade" http.fields).map HelperFunctions.toLower = some "websocket")
    (hproto : StdMap.find "sec-websocket-protocol" http.fields = some "server")
    (hkey : StdMap.find "sec-websocket-key" http.fields = some k)
    (hrun : s._stopped = false) (hvalid : clientValid s client = true) :
    (handleConnectionUpgrade s client http w).1.actions = s.actions ++
      [ServerAction.proofwrite client.id client.socket
        ("HTTP/1.1 101 Switching Protocols\r\nConnection: Upgrade\r\nUpgrade: websocket\r\nSec-WebSocket-Accept: "
          ++ Base64.encode (Security.Hash.sha1
              (bytesOf (k ++ "258EAFA5-E914-47DA-95CA-C5AB0DC85B11")))
          ++ "\r\nSec-WebSocket-Protocol: server\r\n\r\n")] ∧
    (handleConnectionUpgrade s client http WriteOutcome.ok).2.closed = client.closed ∧
    Base64.encode (Security.Hash.sha1
        (bytesOf ("dGhlIHNhbXBsZSBub25jZQ==" ++ "258EAFA5-E914-47DA-95CA-C5AB0DC85B11")))
      = "s3pPLMBiTxaQ9kYGzzhZRbK+xOo=" := by
  have hl : HelperFunctions.toLower "server" = "server" := by decide
  have hne := switchingProtocolsHeader_ne_empty (websocketAccept k) "server"
  have hhdr := switchingProtocolsHeader_server (websocketAccept k)
  have hnone : ¬ (StdMap.find "sec-websocket-protocol" http.fields = none
      ∧ (http.path = "" ∨ http.path = "/")) := by
    rw [hproto]
    simp
  refine ⟨?_, ?_, websocketAccept_rfc6455⟩
  · unfold handleConnectionUpgrade
    rw [if_pos hup, if_neg hnone, hkey]
    simp only [hproto, Option.getD_some, hl, true_or, if_true]
    unfold sendRPCResponseToClient
    have hv : clientValid s
        { client with
          webSocketClientId :=
            HelperFunctions.toLower (resolvePath http.path client.webSocketClientId).2
          rpcType := RpcType.websocket
          initJsonMode := true
          initKeepAlive := true
          initNewFormat := true
          initSubscribePeers := true } = true := hvalid
    simp only [hrun, hv, hne, Bool.false_eq_true, if_false, Bool.not_true, Bool.not_false]
    rw [hhdr]
    cases w <;> simp [closeClientConnection, websocketAccept, websocketGuid]
  · unfold handleConnectionUpgrade
    rw [if_pos hup, if_neg hnone, hkey]
    simp only [hproto, Option.getD_some, hl, true_or, if_true]
    unfold sendRPCResponseToClient
    have hv : clientValid s
        { client with
          webSocketClientId :=
            HelperFunctions.toLower (resolvePath http.path client.webSocketClientId).2
          rpcType := RpcType.websocket
          initJsonMode := true
          initKeepAlive := true
          initNewFormat := true
          initSubscribePeers := true } = true := hvalid
    simp only [hrun, hv, hne, Bool.false_eq_true, if_false, Bool.not_true, Bool.not_false]

set_option maxRecDepth 100000 in
/-- C10, at the RFC 6455 sample request: the single write carries the accept value
`s3pPLMBiTxaQ9kYGzzhZRbK+xOo=`. -/
theorem handleConnectionUpgrade_server_response_witness :
    (handleConnectionUpgrade
        { fdm := (FileDescriptorManager.add FileDescriptorManager.init 10).1
          _stopped := false
          _stopServer := false }
        { id := 0, socketDescriptor := 0, socket := some 0 }
        { path := "/"
          fields := [("sec-websocket-key", "dGhlIHNhbXBsZSBub25jZQ=="),
            ("sec-websocket-protocol", "server"), ("upgrade", "WebSocket")] }
        WriteOutcome.ok).1.actions
      = [ServerAction.proofwrite 0 (some 0)
          "HTTP/1.1 101 Switching Protocols\r\nConnection: Upgrade\r\nUpgrade: websocket\r\nSec-WebSocket-Accept: s3pPLMBiTxaQ9kYGzzhZRbK+xOo=\r\nSec-WebSocket-Protocol: server\r\n\r\n"] :=
  (handleConnectionUpgrade_server_response
    { fdm := (FileDescriptorManager.add FileDescriptorManager.init 10).1
      _stopped := false
      _stopServer := false }
    { id := 0, socketDescriptor := 0, socket := some 0 }
    { path := "/"
      fields := [("sec-websocket-key", "dGhlIHNhbXBsZSBub25jZQ=="),
        ("sec-websocket-protocol", "server"), ("upgrade", "WebSocket")] }
    "dGhlIHNhbXBsZSBub25jZQ==" WriteOutcome.ok (by decide) (by decide) (by decide) rfl
    (by decide)).1.trans (by decide)

end HttpServer

/-! ## Theorems on responses and dispatch -/

namespace HttpServer

/-- The state of `sendRPCResponseToClient` after the write attempt. -/
theorem sendRPCResponseToClient_eq (s : HttpServer) (client : Client) (data : String)
    (keepAlive : Bool) (w : WriteOutcome) (hrun : s._stopped = false)
    (hvalid : clientValid s client = true) (hdata : data ≠ "") :
    sendRPCResponseToClient s client data keepAlive w =
      match w with
      | WriteOutcome.ok =>
        if !keepAlive then
          closeClientConnection { s with
            actions := s.actions ++ [ServerAction.proofwrite client.id client.socket data] }
            client
        else
          ({ s with
            actions := s.actions ++ [ServerAction.proofwrite client.id client.socket data] },
            client)
      | WriteOutcome.dataLimitException =>
        if !keepAlive then
          closeClientConnection { s with
            actions := s.actions ++ [ServerAction.proofwrite client.id client.socket data] }
            client
        else
          ({ s with
            actions := s.actions ++ [ServerAction.proofwrite client.id client.socket data] },
            client)
      | WriteOutcome.operationException =>
        closeClientConnection { s with
          actions := s.actions ++ [ServerAction.proofwrite client.id client.socket data] }
          client
      | WriteOutcome.otherException =>
        ({ s with
          actions := s.actions ++ [ServerAction.proofwrite client.id client.socket data] },
          client) := by
  unfold sendRPCResponseToClient
  simp only [hrun, hvalid, hdata, Bool.false_eq_true, if_false, Bool.not_true]

/-- C12: for a request with `Upgrade: websocket`, `handleConnectionUpgrade` does nothing
but `closeClientConnection` (the record is flagged closed, its handle shut down, and
nothing is written) whenever the sub-protocol indicator is missing (no
`sec-websocket-protocol` field and a path that is empty or `/`) or the key field is
missing; hence a write that the call adds to the record of writes implies that both
are present. -/
theorem handleConnectionUpgrade_rejects_incomplete (s : HttpServer) (client : Client)
    (http : HttpHeader) (w : WriteOutcome)
    (hup : (StdMap.find "upgrade" http.fields).map HelperFunctions.toLower
      = some "websocket") :
    (((StdMap.find "sec-websocket-protocol" http.fields = none
          ∧ (http.path = "" ∨ http.path = "/"))
        ∨ StdMap.find "sec-websocket-key" http.fields = none) →
      handleConnectionUpgrade s client http w = closeClientConnection s client ∧
      (handleConnectionUpgrade s client http w).2.closed = true ∧
      (handleConnectionUpgrade s client http w).1.actions = s.actions ∧
      (handleConnectionUpgrade s client http w).1.fdm
        = FileDescriptorManager.shutdown s.fdm client.socketDescriptor) ∧
    (∀ id socket data,
      ServerAction.proofwrite id socket data ∈ (handleConnectionUpgrade s client http w).1.actions →
      ServerAction.proofwrite id socket data ∉ s.actions →
      ¬ (StdMap.find "sec-websocket-protocol" http.fields = none
          ∧ (http.path = "" ∨ http.path = "/"))
        ∧ StdMap.find "sec-websocket-key" http.fields ≠ none) := by
  have hmiss : ((StdMap.find "sec-websocket-protocol" http.fields = none
          ∧ (http.path = "" ∨ http.path = "/"))
        ∨ StdMap.find "sec-websocket-key" http.fields = none) →
      handleConnectionUpgrade s client http w = closeClientConnection s client := by
    intro h
    unfold handleConnectionUpgrade
    rw [if_pos hup]
    by_cases h1 : StdMap.find "sec-websocket-protocol" http.fields = none
        ∧ (http.path = "" ∨ http.path = "/")
    · rw [if_pos h1]
    · rw [if_neg h1]
      rcases h with h | h
      · exact absurd h h1
      · rw [h]
  constructor
  · intro h
    have e := hmiss h
    refine ⟨e, ?_, ?_, ?_⟩ <;> rw [e] <;> rfl
  · intro id socket data hin hnot
    by_cases h1 : StdMap.find "sec-websocket-protocol" http.fields = none
        ∧ (http.path = "" ∨ http.path = "/")
    · rw [hmiss (Or.inl h1)] at hin
      exact absurd hin hnot
    · by_cases h2 : StdMap.find "sec-websocket-key" http.fields = none
      · rw [hmiss (Or.inr h2)] at hin
        exact absurd hin hnot
      · exact ⟨h1, h2⟩

/-- C12, at a concrete request: protocol `server` but no key; the record is flagged closed
and nothing is written. -/
theorem handleConnectionUpgrade_rejects_incomplete_witness :
    (handleConnectionUpgrade
        { fdm := (FileDescriptorManager.add FileDescriptorManager.init 10).1
          _stopped := false
          _stopServer := false }
        { id := 0, socketDescriptor := 0, socket := some 0 }
        { path := "/"
          fields := [("sec-websocket-protocol", "server"), ("upgrade", "websocket")] }
        WriteOutcome.ok).2.closed = true ∧
      (handleConnectionUpgrade
        { fdm := (FileDescriptorManager.add FileDescriptorManager.init 10).1
          _stopped := false
          _stopServer := false }
        { id := 0, socketDescriptor := 0, socket := some 0 }
        { path := "/"
          fields := [("sec-websocket-protocol", "server"), ("upgrade", "websocket")] }
        WriteOutcome.ok).1.actions = [] :=
  ⟨((handleConnectionUpgrade_rejects_incomplete _ _ _ _ (by decide)).1
      (Or.inr (by decide))).2.1,
    ((handleConnectionUpgrade_rejects_incomplete _ _ _ _ (by decide)).1
      (Or.inr (by decide))).2.2.1⟩

/-- What both overloads of `callMethod` do when the handler of a registered method throws
on a running server: the overload that returns a value returns the error `-32500`; the
overload that answers a client writes nothing and leaves record and registry untouched. -/
theorem callMethod_handler_throws (codecs : Codecs) (s : HttpServer) (client : Client)
    (env : DispatchEnv) (methodName : String) (parameters : List Variable) (messageId : Int)
    (responseType : PacketType) (keepAlive : Bool) (method : Nat)
    (hrun : s._stopped = false) (hshut : env.shuttingDown = false)
    (hname : methodName ≠ "setClientType")
    (hreg : StdMap.find methodName s._rpcMethods = some method)
    (hthrow : env.invoke method parameters = none) :
    (callMethod s env methodName parameters).2
      = Variable.createError (-32500) ": Unknown application error." ∧
    callMethodClient codecs s client env methodName parameters messageId responseType keepAlive
      = ({ s with _lifetick2 := (env.now, false) }, client) := by
  constructor
  · simp [callMethod, hrun, hshut, hreg, hthrow]
  · simp [callMethodClient, hrun, hshut, hname, hreg, hthrow]

/-- C15, the code at a failing input: on the sample server the handler of `listDevices`
throws. `callMethod(methodName, parameters)` returns the error value with code `-32500`,
but `callMethod(client, ...)` for a JSON request with keep-alive writes nothing to the
client: no step is recorded, record and registry are unchanged. When the handler returns,
the same call writes one response. -/
theorem callMethod_client_sends_no_error :
    (callMethod sampleServer {} "listDevices" []).2
        = Variable.createError (-32500) ": Unknown application error." ∧
      (callMethodClient sampleCodecs sampleServer sampleClient {} "listDevices" [] 1
        PacketType.jsonResponse true).1.actions = [] ∧
      (callMethodClient sampleCodecs sampleServer sampleClient {} "listDevices" [] 1
        PacketType.jsonResponse true).2 = sampleClient ∧
      (callMethodClient sampleCodecs sampleServer sampleClient {} "listDevices" [] 1
        PacketType.jsonResponse true).1.fdm = sampleServer.fdm ∧
      (callMethodClient sampleCodecs sampleServer sampleClient
        { invoke := fun _ _ => some {} } "listDevices" [] 1
        PacketType.jsonResponse true).1.actions.length = 1 := by
  decide

/-- Whatever the guards and the write do, `sendRPCResponseToClient` records at most its
one write and keeps the record's handle. -/
theorem sendRPCResponseToClient_actions (s : HttpServer) (client : Client) (data : String)
    (keepAlive : Bool) (w : WriteOutcome) :
    ((sendRPCResponseToClient s client data keepAlive w).1.actions = s.actions ∨
      (sendRPCResponseToClient s client data keepAlive w).1.actions
        = s.actions ++ [ServerAction.proofwrite client.id client.socket data]) ∧
    (sendRPCResponseToClient s client data keepAlive w).2.socketDescriptor
      = client.socketDescriptor := by
  unfold sendRPCResponseToClient
  split
  · exact ⟨Or.inl rfl, rfl⟩
  · split
    · exact ⟨Or.inl rfl, rfl⟩
    · split
      · exact ⟨Or.inl rfl, rfl⟩
      · cases w <;> cases keepAlive <;> simp [closeClientConnection]

/-- A write with `keepAlive` false, on a running server and a valid client: the write is
recorded, and the record is flagged closed unless the write threw something else than a
socket exception. -/
theorem sendRPCResponseToClient_closes_aux (s : HttpServer) (client : Client) (data : String)
    (w : WriteOutcome) (hrun : s._stopped = false) (hvalid : clientValid s client = true)
    (hdata : data ≠ "") :
    (sendRPCResponseToClient s client data false w).1.actions
      = s.actions ++ [ServerAction.proofwrite client.id client.socket data] ∧
    (w ≠ WriteOutcome.otherException →
      (sendRPCResponseToClient s client data false w).2.closed = true) := by
  rw [sendRPCResponseToClient_eq s client data false w hrun hvalid hdata]
  cases w <;> simp [closeClientConnection]

/-- The end of `readClient` leaves the record flagged closed and its handle invalid. -/
theorem readClientExit_closes (codecs : Codecs) (s : HttpServer) (client : Client)
    (w : WriteOutcome) :
    (readClientExit codecs s client w).2.closed = true ∧
    (readClientExit codecs s client w).2.socketDescriptor = client.socketDescriptor ∧
    FileDescriptorManager.isValid (readClientExit codecs s client w).1.fdm
      client.socketDescriptor = false := by
  unfold readClientExit
  split
  · have h := (sendRPCResponseToClient_actions s client
      (codecs.webSocketEncode "" WebSocketOpcode.close) false w).2
    refine ⟨rfl, h, ?_⟩
    simp only [closeClientConnection, h]
    rw [FileDescriptorManager.isValid_eq_isSome,
      FileDescriptorManager.registered_shutdown_self]
    rfl
  · refine ⟨rfl, rfl, ?_⟩
    simp only [closeClientConnection]
    rw [FileDescriptorManager.isValid_eq_isSome,
      FileDescriptorManager.registered_shutdown_self]
    rfl

/-- C14: when the websocket auth type is `session` or `basic` and the record's
`webSocketAuthorized` flag is false, a finished frame that is no close frame is never
passed to `packetReceived`, whatever the authentication check does: the pass records no
call of `packetReceived`. When the check rejects the frame (server running, client valid,
close frame not empty), exactly one write is made, of the close frame, and the reader loop
is left; the write being done with `keepAlive` false, the record is then flagged closed
(for a write that returns or raises a socket exception), and in any case the end of
`readClient` leaves the record flagged closed and its handle invalid. When the check
throws, nothing is written in the pass and the loop is left as well. -/
theorem unauthorized_frame_is_not_dispatched (codecs : Codecs) (s : HttpServer)
    (client : Client) (frame : WebSocketFrame) (packetType : PacketType) (auth : AuthOutcome)
    (env : DispatchEnv) (w : WriteOutcome)
    (hauth : s.websocketAuthType = AuthType.session ∨ s.websocketAuthType = AuthType.basic)
    (hun : client.webSocketAuthorized = false) (hopen : frame.close = false) :
    (∀ id packet keepAlive,
      ServerAction.packetReceived id packet keepAlive ∈
        (readClientWebSocketFrame codecs s client frame packetType auth env).1.1.actions →
      ServerAction.packetReceived id packet keepAlive ∈ s.actions) ∧
    (auth = AuthOutcome.rejected →
      readClientWebSocketFrame codecs s client frame packetType auth env
        = (sendRPCResponseToClient s client codecs.webSocketEncodeClose false env.write,
          LoopControl.exit) ∧
      (s._stopped = false → clientValid s client = true → codecs.webSocketEncodeClose ≠ "" →
        (readClientWebSocketFrame codecs s client frame packetType auth env).1.1.actions
          = s.actions ++
            [ServerAction.proofwrite client.id client.socket codecs.webSocketEncodeClose] ∧
        (env.write ≠ WriteOutcome.otherException →
          (readClientWebSocketFrame codecs s client frame packetType auth env).1.2.closed
            = true)) ∧
      (readClientExit codecs
        (readClientWebSocketFrame codecs s client frame packetType auth env).1.1
        (readClientWebSocketFrame codecs s client frame packetType auth env).1.2 w).2.closed
        = true ∧
      FileDescriptorManager.isValid (readClientExit codecs
        (readClientWebSocketFrame codecs s client frame packetType auth env).1.1
        (readClientWebSocketFrame codecs s client frame packetType auth env).1.2 w).1.fdm
        client.socketDescriptor = false) ∧
    (auth = AuthOutcome.exception →
      readClientWebSocketFrame codecs s client frame packetType auth env
        = ((s, client), LoopControl.exit)) := by
  have hcond : (s.websocketAuthType = AuthType.basic ∨ s.websocketAuthType = AuthType.session)
      ∧ client.webSocketAuthorized = false := ⟨hauth.symm, hun⟩
  have hfalse : ¬ frame.close = true := by simp [hopen]
  have hrej : auth = AuthOutcome.rejected →
      readClientWebSocketFrame codecs s client frame packetType auth env
        = (sendRPCResponseToClient s client codecs.webSocketEncodeClose false env.write,
          LoopControl.exit) := by
    intro h
    subst h
    unfold readClientWebSocketFrame
    rw [if_neg hfalse, if_pos hcond]
  have hexc : auth = AuthOutcome.exception →
      readClientWebSocketFrame codecs s client frame packetType auth env
        = ((s, client), LoopControl.exit) := by
    intro h
    subst h
    unfold readClientWebSocketFrame
    rw [if_neg hfalse, if_pos hcond]
  refine ⟨?_, ?_, hexc⟩
  · intro id packet keepAlive hin
    cases auth with
    | rejected =>
      rw [hrej rfl] at hin
      rcases (sendRPCResponseToClient_actions s client codecs.webSocketEncodeClose false
        env.write).1 with e | e
      · rw [e] at hin
        exact hin
      · rw [e] at hin
        simpa using hin
    | exception =>
      rw [hexc rfl] at hin
      exact hin
    | accepted =>
      unfold readClientWebSocketFrame at hin
      rw [if_neg hfalse, if_pos hcond] at hin
      by_cases hc : client.webSocketClient = true
      · simp only [hc, if_true, transferToRpcClient] at hin
        simpa using hin
      · simp only [hc, Bool.false_eq_true, if_false] at hin
        exact hin
  · intro h
    have e := hrej h
    obtain ⟨x1, x2, x3⟩ := readClientExit_closes codecs
      (readClientWebSocketFrame codecs s client frame packetType auth env).1.1
      (readClientWebSocketFrame codecs s client frame packetType auth env).1.2 w
    have hsd : (readClientWebSocketFrame codecs s client frame packetType auth env).1.2.socketDescriptor
        = client.socketDescriptor := by
      rw [e]
      exact (sendRPCResponseToClient_actions s client _ false env.write).2
    refine ⟨e, ?_, x1, ?_⟩
    · intro hrun hvalid hne
      rw [e]
      have hw := sendRPCResponseToClient_closes_aux s client codecs.webSocketEncodeClose
        env.write hrun hvalid hne
      exact hw
    · rw [← hsd]
      exact x3

/-- C14, at a concrete pass: session authentication, an unauthorised connection and a text
frame that the check rejects; the close frame is written and the loop is left. -/
theorem unauthorized_frame_is_not_dispatched_witness :
    (readClientWebSocketFrame sampleCodecs
        { sampleServer with websocketAuthType := AuthType.session }
        { sampleClient with rpcType := RpcType.websocket }
        { content := "\x7b\"method\":\"listDevices\"\x7d" } PacketType.webSocketRequest
        AuthOutcome.rejected {})
      = (sendRPCResponseToClient { sampleServer with websocketAuthType := AuthType.session }
          { sampleClient with rpcType := RpcType.websocket } "ws-close" false WriteOutcome.ok,
        LoopControl.exit) :=
  ((unauthorized_frame_is_not_dispatched sampleCodecs
    { sampleServer with websocketAuthType := AuthType.session }
    { sampleClient with rpcType := RpcType.websocket }
    { content := "\x7b\"method\":\"listDevices\"\x7d" } PacketType.webSocketRequest
    AuthOutcome.rejected {} WriteOutcome.ok (Or.inl rfl) rfl rfl).2.1 rfl).1

/-- A decimal digit is not a carriage return. -/
theorem digitChar_ne_cr (k : Nat) (hk : k < 10) : Nat.digitChar k ≠ '\r' := by
  interval_cases k <;> decide

/-- The digits produced by `Nat.toDigitsCore` in base 10 hold no carriage return. -/
theorem toDigitsCore_noCR (fuel n : Nat) (ds : List Char) (hds : ∀ c ∈ ds, c ≠ '\r') :
    ∀ c ∈ Nat.toDigitsCore 10 fuel n ds, c ≠ '\r' := by
  induction fuel generalizing n ds with
  | zero => simpa [Nat.toDigitsCore] using hds
  | succ f ih =>
    unfold Nat.toDigitsCore
    have hcons : ∀ c ∈ Nat.digitChar (n % 10) :: ds, c ≠ '\r' := by
      intro c hc
      rcases List.mem_cons.mp hc with e | e
      · rw [e]; exact digitChar_ne_cr _ (Nat.mod_lt _ (by decide))
      · exact hds c e
    simp only
    split
    · exact hcons
    · exact ih _ _ hcons

/-- The text of `std::to_string` holds no carriage return. -/
theorem toStdString_noCR (n : Nat) : ∀ c ∈ (toStdString n).data, c ≠ '\r' := by
  unfold toStdString Nat.toDigits
  exact toDigitsCore_noCR _ _ [] (by simp)

/-- Characters other than a carriage return pass into the header part. -/
theorem splitAtBlankLine_noCR (p q : List Char) (hp : ∀ c ∈ p, c ≠ '\r') :
    splitAtBlankLine (p ++ q) = (splitAtBlankLine q).map (fun r => (p ++ r.1, r.2)) := by
  induction p with
  | nil => simp
  | cons c rest ih =>
    have hc : c ≠ '\r' := hp c (List.mem_cons_self _ _)
    have hrest : ∀ x ∈ rest, x ≠ '\r' := fun x hx => hp x (List.mem_cons_of_mem _ hx)
    have hne : ¬ (c :: (rest ++ q)).take 4 = ['\r', '\n', '\r', '\n'] := by
      intro h
      simp only [List.take_succ_cons, List.cons.injEq] at h
      exact hc h.1
    rw [List.cons_append, splitAtBlankLine, if_neg hne, ih hrest]
    cases splitAtBlankLine q <;> simp

/-- A line end followed by a further header line passes into the header part. -/
theorem splitAtBlankLine_crlf (x : Char) (rest : List Char) (hx : x ≠ '\r') :
    splitAtBlankLine ('\r' :: '\n' :: x :: rest)
      = (splitAtBlankLine (x :: rest)).map (fun r => ('\r' :: '\n' :: r.1, r.2)) := by
  have h1 : ¬ ('\r' :: '\n' :: x :: rest).take 4 = ['\r', '\n', '\r', '\n'] := by
    intro h
    simp only [List.take_succ_cons, List.cons.injEq] at h
    exact hx h.2.2.1
  have h2 : ¬ ('\n' :: x :: rest).take 4 = ['\r', '\n', '\r', '\n'] := by
    intro h
    simp only [List.take_succ_cons, List.cons.injEq] at h
    exact absurd h.1 (by decide)
  rw [splitAtBlankLine, if_neg h1, splitAtBlankLine, if_neg h2]
  cases splitAtBlankLine (x :: rest) <;> simp

/-- A header line followed by a further header line. -/
theorem splitAtBlankLine_line (l : List Char) (x : Char) (rest : List Char)
    (hl : ∀ c ∈ l, c ≠ '\r') (hx : x ≠ '\r') :
    splitAtBlankLine (l ++ '\r' :: '\n' :: x :: rest)
      = (splitAtBlankLine (x :: rest)).map (fun r => (l ++ '\r' :: '\n' :: r.1, r.2)) := by
  rw [splitAtBlankLine_noCR _ _ hl, splitAtBlankLine_crlf x rest hx]
  cases splitAtBlankLine (x :: rest) <;> simp

/-- The last header line, followed by the blank line and the body. -/
theorem splitAtBlankLine_last (l body : List Char) (hl : ∀ c ∈ l, c ≠ '\r') :
    splitAtBlankLine (l ++ '\r' :: '\n' :: '\r' :: '\n' :: body) = some (l, body) := by
  rw [splitAtBlankLine_noCR _ _ hl]
  simp [splitAtBlankLine]

/-- A status line and three header lines that start with `C`, then the blank line and the
body. -/
theorem splitAtBlankLine_four (l1 l2 l3 l4 body : List Char)
    (h1 : ∀ c ∈ l1, c ≠ '\r') (h2 : ∀ c ∈ l2, c ≠ '\r') (h3 : ∀ c ∈ l3, c ≠ '\r')
    (h4 : ∀ c ∈ l4, c ≠ '\r') :
    splitAtBlankLine (l1 ++ '\r' :: '\n' :: 'C' :: (l2 ++ '\r' :: '\n' :: 'C' ::
        (l3 ++ '\r' :: '\n' :: 'C' :: (l4 ++ '\r' :: '\n' :: '\r' :: '\n' :: body))))
      = some (l1 ++ '\r' :: '\n' :: 'C' :: (l2 ++ '\r' :: '\n' :: 'C' ::
        (l3 ++ '\r' :: '\n' :: 'C' :: l4)), body) := by
  have hC : 'C' ≠ '\r' := by decide
  have hcons : ∀ l : List Char, (∀ c ∈ l, c ≠ '\r') → ∀ c ∈ 'C' :: l, c ≠ '\r' := by
    intro l hl c hc
    rcases List.mem_cons.mp hc with e | e
    · rw [e]; exact hC
    · exact hl c e
  rw [splitAtBlankLine_line _ 'C' _ h1 hC, ← List.cons_append,
    splitAtBlankLine_line _ 'C' _ (hcons _ h2) hC,
    ← List.cons_append, splitAtBlankLine_line _ 'C' _ (hcons _ h3) hC,
    ← List.cons_append, splitAtBlankLine_last _ _ (hcons _ h4)]
  simp

/-- The header built by `getHttpResponseHeader` ends at the first blank line of a message
that starts with it, whatever follows, when the content type holds no carriage return. -/
theorem getHttpResponseHeader_split (ct : String) (n : Nat) (cc : Bool) (body : String)
    (hct : ∀ c ∈ ct.data, c ≠ '\r') :
    splitAtBlankLine (getHttpResponseHeader ct n cc ++ body).data
      = some (("HTTP/1.1 200 OK\r\n" ++ "Connection: "
          ++ (if cc then "close\r\n" else "Keep-Alive\r\n")
          ++ ("Content-Type: " ++ ct ++ "\r\n")
          ++ ("Content-Length: " ++ toStdString (n % 2 ^ 32))).data, body.data) := by
  have hdata : (getHttpResponseHeader ct n cc ++ body).data
      = "HTTP/1.1 200 OK".data ++ '\r' :: '\n' :: 'C' ::
          (("onnection: ".data ++ (if cc then "close" else "Keep-Alive" : String).data)
            ++ '\r' :: '\n' :: 'C' ::
          (("ontent-Type: ".data ++ ct.data) ++ '\r' :: '\n' :: 'C' ::
          (("ontent-Length: ".data ++ (toStdString (n % 2 ^ 32)).data)
            ++ '\r' :: '\n' :: '\r' :: '\n' :: body.data))) := by
    cases cc <;> simp [getHttpResponseHeader, String.data_append]
  have n1 : ∀ c ∈ ("HTTP/1.1 200 OK" : String).data, c ≠ '\r' := by decide
  have n2 : ∀ c ∈ ("onnection: " : String).data
      ++ (if cc then "close" else "Keep-Alive" : String).data, c ≠ '\r' := by
    cases cc <;> decide
  have n3 : ∀ c ∈ ("ontent-Type: " : String).data ++ ct.data, c ≠ '\r' := by
    intro c hc
    rcases List.mem_append.mp hc with e | e
    · exact (by decide : ∀ c ∈ ("ontent-Type: " : String).data, c ≠ '\r') c e
    · exact hct c e
  have n4 : ∀ c ∈ ("ontent-Length: " : String).data ++ (toStdString (n % 2 ^ 32)).data,
      c ≠ '\r' := by
    intro c hc
    rcases List.mem_append.mp hc with e | e
    · exact (by decide : ∀ c ∈ ("ontent-Length: " : String).data, c ≠ '\r') c e
    · exact toStdString_noCR _ c e
  rw [hdata, splitAtBlankLine_four _ _ _ _ _ n1 n2 n3 n4]
  cases cc <;> simp [String.data_append]

/-- C11: for every value and keep-alive flag, the data that
`sendRPCResponseToClient(client, variable, messageId, xmlResponse, keepAlive)` hands to
the writing overload (unless the server is stopped) begin with the status line
`HTTP/1.1 200 OK\r\n`; the part before the first blank line contains the header line
`Content-Type: text/xml\r\n`; and the body after that blank line is
`<?xml version="1.0"?>`, then the output of the XML encoder, then a line end. -/
theorem xml_response_shape (codecs : Codecs) (value : Variable) (messageId : Int)
    (keepAlive : Bool) :
    (∀ (s : HttpServer) (client : Client) (w : WriteOutcome),
      sendRPCResponseToClientVariable codecs s client value messageId
          PacketType.xmlResponse keepAlive w
        = if s._stopped then (s, client)
          else sendRPCResponseToClient s client
            (encodeResponse codecs value messageId PacketType.xmlResponse keepAlive)
            keepAlive w)
    ∧ "HTTP/1.1 200 OK\r\n".data
        <+: (encodeResponse codecs value messageId PacketType.xmlResponse keepAlive).data
    ∧ ∃ headerLines : List Char,
        splitAtBlankLine
            (encodeResponse codecs value messageId PacketType.xmlResponse keepAlive).data
          = some (headerLines,
              ("<?xml version=\"1.0\"?>" ++ codecs.xmlRpcEncodeResponse value ++ "\r\n").data)
        ∧ "Content-Type: text/xml\r\n".data <:+: headerLines := by
  refine ⟨fun s client w => rfl, ?_, ?_⟩
  · refine ⟨("Connection: " ++ (if (!keepAlive) then "close\r\n" else "Keep-Alive\r\n")
        ++ ("Content-Type: " ++ "text/xml" ++ "\r\n")
        ++ ("Content-Length: " ++ toStdString
            (((codecs.xmlRpcEncodeResponse value ++ "\r\n").length + 21) % 2 ^ 32)
          ++ "\r\n\r\n")
        ++ "<?xml version=\"1.0\"?>"
        ++ (codecs.xmlRpcEncodeResponse value ++ "\r\n")).data, ?_⟩
    simp [encodeResponse, getHttpResponseHeader, String.data_append]
  · refine ⟨("HTTP/1.1 200 OK\r\n" ++ "Connection: "
        ++ (if (!keepAlive) then "close\r\n" else "Keep-Alive\r\n")
        ++ ("Content-Type: " ++ "text/xml" ++ "\r\n")
        ++ ("Content-Length: " ++ toStdString
            (((codecs.xmlRpcEncodeResponse value ++ "\r\n").length + 21) % 2 ^ 32))).data,
      ?_, ?_⟩
    · have e : encodeResponse codecs value messageId PacketType.xmlResponse keepAlive
          = getHttpResponseHeader "text/xml"
              ((codecs.xmlRpcEncodeResponse value ++ "\r\n").length + 21) (!keepAlive)
            ++ ("<?xml version=\"1.0\"?>" ++ codecs.xmlRpcEncodeResponse value ++ "\r\n") := by
        simp [encodeResponse, String.append_assoc]
      rw [e]
      exact getHttpResponseHeader_split "text/xml" _ _ _ (by decide)
    · refine ⟨("HTTP/1.1 200 OK\r\n" ++ "Connection: "
          ++ (if (!keepAlive) then "close\r\n" else "Keep-Alive\r\n")).data,
        ("Content-Length: " ++ toStdString
            (((codecs.xmlRpcEncodeResponse value ++ "\r\n").length + 21) % 2 ^ 32)).data, ?_⟩
      simp [String.data_append]

/-- The position that `indexOf?` returns holds the character looked for. -/
theorem indexOf_getElem (t : List Char) (n : Nat) (h : t.indexOf? '/' = some n) :
    t[n]? = some '/' := by
  unfold List.indexOf? at h
  rw [List.findIdx?_eq_some_iff_getElem] at h
  obtain ⟨hlt, hp, _⟩ := h
  rw [List.getElem?_eq_getElem hlt]
  simpa using hp

/-- A list whose first characters are `L` and that ends there or has its first slash right
after them is `L` or `L`, a slash and a rest. -/
theorem list_of_take_and_slash (t L : List Char) (htake : t.take L.length = L)
    (hc : t.length = L.length ∨ t.indexOf? '/' = some L.length) :
    t = L ∨ ∃ id, t = L ++ '/' :: id := by
  have ht : L ++ t.drop L.length = t := by
    conv_rhs => rw [← List.take_append_drop L.length t, htake]
  rcases hc with hc | hc
  · left
    rw [List.drop_of_length_le (by omega)] at ht
    simpa using ht.symm
  · right
    have h1 := indexOf_getElem t _ hc
    refine ⟨t.drop (L.length + 1), ?_⟩
    obtain ⟨hlt, hget⟩ := List.getElem?_eq_some_iff.mp h1
    rw [← hget, ← List.drop_eq_getElem_cons hlt]
    exact ht.symm

/-- The call `path.find('/', 1)` on a path with a leading character, in terms of the rest. -/
theorem findCharFrom_slash (path : String) (t : List Char) (hd : path.data = '/' :: t)
    (n : Nat) : findCharFrom '/' 1 path = some (n + 1) ↔ t.indexOf? '/' = some n := by
  unfold findCharFrom
  rw [hd, List.drop_succ_cons, List.drop_zero]
  cases t.indexOf? '/' with
  | none => simp
  | some i => simp; omega

/-- The role prefix of a path that is none of the four role paths, with or without an id,
is none of the four roles. -/
theorem pathProtocolPrefix_other (path : String) (t : List Char) (hd : path.data = '/' :: t)
    (hother : ∀ role ∈ upgradeRoles,
      path ≠ "/" ++ role ∧ ∀ id : String, path ≠ "/" ++ role ++ "/" ++ id) :
    ∀ role ∈ upgradeRoles, pathProtocolPrefix path ≠ role := by
  have hlen : path.length = t.length + 1 := by
    show path.data.length = _
    rw [hd]; rfl
  have key : ∀ role ∈ upgradeRoles, t.take role.length = role.data →
      (t.length = role.length ∨ t.indexOf? '/' = some role.length) → False := by
    intro role hr htake hc
    rcases list_of_take_and_slash t role.data htake hc with h | ⟨id, h⟩
    · exact (hother role hr).1 (String.ext (by rw [hd, h]; simp [String.data_append]))
    · exact (hother role hr).2 (String.mk id)
        (String.ext (by rw [hd, h]; simp [String.data_append]))
  intro role hr heq
  unfold pathProtocolPrefix at heq
  have f7 := findCharFrom_slash path t hd 6
  have f11 := findCharFrom_slash path t hd 10
  simp only [Nat.reduceAdd] at f7 f11
  simp only [hlen, f7, f11] at heq
  simp only [substr, hd, List.drop_succ_cons, List.drop_zero] at heq
  split_ifs at heq with c1 c2
  · have hdata : t.take 6 = role.data := congrArg String.data heq
    have hl : (t.take 6).length ≤ 6 := List.length_take_le _ _
    simp [upgradeRoles] at hr
    rcases hr with rfl | rfl | rfl | rfl
    · exact key "client" (by simp [upgradeRoles]) hdata (by simpa using c1)
    · exact key "server" (by simp [upgradeRoles]) hdata (by simpa using c1)
    · rw [hdata] at hl; simp at hl
    · rw [hdata] at hl; simp at hl
  · have hdata : t.take 10 = role.data := congrArg String.data heq
    have hl : (t.take 10).length = min 10 t.length := List.length_take _ _
    simp [upgradeRoles] at hr
    rcases hr with rfl | rfl | rfl | rfl
    · rw [hdata] at hl
      have : t.length = 6 := by simp at hl; omega
      exact c1 (Or.inl (by omega))
    · rw [hdata] at hl
      have : t.length = 6 := by simp at hl; omega
      exact c1 (Or.inl (by omega))
    · exact key "nodeclient" (by simp [upgradeRoles]) hdata (by simpa using c2)
    · exact key "nodeserver" (by simp [upgradeRoles]) hdata (by simpa using c2)
  · simp [upgradeRoles] at hr
    rcases hr with rfl | rfl | rfl | rfl <;> exact absurd heq (by decide)

/-- A path longer than one character that is none of the four role paths is taken as the
client id, without its first character, and has no role. -/
theorem resolvePath_other (path current : String) (t : List Char)
    (hd : path.data = '/' :: t) (hlen : 1 < path.length)
    (hother : ∀ role ∈ upgradeRoles,
      path ≠ "/" ++ role ∧ ∀ id : String, path ≠ "/" ++ role ++ "/" ++ id) :
    resolvePath path current = ("", substrFrom path 1) := by
  have h := pathProtocolPrefix_other path t hd hother
  unfold resolvePath
  rw [if_neg, if_neg, if_pos hlen]
  · rintro (e | e)
    · exact h _ (by simp [upgradeRoles]) e
    · exact h _ (by simp [upgradeRoles]) e
  · rintro (e | e)
    · exact h _ (by simp [upgradeRoles]) e
    · exact h _ (by simp [upgradeRoles]) e

/-- The first slash after the leading one, in a path made of a slash-free segment, a slash
and a rest. -/
theorem findCharFrom_prefixed (p : String) (r id : List Char)
    (hd : p.data = '/' :: (r ++ '/' :: id)) (hr : '/' ∉ r) :
    findCharFrom '/' 1 p = some (r.length + 1) := by
  rw [findCharFrom_slash p _ hd]
  unfold List.indexOf?
  rw [List.findIdx?_eq_some_iff_getElem]
  refine ⟨by simp, by simp [List.getElem_append_right], ?_⟩
  intro j hj
  rw [List.getElem_append_left hj]
  intro h
  have : r[j] = '/' := by simpa using h
  exact hr (this ▸ List.getElem_mem _)

/-- The role prefix of a role path with an id part. -/
theorem pathProtocolPrefix_prefixed (role id : String)
    (hlen : role.data.length = 6 ∨ role.data.length = 10) (hno : '/' ∉ role.data) :
    pathProtocolPrefix ("/" ++ role ++ "/" ++ id) = role := by
  have hd : ("/" ++ role ++ "/" ++ id).data = '/' :: (role.data ++ '/' :: id.data) := by
    simp [String.data_append]
  have hf := findCharFrom_prefixed _ _ _ hd hno
  have hl : ("/" ++ role ++ "/" ++ id).length = role.data.length + id.data.length + 2 := by
    show (("/" ++ role ++ "/" ++ id).data).length = _
    rw [hd]; simp; omega
  unfold pathProtocolPrefix
  rw [hf, hl]
  unfold substr
  rw [hd, List.drop_succ_cons, List.drop_zero]
  rcases hlen with h | h
  · rw [if_pos (Or.inr (by rw [h]))]
    rw [List.take_left' h]
  · rw [if_neg (by rw [h]; simp; omega), if_pos (Or.inr (by rw [h]))]
    rw [List.take_left' h]

/-- A role path with an id part resolves to the role and the id; an empty id part keeps the
previous id. -/
theorem resolvePath_prefixed (role : String) (hr : role ∈ upgradeRoles) (id current : String) :
    resolvePath ("/" ++ role ++ "/" ++ id) current
      = (role, if id = "" then current else id) := by
  have hid : id = "" ↔ id.data = [] := by
    constructor
    · intro h; rw [h]
    · intro h; exact String.ext h
  have hd : ("/" ++ role ++ "/" ++ id).data = '/' :: (role.data ++ '/' :: id.data) := by
    simp [String.data_append]
  have hl : ("/" ++ role ++ "/" ++ id).length = role.data.length + id.data.length + 2 := by
    show (("/" ++ role ++ "/" ++ id).data).length = _
    rw [hd]; simp; omega
  have hlen : role.data.length = 6 ∨ role.data.length = 10 := by
    simp [upgradeRoles] at hr
    rcases hr with rfl | rfl | rfl | rfl <;> decide
  have hno : '/' ∉ role.data := by
    simp [upgradeRoles] at hr
    rcases hr with rfl | rfl | rfl | rfl <;> decide
  have hpp := pathProtocolPrefix_prefixed role id hlen hno
  have hdrop : ∀ n, role.data.length = n →
      substrFrom ("/" ++ role ++ "/" ++ id) (n + 2) = id := by
    intro n hn
    unfold substrFrom
    rw [hd, List.drop_succ_cons, ← hn, List.drop_append, List.drop_succ_cons, List.drop_zero]
  unfold resolvePath
  rw [hpp]
  simp [upgradeRoles] at hr
  by_cases he : id = ""
  · have he2 : id.data.length = 0 := by rw [he]; rfl
    rw [if_pos he]
    rcases hr with rfl | rfl | rfl | rfl
    · rw [if_pos (Or.inl rfl), if_neg (by rw [hl, he2]; decide)]
    · rw [if_pos (Or.inr rfl), if_neg (by rw [hl, he2]; decide)]
    · rw [if_neg (by decide), if_pos (Or.inl rfl), if_neg (by rw [hl, he2]; decide)]
    · rw [if_neg (by decide), if_pos (Or.inr rfl), if_neg (by rw [hl, he2]; decide)]
  · have he2 : 0 < id.data.length := by
      rcases Nat.eq_zero_or_pos id.data.length with h | h
      · exact absurd (hid.mpr (List.length_eq_zero.mp h)) he
      · exact h
    rw [if_neg he]
    rcases hr with rfl | rfl | rfl | rfl
    · rw [if_pos (Or.inl rfl),
        if_pos (by rw [hl]; show 8 < 6 + id.data.length + 2; omega), hdrop 6 rfl]
    · rw [if_pos (Or.inr rfl),
        if_pos (by rw [hl]; show 8 < 6 + id.data.length + 2; omega), hdrop 6 rfl]
    · rw [if_neg (by decide), if_pos (Or.inl rfl),
        if_pos (by rw [hl]; show 12 < 10 + id.data.length + 2; omega), hdrop 10 rfl]
    · rw [if_neg (by decide), if_pos (Or.inr rfl),
        if_pos (by rw [hl]; show 12 < 10 + id.data.length + 2; omega), hdrop 10 rfl]

/-- A role path without a trailing slash resolves to the role and keeps the previous id. -/
theorem resolvePath_bare (role : String) (hr : role ∈ upgradeRoles) (current : String) :
    resolvePath ("/" ++ role) current = (role, current) := by
  have hpp : pathProtocolPrefix ("/" ++ role) = role := by
    simp [upgradeRoles] at hr
    rcases hr with rfl | rfl | rfl | rfl <;> decide
  have hl : ("/" ++ role).length = 7 ∨ ("/" ++ role).length = 11 := by
    simp [upgradeRoles] at hr
    rcases hr with rfl | rfl | rfl | rfl <;> decide
  unfold resolvePath
  rw [hpp]
  simp [upgradeRoles] at hr
  rcases hr with rfl | rfl | rfl | rfl
  · rw [if_pos (Or.inl rfl), if_neg (by decide)]
  · rw [if_pos (Or.inr rfl), if_neg (by decide)]
  · rw [if_neg (by decide), if_pos (Or.inl rfl), if_neg (by decide)]
  · rw [if_neg (by decide), if_pos (Or.inr rfl), if_neg (by decide)]
/-- The writing overload leaves the record's `webSocketClientId` as it is. -/
theorem sendRPCResponseToClient_clientId (s : HttpServer) (client : Client) (data : String)
    (keepAlive : Bool) (w : WriteOutcome) :
    (sendRPCResponseToClient s client data keepAlive w).2.webSocketClientId
      = client.webSocketClientId := by
  unfold sendRPCResponseToClient
  split_ifs <;> first | rfl | (cases w <;> rfl)

/-- An upgrade request that carries the key and a sub-protocol indicator leaves in the
record the lower-cased id that the path resolution yields. -/
theorem handleConnectionUpgrade_clientId (s : HttpServer) (client : Client)
    (http : HttpHeader) (w : WriteOutcome) (key : String)
    (hup : (StdMap.find "upgrade" http.fields).map HelperFunctions.toLower
      = some "websocket")
    (hkey : StdMap.find "sec-websocket-key" http.fields = some key)
    (hind : ¬ (StdMap.find "sec-websocket-protocol" http.fields = none
      ∧ (http.path = "" ∨ http.path = "/"))) :
    (handleConnectionUpgrade s client http w).2.webSocketClientId
      = HelperFunctions.toLower (resolvePath http.path client.webSocketClientId).2 := by
  unfold handleConnectionUpgrade
  rw [if_pos hup, if_neg hind, hkey]
  simp only []
  split_ifs <;> simp [sendRPCResponseToClient_clientId, closeClientConnection]

/-- C13 (amended): in an upgrade request that carries the key and a sub-protocol
indicator, the path resolves as follows. A path `/client/`+id, `/server/`+id,
`/nodeclient/`+id or `/nodeserver/`+id resolves to the named role and leaves in the record
the lower-cased id, or the lower-cased previous `webSocketClientId` when id is empty. The
paths `/client`, `/server`, `/nodeclient` and `/nodeserver` without a trailing slash
resolve to the named role as well and leave the lower-cased previous id. Every other path
that starts with a slash and is longer than one character has no role, and the record gets
the whole path after the leading slash, lower-cased. -/
theorem upgrade_path_resolution (s : HttpServer) (client : Client) (http : HttpHeader)
    (w : WriteOutcome) (key : String)
    (hup : (StdMap.find "upgrade" http.fields).map HelperFunctions.toLower
      = some "websocket")
    (hkey : StdMap.find "sec-websocket-key" http.fields = some key)
    (hind : ¬ (StdMap.find "sec-websocket-protocol" http.fields = none
      ∧ (http.path = "" ∨ http.path = "/"))) :
    (∀ role ∈ upgradeRoles, ∀ id : String, http.path = "/" ++ role ++ "/" ++ id →
      (resolvePath http.path client.webSocketClientId).1 = role ∧
      (handleConnectionUpgrade s client http w).2.webSocketClientId
        = HelperFunctions.toLower (if id = "" then client.webSocketClientId else id)) ∧
    (∀ role ∈ upgradeRoles, http.path = "/" ++ role →
      (resolvePath http.path client.webSocketClientId).1 = role ∧
      (handleConnectionUpgrade s client http w).2.webSocketClientId
        = HelperFunctions.toLower client.webSocketClientId) ∧
    (∀ rest : List Char, http.path.data = '/' :: rest → 1 < http.path.length →
      (∀ role ∈ upgradeRoles,
        http.path ≠ "/" ++ role ∧ ∀ id : String, http.path ≠ "/" ++ role ++ "/" ++ id) →
      (resolvePath http.path client.webSocketClientId).1 = "" ∧
      (handleConnectionUpgrade s client http w).2.webSocketClientId
        = HelperFunctions.toLower (substrFrom http.path 1)) := by
  have hid := handleConnectionUpgrade_clientId s client http w key hup hkey hind
  refine ⟨?_, ?_, ?_⟩
  · intro role hr id hp
    rw [hid, hp, resolvePath_prefixed role hr id]
    exact ⟨rfl, rfl⟩
  · intro role hr hp
    rw [hid, hp, resolvePath_bare role hr]
    exact ⟨rfl, rfl⟩
  · intro rest hd hlen hother
    rw [hid, resolvePath_other http.path _ rest hd hlen hother]
    exact ⟨rfl, rfl⟩

/-- C13 (amended), at a concrete request: the path `/client/AbC` leaves the id `abc`. -/
theorem upgrade_path_resolution_witness :
    (StdMap.find "upgrade"
        [("sec-websocket-key", "dGhlIHNhbXBsZSBub25jZQ=="), ("upgrade", "WebSocket")]).map
        HelperFunctions.toLower = some "websocket" ∧
      StdMap.find "sec-websocket-key"
        [("sec-websocket-key", "dGhlIHNhbXBsZSBub25jZQ=="), ("upgrade", "WebSocket")]
        = some "dGhlIHNhbXBsZSBub25jZQ==" ∧
      ¬ (StdMap.find "sec-websocket-protocol"
          [("sec-websocket-key", "dGhlIHNhbXBsZSBub25jZQ=="), ("upgrade", "WebSocket")] = none
        ∧ ("/client/AbC" = "" ∨ "/client/AbC" = "/")) ∧
      (handleConnectionUpgrade
        { fdm := (FileDescriptorManager.add FileDescriptorManager.init 10).1
          _stopped := false
          _stopServer := false }
        { id := 0, socketDescriptor := 0, socket := some 0 }
        { path := "/client/AbC"
          fields :=
            [("sec-websocket-key", "dGhlIHNhbXBsZSBub25jZQ=="), ("upgrade", "WebSocket")] }
        WriteOutcome.ok).2.webSocketClientId = "abc" :=
  ⟨by decide, by decide, by decide,
    ((upgrade_path_resolution
        { fdm := (FileDescriptorManager.add FileDescriptorManager.init 10).1
          _stopped := false
          _stopServer := false }
        { id := 0, socketDescriptor := 0, socket := some 0 }
        { path := "/client/AbC"
          fields :=
            [("sec-websocket-key", "dGhlIHNhbXBsZSBub25jZQ=="), ("upgrade", "WebSocket")] }
        WriteOutcome.ok "dGhlIHNhbXBsZSBub25jZQ==" (by decide) (by decide) (by decide)).1
      "client" (by decide) "AbC" (by decide)).2.trans (by decide)⟩

/-- C13, counterexample to the sentence on every other path: the path `/client` is longer
than `/` and is none of the four paths with an id part, yet it resolves to the role
`client` and not to the id `client`; the upgrade marks the record as a WebSocket client and
leaves its id empty. -/
theorem upgrade_path_bare_role_counterexample :
    1 < "/client".length ∧
      (∀ role ∈ upgradeRoles, ∀ id : String, "/client" ≠ "/" ++ role ++ "/" ++ id) ∧
      resolvePath "/client" "" = ("client", "") ∧
      (handleConnectionUpgrade
        { fdm := (FileDescriptorManager.add FileDescriptorManager.init 10).1
          _stopped := false
          _stopServer := false }
        { id := 0, socketDescriptor := 0, socket := some 0 }
        { path := "/client"
          fields :=
            [("sec-websocket-key", "dGhlIHNhbXBsZSBub25jZQ=="), ("upgrade", "WebSocket")] }
        WriteOutcome.ok).2.webSocketClientId = "" ∧
      (handleConnectionUpgrade
        { fdm := (FileDescriptorManager.add FileDescriptorManager.init 10).1
          _stopped := false
          _stopServer := false }
        { id := 0, socketDescriptor := 0, socket := some 0 }
        { path := "/client"
          fields :=
            [("sec-websocket-key", "dGhlIHNhbXBsZSBub25jZQ=="), ("upgrade", "WebSocket")] }
        WriteOutcome.ok).2.webSocketClient = true := by
  refine ⟨by decide, ?_, by decide, by decide, by decide⟩
  intro role hr id h
  have hl := congrArg String.length h
  simp only [String.length_append] at hl
  simp [upgradeRoles] at hr
  rcases hr with rfl | rfl | rfl | rfl
  all_goals
    have h7 : "/client".length = 7 := by decide
    have h1 : "/".length = 1 := by decide
    rw [h7, h1] at hl
  · have : "client".length = 6 := by decide
    omega
  · have : "server".length = 6 := by decide
    omega
  · have : "nodeclient".length = 10 := by decide
    omega
  · have : "nodeserver".length = 10 := by decide
    omega

/-- The removal `m.erase(k)` keeps the bindings of the other keys, in order. -/
theorem erase_eq_filter {V : Type} (k : Int) (m : List (Int × V)) :
    StdMap.erase k m = m.filter (fun e => decide (e.1 ≠ k)) := by
  induction m with
  | nil => rfl
  | cons e rest ih =>
    obtain ⟨a, v⟩ := e
    unfold StdMap.erase
    by_cases h : a = k
    · rw [if_pos h, ih]
      simp [h]
    · rw [if_neg h, ih]
      simp [h]

/-- The map after the second loop of `collectGarbage` over the records `cs`. -/
theorem foldl_removeClient_clients (cs : List Client) (s : HttpServer) :
    (cs.foldl removeClient s)._clients
      = s._clients.filter (fun e => cs.all (fun c => decide (e.1 ≠ c.id))) := by
  induction cs generalizing s with
  | nil => simp
  | cons c rest ih =>
    rw [List.foldl_cons, ih (removeClient s c)]
    have e1 : (removeClient s c)._clients = StdMap.erase c.id s._clients := rfl
    rw [e1, erase_eq_filter, List.filter_filter]
    apply List.filter_congr
    intro e _
    simp only [List.all_cons]
    exact Bool.and_comm _ _

/-- The first loop of `collectGarbage` collects the records flagged closed, in map order. -/
theorem clientsToRemove_eq (m : List (Int × Client)) :
    clientsToRemove m = (m.filter (fun e => e.2.closed)).map Prod.snd := by
  induction m with
  | nil => rfl
  | cons e rest ih =>
    obtain ⟨k, c⟩ := e
    unfold clientsToRemove
    cases hc : c.closed with
    | true => simp [hc, ih]
    | false => simp [hc, ih]

/-- In a well-formed map two bindings with the same key are the same binding. -/
theorem wf_key_unique {V : Type} (m : List (Int × V)) (h : StdMap.WF m) (e e' : Int × V)
    (he : e ∈ m) (he' : e' ∈ m) (hk : e.1 = e'.1) : e = e' := by
  unfold StdMap.WF at h
  induction m with
  | nil => cases he
  | cons x rest ih =>
    obtain ⟨h1, h2⟩ := List.pairwise_cons.mp h
    rcases List.mem_cons.mp he with a | a
    · rcases List.mem_cons.mp he' with b | b
      · rw [a, b]
      · have := h1 e' b
        rw [← a, hk] at this
        exact absurd this (lt_irrefl _)
    · rcases List.mem_cons.mp he' with b | b
      · have := h1 e a
        rw [← b, hk] at this
        exact absurd this (lt_irrefl _)
      · exact ih h2 a b

/-- C23: a pass of `collectGarbage` over a well-formed connection map (keys ascending,
every record stored under its id), run sequentially. The map afterwards holds exactly the
records that were not flagged closed when the pass began, unchanged and in order; for each
record that was flagged closed the reader thread is joined and then the record is erased,
in map order; apart from the time of the pass nothing else in the server changes. -/
theorem collectGarbage_removes_closed (s : HttpServer) (now : Int)
    (h : ClientsWF s._clients) :
    collectGarbage s now =
      { s with
        _lastGargabeCollection := now
        _clients := s._clients.filter (fun e => !e.2.closed)
        actions := s.actions ++ (s._clients.filter (fun e => e.2.closed)).flatMap
          (fun e => [ServerAction.joinReadThread e.2.id, ServerAction.eraseClient e.2.id]) } ∧
    (∀ e, e ∈ (collectGarbage s now)._clients ↔ e ∈ s._clients ∧ e.2.closed = false) ∧
    (∀ e ∈ s._clients, e.2.closed = true →
      ∃ before after, (collectGarbage s now).actions
        = before ++ ServerAction.joinReadThread e.2.id :: ServerAction.eraseClient e.2.id
            :: after) := by
  have hclients : (collectGarbage s now)._clients
      = s._clients.filter (fun e => !e.2.closed) := by
    unfold collectGarbage
    rw [foldl_removeClient_clients]
    apply List.filter_congr
    intro e he
    cases hc : e.2.closed with
    | true =>
      have hmem : e.2 ∈ clientsToRemove s._clients := by
        rw [clientsToRemove_eq]
        exact List.mem_map.mpr ⟨e, List.mem_filter.mpr ⟨he, hc⟩, rfl⟩
      simp only [Bool.not_true, List.all_eq_false]
      exact ⟨e.2, hmem, by simp [h.2 e he]⟩
    | false =>
      simp only [Bool.not_false, List.all_eq_true, decide_eq_true_eq]
      intro c hcm hk
      rw [clientsToRemove_eq] at hcm
      obtain ⟨e', he', rfl⟩ := List.mem_map.mp hcm
      obtain ⟨hm', hc'⟩ := List.mem_filter.mp he'
      have hkk : e.1 = e'.1 := by rw [hk, h.2 e' hm']
      have := wf_key_unique _ h.1 e e' he hm' hkk
      rw [this] at hc
      rw [hc] at hc'
      exact absurd hc' (by decide)
  have hactions : (collectGarbage s now).actions
      = s.actions ++ (s._clients.filter (fun e => e.2.closed)).flatMap
          (fun e => [ServerAction.joinReadThread e.2.id, ServerAction.eraseClient e.2.id]) := by
    unfold collectGarbage
    rw [(foldl_removeClient _ _).2.1, clientsToRemove_eq, List.flatMap_map]
  refine ⟨?_, ?_, ?_⟩
  · have h3 := (foldl_removeClient (clientsToRemove s._clients)
      { s with _lastGargabeCollection := now }).2.2
    have e : collectGarbage s now
        = (clientsToRemove s._clients).foldl removeClient
            { s with _lastGargabeCollection := now } := rfl
    rw [← e] at h3
    rw [h3, hclients, hactions]
  · intro e
    rw [hclients, List.mem_filter]
    simp
  · intro e he hc
    rw [hactions]
    have hmem : e ∈ s._clients.filter (fun e => e.2.closed) :=
      List.mem_filter.mpr ⟨he, hc⟩
    obtain ⟨l1, l2, hl⟩ := List.append_of_mem hmem
    rw [hl]
    refine ⟨s.actions ++ l1.flatMap
        (fun e => [ServerAction.joinReadThread e.2.id, ServerAction.eraseClient e.2.id]),
      l2.flatMap
        (fun e => [ServerAction.joinReadThread e.2.id, ServerAction.eraseClient e.2.id]), ?_⟩
    simp [List.flatMap_append]

/-- C23, at a concrete map with records `1`, `2` (closed) and `5`: the pass at time `7`
leaves the records `1` and `5` and records the join and the erase of record `2`. -/
theorem collectGarbage_removes_closed_witness :
    ClientsWF [(1, { id := 1 }), (2, { id := 2, closed := true }), (5, { id := 5 })] ∧
      collectGarbage
        { _clients := [(1, { id := 1 }), (2, { id := 2, closed := true }), (5, { id := 5 })] }
        7
      = { _clients := [(1, { id := 1 }), (5, { id := 5 })]
          _lastGargabeCollection := 7
          actions := [ServerAction.joinReadThread 2, ServerAction.eraseClient 2] } :=
  ⟨⟨by unfold StdMap.WF; decide, by decide⟩,
    (collectGarbage_removes_closed
      { _clients := [(1, { id := 1 }), (2, { id := 2, closed := true }), (5, { id := 5 })] }
      7 ⟨by unfold StdMap.WF; decide, by decide⟩).1.trans (by decide)⟩

/-- An upgrade request with key and indicator whose sub-protocol and path role are both
none of the four roles ends in `closeClientConnection`, after the id has been taken from
the path. -/
theorem handleConnectionUpgrade_unknown (s : HttpServer) (client : Client)
    (http : HttpHeader) (w : WriteOutcome) (key : String)
    (hup : (StdMap.find "upgrade" http.fields).map HelperFunctions.toLower
      = some "websocket")
    (hkey : StdMap.find "sec-websocket-key" http.fields = some key)
    (hind : ¬ (StdMap.find "sec-websocket-protocol" http.fields = none
      ∧ (http.path = "" ∨ http.path = "/")))
    (hprot : HelperFunctions.toLower
      ((StdMap.find "sec-websocket-protocol" http.fields).getD "") ∉ upgradeRoles)
    (hrole : (resolvePath http.path client.webSocketClientId).1 ∉ upgradeRoles) :
    handleConnectionUpgrade s client http w
      = closeClientConnection s { client with
          webSocketClientId :=
            HelperFunctions.toLower (resolvePath http.path client.webSocketClientId).2 } := by
  have hp : ∀ r ∈ upgradeRoles, HelperFunctions.toLower
      ((StdMap.find "sec-websocket-protocol" http.fields).getD "") ≠ r :=
    fun r hr e => hprot (e ▸ hr)
  have hq : ∀ r ∈ upgradeRoles, (resolvePath http.path client.webSocketClientId).1 ≠ r :=
    fun r hr e => hrole (e ▸ hr)
  unfold handleConnectionUpgrade
  rw [if_pos hup, if_neg hind, hkey]
  simp only []
  rw [if_neg, if_neg]
  · rintro (e | e | e | e)
    · exact hp _ (by simp [upgradeRoles]) e
    · exact hq _ (by simp [upgradeRoles]) e
    · exact hp _ (by simp [upgradeRoles]) e
    · exact hq _ (by simp [upgradeRoles]) e
  · rintro (e | e | e | e)
    · exact hp _ (by simp [upgradeRoles]) e
    · exact hq _ (by simp [upgradeRoles]) e
    · exact hp _ (by simp [upgradeRoles]) e
    · exact hq _ (by simp [upgradeRoles]) e

/-- C25: in a WebSocket upgrade that carries the key and a sub-protocol indicator, when the
lower-cased `sec-websocket-protocol` value is none of `server`, `nodeserver`, `client`,
`nodeclient`: if the role resolved from the path is none of them either, the call ends in
`closeClientConnection`: the record is flagged closed, its handle is shut down, and no
response is written. In particular this holds for every path that starts with a slash,
is longer than one character and is none of the role paths, that is, for a bare client
id. -/
theorem unknown_protocol_closes (s : HttpServer) (client : Client) (http : HttpHeader)
    (w : WriteOutcome) (key : String)
    (hup : (StdMap.find "upgrade" http.fields).map HelperFunctions.toLower
      = some "websocket")
    (hkey : StdMap.find "sec-websocket-key" http.fields = some key)
    (hind : ¬ (StdMap.find "sec-websocket-protocol" http.fields = none
      ∧ (http.path = "" ∨ http.path = "/")))
    (hprot : HelperFunctions.toLower
      ((StdMap.find "sec-websocket-protocol" http.fields).getD "") ∉ upgradeRoles) :
    ((resolvePath http.path client.webSocketClientId).1 ∉ upgradeRoles →
      (handleConnectionUpgrade s client http w).2.closed = true ∧
      (handleConnectionUpgrade s client http w).1.actions = s.actions ∧
      (handleConnectionUpgrade s client http w).1.fdm
        = FileDescriptorManager.shutdown s.fdm client.socketDescriptor) ∧
    (∀ rest : List Char, http.path.data = '/' :: rest → 1 < http.path.length →
      (∀ role ∈ upgradeRoles,
        http.path ≠ "/" ++ role ∧ ∀ id : String, http.path ≠ "/" ++ role ++ "/" ++ id) →
      (handleConnectionUpgrade s client http w).2.closed = true ∧
      (handleConnectionUpgrade s client http w).1.actions = s.actions ∧
      (handleConnectionUpgrade s client http w).1.fdm
        = FileDescriptorManager.shutdown s.fdm client.socketDescriptor) := by
  have main : (resolvePath http.path client.webSocketClientId).1 ∉ upgradeRoles →
      (handleConnectionUpgrade s client http w).2.closed = true ∧
      (handleConnectionUpgrade s client http w).1.actions = s.actions ∧
      (handleConnectionUpgrade s client http w).1.fdm
        = FileDescriptorManager.shutdown s.fdm client.socketDescriptor := by
    intro hrole
    rw [handleConnectionUpgrade_unknown s client http w key hup hkey hind hprot hrole]
    exact ⟨rfl, rfl, rfl⟩
  refine ⟨main, ?_⟩
  intro rest hd hlen hother
  apply main
  rw [resolvePath_other http.path _ rest hd hlen hother]
  show "" ∉ upgradeRoles
  decide

/-- C25, at a concrete request: the path `/MyClient` with a key and no sub-protocol field;
the record is flagged closed and nothing is written. -/
theorem unknown_protocol_closes_witness :
    (StdMap.find "upgrade"
        [("sec-websocket-key", "dGhlIHNhbXBsZSBub25jZQ=="), ("upgrade", "websocket")]).map
        HelperFunctions.toLower = some "websocket" ∧
      (handleConnectionUpgrade sampleServer sampleClient
        { path := "/MyClient"
          fields :=
            [("sec-websocket-key", "dGhlIHNhbXBsZSBub25jZQ=="), ("upgrade", "websocket")] }
        WriteOutcome.ok).2.closed = true ∧
      (handleConnectionUpgrade sampleServer sampleClient
        { path := "/MyClient"
          fields :=
            [("sec-websocket-key", "dGhlIHNhbXBsZSBub25jZQ=="), ("upgrade", "websocket")] }
        WriteOutcome.ok).1.actions = [] :=
  ⟨by decide,
    ((unknown_protocol_closes sampleServer sampleClient
      { path := "/MyClient"
        fields :=
          [("sec-websocket-key", "dGhlIHNhbXBsZSBub25jZQ=="), ("upgrade", "websocket")] }
      WriteOutcome.ok "dGhlIHNhbXBsZSBub25jZQ==" (by decide) (by decide) (by decide)
      (by decide)).1 (by decide)).1,
    ((unknown_protocol_closes sampleServer sampleClient
      { path := "/MyClient"
        fields :=
          [("sec-websocket-key", "dGhlIHNhbXBsZSBub25jZQ=="), ("upgrade", "websocket")] }
      WriteOutcome.ok "dGhlIHNhbXBsZSBub25jZQ==" (by decide) (by decide) (by decide)
      (by decide)).1 (by decide)).2.1⟩

/-- The lifetick pairs after a call of `callMethod` on a running server. For a registered
method the pair of the overload holds the time of the call and whether the handler
returned; for a method that is not registered (and is not `setClientType`) the call is
delegated and the pairs are as before. -/
theorem callMethod_lifetick (codecs : Codecs) (s : HttpServer) (client : Client)
    (env : DispatchEnv) (methodName : String) (parameters : List Variable) (messageId : Int)
    (responseType : PacketType) (keepAlive : Bool)
    (hrun : s._stopped = false) (hshut : env.shuttingDown = false)
    (hname : methodName ≠ "setClientType") :
    (∀ method, StdMap.find methodName s._rpcMethods = some method →
      (callMethod s env methodName parameters).1._lifetick1
        = (env.now, (env.invoke method parameters).isSome) ∧
      (callMethodClient codecs s client env methodName parameters messageId responseType
        keepAlive).1._lifetick2 = (env.now, (env.invoke method parameters).isSome)) ∧
    (StdMap.find methodName s._rpcMethods = none →
      (callMethod s env methodName parameters).1 = s ∧
      (callMethodClient codecs s client env methodName parameters messageId responseType
        keepAlive).1._lifetick2 = s._lifetick2) := by
  constructor
  · intro method hreg
    constructor
    · cases hi : env.invoke method parameters <;>
        simp [callMethod, hrun, hshut, hreg, hi]
    · cases hi : env.invoke method parameters <;>
        simp [callMethodClient, hrun, hshut, hname, hreg, hi]
  · intro hreg
    constructor
    · cases hf : env.fallback <;> simp [callMethod, hrun, hshut, hreg, hf]
    · cases hf : env.fallback
      · simp [callMethodClient, hrun, hshut, hname, hreg, hf]
      · simp only [callMethodClient, hrun, hshut, hname, hreg, hf, Bool.or_self,
          Bool.false_eq_true, if_false, false_and]
        unfold sendRPCResponseToClientVariable sendRPCResponseToClient
        rw [hrun]
        simp only [Bool.false_eq_true, if_false]
        split_ifs <;> first | rfl | (cases env.write <;> rfl)

/-- C27, the code at a failing input: on the sample server, at time `5`, the handler of the
registered method `listDevices` throws. Both overloads of `callMethod` return with their
lifetick pair at `(5, false)`: the completed flag is not set. When the handler returns,
the pairs are `(5, true)`; when the method is not registered and the call is delegated to
the fallback, the pairs keep their previous value `(0, true)`. -/
theorem lifetick_incomplete_after_throw :
    (callMethod sampleServer { now := 5 } "listDevices" []).1._lifetick1 = (5, false) ∧
      (callMethodClient sampleCodecs sampleServer sampleClient { now := 5 } "listDevices" []
        1 PacketType.jsonResponse true).1._lifetick2 = (5, false) ∧
      (callMethod sampleServer { now := 5, invoke := fun _ _ => some {} }
        "listDevices" []).1._lifetick1 = (5, true) ∧
      (callMethodClient sampleCodecs sampleServer sampleClient
        { now := 5, invoke := fun _ _ => some {} } "listDevices" []
        1 PacketType.jsonResponse true).1._lifetick2 = (5, true) ∧
      (callMethod sampleServer { now := 5, fallback := some {} }
        "getVersion" []).1._lifetick1 = (0, true) ∧
      (callMethodClient sampleCodecs sampleServer sampleClient
        { now := 5, fallback := some {} } "getVersion" []
        1 PacketType.jsonResponse true).1._lifetick2 = (0, true) := by
  decide

/-- The XML response, split at its first blank line. -/
theorem encodeResponse_xml_split (codecs : Codecs) (value : Variable) (messageId : Int)
    (keepAlive : Bool) :
    splitAtBlankLine
        (encodeResponse codecs value messageId PacketType.xmlResponse keepAlive).data
      = some (("HTTP/1.1 200 OK\r\n" ++ "Connection: "
          ++ (if (!keepAlive) then "close\r\n" else "Keep-Alive\r\n")
          ++ ("Content-Type: " ++ "text/xml" ++ "\r\n")
          ++ ("Content-Length: " ++ toStdString
              (((codecs.xmlRpcEncodeResponse value ++ "\r\n").length + 21) % 2 ^ 32))).data,
        ("<?xml version=\"1.0\"?>" ++ codecs.xmlRpcEncodeResponse value ++ "\r\n").data) := by
  have e : encodeResponse codecs value messageId PacketType.xmlResponse keepAlive
      = getHttpResponseHeader "text/xml"
          ((codecs.xmlRpcEncodeResponse value ++ "\r\n").length + 21) (!keepAlive)
        ++ ("<?xml version=\"1.0\"?>" ++ codecs.xmlRpcEncodeResponse value ++ "\r\n") := by
    simp [encodeResponse, String.append_assoc]
  rw [e]
  exact getHttpResponseHeader_split "text/xml" _ _ _ (by decide)

/-- The JSON response over HTTP, split at its first blank line. -/
theorem encodeResponse_json_split (codecs : Codecs) (value : Variable) (messageId : Int)
    (keepAlive : Bool) :
    splitAtBlankLine
        (encodeResponse codecs value messageId PacketType.jsonResponse keepAlive).data
      = some (("HTTP/1.1 200 OK\r\n" ++ "Connection: "
          ++ (if (!keepAlive) then "close\r\n" else "Keep-Alive\r\n")
          ++ ("Content-Type: " ++ "application/json" ++ "\r\n")
          ++ ("Content-Length: " ++ toStdString
              ((codecs.jsonEncodeResponse value messageId ++ "\r\n").length % 2 ^ 32))).data,
        (codecs.jsonEncodeResponse value messageId ++ "\r\n").data) := by
  have e : encodeResponse codecs value messageId PacketType.jsonResponse keepAlive
      = getHttpResponseHeader "application/json"
          (codecs.jsonEncodeResponse value messageId ++ "\r\n").length (!keepAlive)
        ++ (codecs.jsonEncodeResponse value messageId ++ "\r\n") := rfl
  rw [e]
  exact getHttpResponseHeader_split "application/json" _ _ _ (by decide)

/-- The overload of `sendRPCResponseToClient` that takes a value records at most one write,
of the data encoded for the response type. -/
theorem sendRPCResponseToClientVariable_actions (codecs : Codecs) (s : HttpServer)
    (client : Client) (value : Variable) (messageId : Int) (responseType : PacketType)
    (keepAlive : Bool) (w : WriteOutcome) :
    (sendRPCResponseToClientVariable codecs s client value messageId responseType keepAlive
        w).1.actions = s.actions ∨
    (sendRPCResponseToClientVariable codecs s client value messageId responseType keepAlive
        w).1.actions = s.actions ++ [ServerAction.proofwrite client.id client.socket
          (encodeResponse codecs value messageId responseType keepAlive)] := by
  unfold sendRPCResponseToClientVariable
  split
  · exact Or.inl rfl
  · exact (sendRPCResponseToClient_actions s client _ keepAlive w).1

/-- The overload of `callMethod` that answers a client records at most one write, of some
value encoded for the response type it was given. -/
theorem callMethodClient_actions (codecs : Codecs) (s : HttpServer) (client : Client)
    (env : DispatchEnv) (methodName : String) (parameters : List Variable) (messageId : Int)
    (responseType : PacketType) (keepAlive : Bool) :
    (callMethodClient codecs s client env methodName parameters messageId responseType
        keepAlive).1.actions = s.actions ∨
    ∃ value, (callMethodClient codecs s client env methodName parameters messageId
        responseType keepAlive).1.actions = s.actions ++
          [ServerAction.proofwrite client.id client.socket
            (encodeResponse codecs value messageId responseType keepAlive)] := by
  unfold callMethodClient
  split
  · exact Or.inl rfl
  · split
    · split
      · rcases sendRPCResponseToClientVariable_actions codecs s { client with addon := true }
          {} messageId responseType keepAlive env.write with h | h
        · exact Or.inl h
        · exact Or.inr ⟨_, h⟩
      · exact Or.inl rfl
    · split
      · split
        · rename_i result _
          rcases sendRPCResponseToClientVariable_actions codecs s client result messageId
            responseType keepAlive env.write with h | h
          · exact Or.inl h
          · exact Or.inr ⟨_, h⟩
        · exact Or.inl rfl
      · split
        · rename_i ret _
          rcases sendRPCResponseToClientVariable_actions codecs
            { s with _lifetick2 := (env.now, false) } client ret messageId
            responseType keepAlive env.write with h | h
          · exact Or.inl h
          · exact Or.inr ⟨_, h⟩
        · exact Or.inl rfl

/-- The tail of `analyzeRPC` records at most one write, of some value encoded for the
response type it was given. -/
theorem analyzeRPCParameters_actions (codecs : Codecs) (s : HttpServer) (client : Client)
    (env : DispatchEnv) (methodName : String) (parameters : Option (List Variable))
    (messageId : Int) (responseType : PacketType) (keepAlive : Bool) :
    (analyzeRPCParameters codecs s client env methodName parameters messageId responseType
        keepAlive).1.actions = s.actions ∨
    ∃ value, (analyzeRPCParameters codecs s client env methodName parameters messageId
        responseType keepAlive).1.actions = s.actions ++
          [ServerAction.proofwrite client.id client.socket
            (encodeResponse codecs value messageId responseType keepAlive)] := by
  have hsend : ∀ value,
      (sendRPCResponseToClientVariable codecs s client value messageId responseType keepAlive
          env.write).1.actions = s.actions ∨
      ∃ v, (sendRPCResponseToClientVariable codecs s client value messageId responseType
          keepAlive env.write).1.actions = s.actions ++
            [ServerAction.proofwrite client.id client.socket
              (encodeResponse codecs v messageId responseType keepAlive)] := by
    intro value
    rcases sendRPCResponseToClientVariable_actions codecs s client value messageId
      responseType keepAlive env.write with h | h
    · exact Or.inl h
    · exact Or.inr ⟨_, h⟩
  unfold analyzeRPCParameters
  split
  · exact hsend _
  · split
    · split
      · exact hsend _
      · exact callMethodClient_actions codecs s client env methodName _ messageId
          responseType keepAlive
    · exact callMethodClient_actions codecs s client env methodName _ messageId
        responseType keepAlive

/-- The record after `noteRpcType` has the id and the socket it had. -/
theorem noteRpcType_id_socket (client : Client) (t : RpcType) :
    (noteRpcType client t).id = client.id ∧ (noteRpcType client t).socket = client.socket := by
  unfold noteRpcType
  split <;> exact ⟨rfl, rfl⟩

/-- Every response that `analyzeRPC` writes is encoded for the response type that
corresponds to the packet type. -/
theorem analyzeRPC_actions (codecs : Codecs) (s : HttpServer) (client : Client)
    (env : DispatchEnv) (packetType : PacketType) (keepAlive : Bool) :
    (analyzeRPC codecs s client env packetType keepAlive).1.actions = s.actions ∨
    ∃ value messageId, (analyzeRPC codecs s client env packetType keepAlive).1.actions
      = s.actions ++ [ServerAction.proofwrite client.id client.socket
          (encodeResponse codecs value messageId (responseTypeOf packetType) keepAlive)] := by
  have hpar : ∀ (t : RpcType) (methodName : String) (parameters : Option (List Variable))
      (messageId : Int),
      (analyzeRPCParameters codecs s (noteRpcType client t) env methodName parameters
          messageId (responseTypeOf packetType) keepAlive).1.actions = s.actions ∨
      ∃ value mid, (analyzeRPCParameters codecs s (noteRpcType client t) env
          methodName parameters messageId (responseTypeOf packetType) keepAlive).1.actions
        = s.actions ++ [ServerAction.proofwrite client.id client.socket
            (encodeResponse codecs value mid (responseTypeOf packetType) keepAlive)] := by
    intro t methodName parameters messageId
    rcases analyzeRPCParameters_actions codecs s (noteRpcType client t) env methodName
      parameters messageId (responseTypeOf packetType) keepAlive with h | ⟨v, h⟩
    · exact Or.inl h
    · rw [(noteRpcType_id_socket client t).1, (noteRpcType_id_socket client t).2] at h
      exact Or.inr ⟨v, messageId, h⟩
  have hjson :
      (if env.decodedJson.isStruct then
        if env.decodedJson.hasUser then
          closeClientConnection s (noteRpcType client RpcType.json)
        else
          match env.decodedJson.method with
          | none =>
            sendRPCResponseToClientVariable codecs s (noteRpcType client RpcType.json)
              (Variable.createError (-32500)
                "Could not decode RPC packet. \"method\" not found in JSON.")
              (env.decodedJson.id.getD 0) (responseTypeOf packetType) keepAlive env.write
          | some methodName =>
            analyzeRPCParameters codecs s (noteRpcType client RpcType.json) env methodName
              (some (env.decodedJson.params.getD [])) (env.decodedJson.id.getD 0)
              (responseTypeOf packetType) keepAlive
      else
        analyzeRPCParameters codecs s (noteRpcType client RpcType.json) env "" none 0
          (responseTypeOf packetType) keepAlive).1.actions = s.actions ∨
      ∃ value messageId,
        (if env.decodedJson.isStruct then
          if env.decodedJson.hasUser then
            closeClientConnection s (noteRpcType client RpcType.json)
          else
            match env.decodedJson.method with
            | none =>
              sendRPCResponseToClientVariable codecs s (noteRpcType client RpcType.json)
                (Variable.createError (-32500)
                  "Could not decode RPC packet. \"method\" not found in JSON.")
                (env.decodedJson.id.getD 0) (responseTypeOf packetType) keepAlive env.write
            | some methodName =>
              analyzeRPCParameters codecs s (noteRpcType client RpcType.json) env methodName
                (some (env.decodedJson.params.getD [])) (env.decodedJson.id.getD 0)
                (responseTypeOf packetType) keepAlive
        else
          analyzeRPCParameters codecs s (noteRpcType client RpcType.json) env "" none 0
            (responseTypeOf packetType) keepAlive).1.actions
        = s.actions ++ [ServerAction.proofwrite client.id client.socket
            (encodeResponse codecs value messageId (responseTypeOf packetType) keepAlive)] := by
    split
    · split
      · exact Or.inl rfl
      · split
        · rcases sendRPCResponseToClientVariable_actions codecs s
            (noteRpcType client RpcType.json)
            (Variable.createError (-32500)
              "Could not decode RPC packet. \"method\" not found in JSON.")
            (env.decodedJson.id.getD 0) (responseTypeOf packetType) keepAlive env.write
            with h | h
          · exact Or.inl h
          · rw [(noteRpcType_id_socket client RpcType.json).1,
              (noteRpcType_id_socket client RpcType.json).2] at h
            exact Or.inr ⟨_, _, h⟩
        · exact hpar _ _ _ _
    · exact hpar _ _ _ _
  unfold analyzeRPC
  split
  · exact Or.inl rfl
  · cases packetType
    case binaryRequest => exact hpar _ _ _ _
    case xmlRequest => exact hpar _ _ _ _
    case jsonRequest => exact hjson
    case webSocketRequest => exact hjson
    all_goals
      rcases analyzeRPCParameters_actions codecs s client env "" none 0
        (responseTypeOf _) keepAlive with h | ⟨v, h⟩
      · exact Or.inl h
      · exact Or.inr ⟨v, 0, h⟩

/-- A registered method whose handler returns, called for a valid client on a running
server: the value returned is written, encoded for the response type given. -/
theorem callMethodClient_writes (codecs : Codecs) (s : HttpServer) (client : Client)
    (env : DispatchEnv) (methodName : String) (parameters : List Variable) (messageId : Int)
    (responseType : PacketType) (keepAlive : Bool) (method : Nat) (ret : Variable)
    (hrun : s._stopped = false) (hshut : env.shuttingDown = false)
    (hname : methodName ≠ "setClientType")
    (hreg : StdMap.find methodName s._rpcMethods = some method)
    (hret : env.invoke method parameters = some ret)
    (hvalid : clientValid s client = true)
    (hdata : encodeResponse codecs ret messageId responseType keepAlive ≠ "") :
    (callMethodClient codecs s client env methodName parameters messageId responseType
        keepAlive).1.actions
      = s.actions ++ [ServerAction.proofwrite client.id client.socket
          (encodeResponse codecs ret messageId responseType keepAlive)] := by
  have hrun2 : ({ s with _lifetick2 := (env.now, false) } : HttpServer)._stopped = false :=
    hrun
  have hvalid2 : clientValid ({ s with _lifetick2 := (env.now, false) } : HttpServer) client
      = true := hvalid
  have h := sendRPCResponseToClient_eq { s with _lifetick2 := (env.now, false) } client
    (encodeResponse codecs ret messageId responseType keepAlive) keepAlive env.write
    hrun2 hvalid2 hdata
  have hsend : sendRPCResponseToClientVariable codecs
      { s with _lifetick2 := (env.now, false) } client ret messageId responseType keepAlive
      env.write
      = sendRPCResponseToClient { s with _lifetick2 := (env.now, false) } client
          (encodeResponse codecs ret messageId responseType keepAlive) keepAlive env.write := by
    unfold sendRPCResponseToClientVariable
    rw [if_neg (by rw [hrun2]; decide)]
  unfold callMethodClient
  rw [if_neg (by simp [hrun, hshut]), if_neg (fun hc => hname hc.1)]
  simp only [hreg, hret]
  rw [hsend, h]
  cases env.write <;> cases keepAlive <;> rfl

/-- The record after `analyzeRPC` has noted the wire format is valid when the record was. -/
theorem clientValid_noteRpcType (s : HttpServer) (client : Client) (t : RpcType) :
    clientValid s (noteRpcType client t) = clientValid s client := by
  unfold noteRpcType
  split <;> rfl

/-- The overload of `sendRPCResponseToClient` that takes a value, on a running server: it
is the send of the data encoded for the response type. -/
theorem sendRPCResponseToClientVariable_eq (codecs : Codecs) (s : HttpServer)
    (client : Client) (value : Variable) (messageId : Int) (responseType : PacketType)
    (keepAlive : Bool) (w : WriteOutcome) (hrun : s._stopped = false) :
    sendRPCResponseToClientVariable codecs s client value messageId responseType keepAlive w
      = sendRPCResponseToClient s client
          (encodeResponse codecs value messageId responseType keepAlive) keepAlive w := by
  unfold sendRPCResponseToClientVariable
  rw [if_neg (by rw [hrun]; decide)]

/-- The overload of `sendRPCResponseToClient` that takes a value, on a running server, for
a valid client and an encoding that is not empty: the encoding is written. -/
theorem sendRPCResponseToClientVariable_writes (codecs : Codecs) (s : HttpServer)
    (client : Client) (value : Variable) (messageId : Int) (responseType : PacketType)
    (keepAlive : Bool) (w : WriteOutcome) (hrun : s._stopped = false)
    (hvalid : clientValid s client = true)
    (hdata : encodeResponse codecs value messageId responseType keepAlive ≠ "") :
    (sendRPCResponseToClientVariable codecs s client value messageId responseType keepAlive
        w).1.actions
      = s.actions ++ [ServerAction.proofwrite client.id client.socket
          (encodeResponse codecs value messageId responseType keepAlive)] := by
  rw [sendRPCResponseToClientVariable_eq codecs s client value messageId responseType
    keepAlive w hrun, sendRPCResponseToClient_eq s client _ keepAlive w hrun hvalid hdata]
  cases w <;> cases keepAlive <;> rfl

/-- The tail of `analyzeRPC` for a decoded call of a registered method whose first
parameter is no error structure: the value the handler returns is written, encoded for the
response type. -/
theorem analyzeRPCParameters_answers (codecs : Codecs) (s : HttpServer) (client : Client)
    (env : DispatchEnv) (methodName : String) (ps : List Variable) (messageId : Int)
    (responseType : PacketType) (keepAlive : Bool) (method : Nat) (ret : Variable)
    (hrun : s._stopped = false) (hshut : env.shuttingDown = false)
    (hname : methodName ≠ "setClientType")
    (hreg : StdMap.find methodName s._rpcMethods = some method)
    (hret : env.invoke method ps = some ret)
    (hvalid : clientValid s client = true)
    (hhead : ∀ p, ps.head? = some p → p.errorStruct = false)
    (hdata : encodeResponse codecs ret messageId responseType keepAlive ≠ "") :
    (analyzeRPCParameters codecs s client env methodName (some ps) messageId responseType
        keepAlive).1.actions
      = s.actions ++ [ServerAction.proofwrite client.id client.socket
          (encodeResponse codecs ret messageId responseType keepAlive)] := by
  have hcall := callMethodClient_writes codecs s client env methodName ps messageId
    responseType keepAlive method ret hrun hshut hname hreg hret hvalid hdata
  unfold analyzeRPCParameters
  cases ps with
  | nil => exact hcall
  | cons p rest =>
    have hp : p.errorStruct = false := hhead p rfl
    simp only [hp, Bool.false_eq_true, if_false]
    exact hcall

/-- A request that decodes to a call of a registered method, on a running server and for a
valid client: `analyzeRPC` writes the value the handler returns, encoded for the response
type that corresponds to the packet type. -/
theorem analyzeRPC_answers (codecs : Codecs) (s : HttpServer) (client : Client)
    (env : DispatchEnv) (packetType : PacketType) (keepAlive : Bool) (methodName : String)
    (ps : List Variable) (mid : Int) (method : Nat) (ret : Variable)
    (hrun : s._stopped = false) (hshut : env.shuttingDown = false)
    (hvalid : clientValid s client = true)
    (hdec : decodesTo env packetType methodName ps mid)
    (hhead : ∀ p, ps.head? = some p → p.errorStruct = false)
    (hname : methodName ≠ "setClientType")
    (hreg : StdMap.find methodName s._rpcMethods = some method)
    (hret : env.invoke method ps = some ret)
    (hdata : encodeResponse codecs ret mid (responseTypeOf packetType) keepAlive ≠ "") :
    (analyzeRPC codecs s client env packetType keepAlive).1.actions
      = s.actions ++ [ServerAction.proofwrite client.id client.socket
          (encodeResponse codecs ret mid (responseTypeOf packetType) keepAlive)] := by
  have hpar : ∀ t : RpcType,
      (analyzeRPCParameters codecs s (noteRpcType client t) env methodName (some ps) mid
          (responseTypeOf packetType) keepAlive).1.actions
        = s.actions ++ [ServerAction.proofwrite client.id client.socket
            (encodeResponse codecs ret mid (responseTypeOf packetType) keepAlive)] := by
    intro t
    have h := analyzeRPCParameters_answers codecs s (noteRpcType client t) env methodName ps
      mid (responseTypeOf packetType) keepAlive method ret hrun hshut hname hreg hret
      ((clientValid_noteRpcType s client t).trans hvalid) hhead hdata
    rw [(noteRpcType_id_socket client t).1, (noteRpcType_id_socket client t).2] at h
    exact h
  unfold analyzeRPC
  rw [if_neg (by rw [hrun]; decide)]
  rcases hdec with ⟨hp, hd, hm⟩ | ⟨hp, h1, h2, h3, h4, h5⟩
  · subst hm
    rcases hp with hp | hp
    · subst hp
      simp only [hd]
      exact hpar RpcType.binary
    · subst hp
      simp only [hd]
      exact hpar RpcType.xml
  · subst h4
    subst h5
    rcases hp with hp | hp
    · subst hp
      simp only [h1, h2, h3, if_true, Bool.false_eq_true, if_false]
      exact hpar RpcType.json
    · subst hp
      simp only [h1, h2, h3, if_true, Bool.false_eq_true, if_false]
      exact hpar RpcType.json

/-- A binary or XML request that the decoder cannot decode (null parameter vector), on a
running server and for a valid client: `analyzeRPC` writes the error `-32500`, encoded for
the response type that corresponds to the packet type. -/
theorem analyzeRPC_answers_undecodable (codecs : Codecs) (s : HttpServer) (client : Client)
    (env : DispatchEnv) (packetType : PacketType) (keepAlive : Bool)
    (hrun : s._stopped = false) (hvalid : clientValid s client = true)
    (hp : packetType = PacketType.binaryRequest ∨ packetType = PacketType.xmlRequest)
    (hd : env.decodedRequest.2 = none)
    (hdata : encodeResponse codecs
      (Variable.createError (-32500) "Could not decode RPC packet. Parameters are empty.")
      0 (responseTypeOf packetType) keepAlive ≠ "") :
    (analyzeRPC codecs s client env packetType keepAlive).1.actions
      = s.actions ++ [ServerAction.proofwrite client.id client.socket
          (encodeResponse codecs
            (Variable.createError (-32500)
              "Could not decode RPC packet. Parameters are empty.")
            0 (responseTypeOf packetType) keepAlive)] := by
  have hpar : ∀ t : RpcType,
      (analyzeRPCParameters codecs s (noteRpcType client t) env env.decodedRequest.1 none 0
          (responseTypeOf packetType) keepAlive).1.actions
        = s.actions ++ [ServerAction.proofwrite client.id client.socket
            (encodeResponse codecs
              (Variable.createError (-32500)
                "Could not decode RPC packet. Parameters are empty.")
              0 (responseTypeOf packetType) keepAlive)] := by
    intro t
    have h := sendRPCResponseToClientVariable_writes codecs s (noteRpcType client t)
      (Variable.createError (-32500) "Could not decode RPC packet. Parameters are empty.")
      0 (responseTypeOf packetType) keepAlive env.write hrun
      ((clientValid_noteRpcType s client t).trans hvalid) hdata
    rw [(noteRpcType_id_socket client t).1, (noteRpcType_id_socket client t).2] at h
    exact h
  unfold analyzeRPC
  rw [if_neg (by rw [hrun]; decide)]
  rcases hp with hp | hp
  · subst hp
    simp only [hd]
    exact hpar RpcType.binary
  · subst hp
    simp only [hd]
    exact hpar RpcType.xml

/-- C26: the response is encoded with the codec that matches the wire format of the
request. `analyzeRPC` derives the response type `binaryResponse`, `xmlResponse`,
`jsonResponse`, `webSocketResponse` from the packet type `binaryRequest`, `xmlRequest`,
`jsonRequest`, `webSocketRequest`. On a running server and for a valid client, a request
that decodes to a call of a registered method is answered by `analyzeRPC` with one write:
the value the handler returns, encoded for that response type; a binary or XML request that
cannot be decoded is answered with the error `-32500` in the same encoding; and whatever
the request, `analyzeRPC` writes nothing or one value encoded for that response type. On a
running server the overload of `sendRPCResponseToClient` that takes a value is the send of
`encodeResponse` of the value. The encoding for `binaryResponse` is the output of the
binary encoder; for `xmlResponse` an HTTP message whose header has the line `Content-Type:
text/xml` and whose body holds the output of the XML encoder; for `jsonResponse` an HTTP
message whose header has the line `Content-Type: application/json` and whose body is the
output of the JSON encoder and a line end; for `webSocketResponse` the output of the JSON
encoder wrapped by `WebSocket::encode` in a text frame. -/
theorem response_codec_matches_request (codecs : Codecs) (s : HttpServer) (client : Client)
    (env : DispatchEnv) (packetType : PacketType) (value : Variable) (messageId : Int)
    (keepAlive : Bool) (w : WriteOutcome) :
    (responseTypeOf PacketType.binaryRequest = PacketType.binaryResponse ∧
      responseTypeOf PacketType.xmlRequest = PacketType.xmlResponse ∧
      responseTypeOf PacketType.jsonRequest = PacketType.jsonResponse ∧
      responseTypeOf PacketType.webSocketRequest = PacketType.webSocketResponse) ∧
    (∀ (methodName : String) (ps : List Variable) (method : Nat),
      s._stopped = false → env.shuttingDown = false → clientValid s client = true →
      decodesTo env packetType methodName ps messageId →
      (∀ p, ps.head? = some p → p.errorStruct = false) →
      methodName ≠ "setClientType" →
      StdMap.find methodName s._rpcMethods = some method →
      env.invoke method ps = some value →
      encodeResponse codecs value messageId (responseTypeOf packetType) keepAlive ≠ "" →
      (analyzeRPC codecs s client env packetType keepAlive).1.actions
        = s.actions ++ [ServerAction.proofwrite client.id client.socket
            (encodeResponse codecs value messageId (responseTypeOf packetType) keepAlive)]) ∧
    (s._stopped = false → clientValid s client = true →
      packetType = PacketType.binaryRequest ∨ packetType = PacketType.xmlRequest →
      env.decodedRequest.2 = none →
      encodeResponse codecs
        (Variable.createError (-32500) "Could not decode RPC packet. Parameters are empty.")
        0 (responseTypeOf packetType) keepAlive ≠ "" →
      (analyzeRPC codecs s client env packetType keepAlive).1.actions
        = s.actions ++ [ServerAction.proofwrite client.id client.socket
            (encodeResponse codecs
              (Variable.createError (-32500)
                "Could not decode RPC packet. Parameters are empty.")
              0 (responseTypeOf packetType) keepAlive)]) ∧
    ((analyzeRPC codecs s client env packetType keepAlive).1.actions = s.actions ∨
      ∃ v mid, (analyzeRPC codecs s client env packetType keepAlive).1.actions
        = s.actions ++ [ServerAction.proofwrite client.id client.socket
            (encodeResponse codecs v mid (responseTypeOf packetType) keepAlive)]) ∧
    (s._stopped = false →
      sendRPCResponseToClientVariable codecs s client value messageId
          (responseTypeOf packetType) keepAlive w
        = sendRPCResponseToClient s client
            (encodeResponse codecs value messageId (responseTypeOf packetType) keepAlive)
            keepAlive w) ∧
    (∀ (methodName : String) (parameters : List Variable) (method : Nat),
      s._stopped = false → env.shuttingDown = false → methodName ≠ "setClientType" →
      StdMap.find methodName s._rpcMethods = some method →
      env.invoke method parameters = some value → clientValid s client = true →
      encodeResponse codecs value messageId (responseTypeOf packetType) keepAlive ≠ "" →
      (callMethodClient codecs s client env methodName parameters messageId
          (responseTypeOf packetType) keepAlive).1.actions
        = s.actions ++ [ServerAction.proofwrite client.id client.socket
            (encodeResponse codecs value messageId (responseTypeOf packetType) keepAlive)]) ∧
    encodeResponse codecs value messageId PacketType.binaryResponse keepAlive
      = codecs.rpcEncodeResponse value ∧
    (∃ headerLines : List Char,
      splitAtBlankLine
          (encodeResponse codecs value messageId PacketType.xmlResponse keepAlive).data
        = some (headerLines,
            ("<?xml version=\"1.0\"?>" ++ codecs.xmlRpcEncodeResponse value ++ "\r\n").data)
      ∧ "Content-Type: text/xml\r\n".data <:+: headerLines) ∧
    (∃ headerLines : List Char,
      splitAtBlankLine
          (encodeResponse codecs value messageId PacketType.jsonResponse keepAlive).data
        = some (headerLines, (codecs.jsonEncodeResponse value messageId ++ "\r\n").data)
      ∧ "Content-Type: application/json\r\n".data <:+: headerLines) ∧
    encodeResponse codecs value messageId PacketType.webSocketResponse keepAlive
      = codecs.webSocketEncode (codecs.jsonEncodeResponse value messageId)
          WebSocketOpcode.text := by
  refine ⟨⟨rfl, rfl, rfl, rfl⟩, ?_, ?_,
    analyzeRPC_actions codecs s client env packetType keepAlive,
    sendRPCResponseToClientVariable_eq codecs s client value messageId
      (responseTypeOf packetType) keepAlive w,
    ?_, rfl, ?_, ?_, rfl⟩
  · intro methodName ps method hrun hshut hvalid hdec hhead hname hreg hret hdata
    exact analyzeRPC_answers codecs s client env packetType keepAlive methodName ps messageId
      method value hrun hshut hvalid hdec hhead hname hreg hret hdata
  · intro hrun hvalid hp hd hdata
    exact analyzeRPC_answers_undecodable codecs s client env packetType keepAlive hrun hvalid
      hp hd hdata
  · intro methodName parameters method hrun hshut hname hreg hret hvalid hdata
    exact callMethodClient_writes codecs s client env methodName parameters messageId
      (responseTypeOf packetType) keepAlive method value hrun hshut hname hreg hret hvalid
      hdata
  · refine ⟨_, encodeResponse_xml_split codecs value messageId keepAlive,
      ("HTTP/1.1 200 OK\r\n" ++ "Connection: "
          ++ (if (!keepAlive) then "close\r\n" else "Keep-Alive\r\n")).data,
        ("Content-Length: " ++ toStdString
            (((codecs.xmlRpcEncodeResponse value ++ "\r\n").length + 21) % 2 ^ 32)).data, ?_⟩
    simp [String.data_append]
  · refine ⟨_, encodeResponse_json_split codecs value messageId keepAlive,
      ("HTTP/1.1 200 OK\r\n" ++ "Connection: "
          ++ (if (!keepAlive) then "close\r\n" else "Keep-Alive\r\n")).data,
        ("Content-Length: " ++ toStdString
            ((codecs.jsonEncodeResponse value messageId ++ "\r\n").length % 2 ^ 32)).data, ?_⟩
    simp [String.data_append]

/-- C26, at concrete requests on the sample server, all decoding to a call of the registered
method `listDevices`: the answer `analyzeRPC` writes to a binary request is the output of
the binary encoder, to an XML request an HTTP message of content type `text/xml`, to a JSON
request an HTTP message of content type `application/json`, and to a WebSocket request a
text frame around the output of the JSON encoder. -/
theorem response_codec_matches_request_witness :
    (analyzeRPC sampleCodecs sampleServer sampleClient
        { decodedRequest := ("listDevices", some []), invoke := fun _ _ => some {} }
        PacketType.binaryRequest true).1.actions
      = [ServerAction.proofwrite 0 (some 0) "Bin"] ∧
    (analyzeRPC sampleCodecs sampleServer sampleClient
        { decodedRequest := ("listDevices", some []), invoke := fun _ _ => some {} }
        PacketType.xmlRequest true).1.actions
      = [ServerAction.proofwrite 0 (some 0)
          "HTTP/1.1 200 OK\r\nConnection: Keep-Alive\r\nContent-Type: text/xml\r\nContent-Length: 40\r\n\r\n<?xml version=\"1.0\"?><methodResponse/>\r\n"] ∧
    (analyzeRPC sampleCodecs sampleServer sampleClient
        { decodedJson := { method := some "listDevices", id := some 7 }
          invoke := fun _ _ => some {} }
        PacketType.jsonRequest true).1.actions
      = [ServerAction.proofwrite 0 (some 0)
          "HTTP/1.1 200 OK\r\nConnection: Keep-Alive\r\nContent-Type: application/json\r\nContent-Length: 4\r\n\r\n\x7b\x7d\r\n"] ∧
    (analyzeRPC sampleCodecs sampleServer sampleClient
        { decodedJson := { method := some "listDevices", id := some 7 }
          invoke := fun _ _ => some {} }
        PacketType.webSocketRequest true).1.actions
      = [ServerAction.proofwrite 0 (some 0) "ws:\x7b\x7d"] :=
  ⟨((response_codec_matches_request sampleCodecs sampleServer sampleClient
      { decodedRequest := ("listDevices", some []), invoke := fun _ _ => some {} }
      PacketType.binaryRequest {} 0 true WriteOutcome.ok).2.1 "listDevices" [] 1 rfl rfl
      (by decide) (Or.inl ⟨Or.inl rfl, rfl, rfl⟩) (fun _ h => nomatch h) (by decide)
      (by decide) rfl (by decide)).trans (by decide),
    by decide, by decide, by decide⟩

/-- C30 (amended): the `Content-Length` line of an XML or JSON HTTP response announces the
exact number of bytes that follow the blank line, provided the number fits the `uint32_t`
parameter of `getHttpResponseHeader`. For XML, with an encoder output of `n` bytes and
`n + 23 < 2 ^ 32`, the body has `n + 2 + 21` bytes and the last header line is
`Content-Length: ` followed by that number; for JSON, with `n + 2 < 2 ^ 32`, the body has
`n + 2` bytes and the last header line announces it. -/
theorem content_length_matches_body (codecs : Codecs) (value : Variable) (messageId : Int)
    (keepAlive : Bool)
    (hxml : (codecs.xmlRpcEncodeResponse value).length + 23 < 2 ^ 32)
    (hjson : (codecs.jsonEncodeResponse value messageId).length + 2 < 2 ^ 32) :
    (∃ lines body : List Char,
      splitAtBlankLine
          (encodeResponse codecs value messageId PacketType.xmlResponse keepAlive).data
        = some (lines ++ ("\r\n" ++ "Content-Length: " ++ toStdString body.length).data, body)
      ∧ body.length = (codecs.xmlRpcEncodeResponse value).length + 2 + 21) ∧
    (∃ lines body : List Char,
      splitAtBlankLine
          (encodeResponse codecs value messageId PacketType.jsonResponse keepAlive).data
        = some (lines ++ ("\r\n" ++ "Content-Length: " ++ toStdString body.length).data, body)
      ∧ body.length = (codecs.jsonEncodeResponse value messageId).length + 2) := by
  have hcr : ("\r\n" : String).length = 2 := by decide
  have hdecl : ("<?xml version=\"1.0\"?>" : String).length = 21 := by decide
  constructor
  · have hl : ("<?xml version=\"1.0\"?>" ++ codecs.xmlRpcEncodeResponse value ++ "\r\n").data.length
        = (codecs.xmlRpcEncodeResponse value).length + 2 + 21 := by
      show ("<?xml version=\"1.0\"?>" ++ codecs.xmlRpcEncodeResponse value ++ "\r\n").length = _
      rw [String.length_append, String.length_append, hcr, hdecl]
      omega
    have hn : ((codecs.xmlRpcEncodeResponse value ++ "\r\n").length + 21) % 2 ^ 32
        = (codecs.xmlRpcEncodeResponse value).length + 2 + 21 := by
      rw [String.length_append, hcr]
      exact Nat.mod_eq_of_lt (by omega)
    refine ⟨("HTTP/1.1 200 OK\r\n" ++ "Connection: "
          ++ (if (!keepAlive) then "close" else "Keep-Alive")
          ++ "\r\n" ++ "Content-Type: text/xml").data, _,
      ?_, hl⟩
    rw [encodeResponse_xml_split, hn, hl]
    cases keepAlive <;> simp [String.data_append]
  · have hl : (codecs.jsonEncodeResponse value messageId ++ "\r\n").data.length
        = (codecs.jsonEncodeResponse value messageId).length + 2 := by
      show (codecs.jsonEncodeResponse value messageId ++ "\r\n").length = _
      rw [String.length_append, hcr]
    have hn : (codecs.jsonEncodeResponse value messageId ++ "\r\n").length % 2 ^ 32
        = (codecs.jsonEncodeResponse value messageId).length + 2 := by
      rw [String.length_append, hcr]
      exact Nat.mod_eq_of_lt (by omega)
    refine ⟨("HTTP/1.1 200 OK\r\n" ++ "Connection: "
          ++ (if (!keepAlive) then "close" else "Keep-Alive")
          ++ "\r\n" ++ "Content-Type: application/json").data, _,
      ?_, hl⟩
    rw [encodeResponse_json_split, hn, hl]
    cases keepAlive <;> simp [String.data_append]

/-- C30 (amended), at the sample codecs: the XML response announces `40` bytes and the
JSON response `4` bytes, the sizes of their bodies. -/
theorem content_length_matches_body_witness :
    (sampleCodecs.xmlRpcEncodeResponse {}).length + 23 < 2 ^ 32 ∧
      (sampleCodecs.jsonEncodeResponse {} 1).length + 2 < 2 ^ 32 ∧
      (∃ lines body : List Char,
        splitAtBlankLine
            (encodeResponse sampleCodecs {} 1 PacketType.xmlResponse true).data
          = some (lines ++ ("\r\n" ++ "Content-Length: " ++ toStdString body.length).data,
              body)
        ∧ body.length = 40) ∧
      (∃ lines body : List Char,
        splitAtBlankLine
            (encodeResponse sampleCodecs {} 1 PacketType.jsonResponse true).data
          = some (lines ++ ("\r\n" ++ "Content-Length: " ++ toStdString body.length).data,
              body)
        ∧ body.length = 4) :=
  ⟨by decide, by decide,
    content_length_matches_body sampleCodecs {} 1 true (by decide) (by decide)⟩

/-- The length of the text that the XML encoder of `longCodecs` returns. -/
theorem longCodecs_xml_length (value : Variable) :
    (longCodecs.xmlRpcEncodeResponse value).length = 4294967273 :=
  List.length_replicate _ _

/-- C30, counterexample: an XML encoder output of `2 ^ 32 - 23` bytes is shorter than
`2 ^ 32` bytes, yet the response announces `Content-Length: 0` while `2 ^ 32` bytes follow
the blank line: the length passed to `getHttpResponseHeader` is reduced to 32 bits. -/
theorem content_length_wraps_counterexample :
    (longCodecs.xmlRpcEncodeResponse {}).length < 2 ^ 32 ∧
      ∃ body : List Char,
        splitAtBlankLine
            (encodeResponse longCodecs {} 0 PacketType.xmlResponse true).data
          = some ("HTTP/1.1 200 OK\r\nConnection: Keep-Alive\r\nContent-Type: text/xml\r\nContent-Length: 0".data,
              body)
        ∧ body.length = 4294967296 := by
  have hcr : ("\r\n" : String).length = 2 := by decide
  have hdecl : ("<?xml version=\"1.0\"?>" : String).length = 21 := by decide
  have hn : ((longCodecs.xmlRpcEncodeResponse {} ++ "\r\n").length + 21) % 2 ^ 32 = 0 := by
    rw [String.length_append, hcr, longCodecs_xml_length]
    decide
  refine ⟨?_, ("<?xml version=\"1.0\"?>" ++ longCodecs.xmlRpcEncodeResponse {} ++ "\r\n").data,
    ?_, ?_⟩
  · rw [longCodecs_xml_length]
    decide
  · rw [encodeResponse_xml_split, hn]
    rfl
  · show ("<?xml version=\"1.0\"?>" ++ longCodecs.xmlRpcEncodeResponse {} ++ "\r\n").length = _
    rw [String.length_append, String.length_append, hcr, hdecl, longCodecs_xml_length]

end HttpServer

/-! ## Further theorems on the descriptor registry -/

namespace FileDescriptorManager

theorem registered_of_isValid {s : FileDescriptorManager} {h : Nat}
    (hv : isValid s h = true) :
    ∃ o, registered s h = some o ∧ s.heap[h]? = some o ∧ 0 ≤ o.descriptor ∧
      descriptorOf s h = o.descriptor ∧ tlsSessionOf s h = o.tlsSession := by
  rw [isValid_eq_isSome] at hv
  cases hr : registered s h with
  | none => simp [hr] at hv
  | some o =>
    obtain ⟨ho, hd⟩ := registered_eq_some hr
    exact ⟨o, rfl, ho, hd, by simp [descriptorOf, ho], by simp [tlsSessionOf, ho]⟩

theorem heap_set_self {s : FileDescriptorManager} {h : Nat} {o o' : FileDescriptor}
    (ho : s.heap[h]? = some o) : (s.heap.set h o')[h]? = some o' := by
  have hlt : h < s.heap.length := by
    rcases List.getElem?_eq_some.mp ho with ⟨hlt, _⟩
    exact hlt
  simp [hlt]

/-- C19: `close(h)` on a valid handle `h` with raw descriptor `d` erases the map entry
under `d` and issues, in this order, `gnutls_bye` if the handle has a TLS session,
`::close(d)` on the descriptor value the handle had, and `gnutls_deinit` if it has a
session; without a session the only call is `::close(d)`. Afterwards the handle's session
pointer is null and its descriptor is `-1`; no other handle changes. -/
theorem close_valid_effects (s : FileDescriptorManager) (h : Nat)
    (hv : isValid s h = true) :
    (close s h)._descriptors = StdMap.erase (descriptorOf s h) s._descriptors ∧
    StdMap.find (descriptorOf s h) (close s h)._descriptors = none ∧
    (close s h).sysCalls = s.sysCalls ++
      (match tlsSessionOf s h with
        | some t =>
          [SysCall.gnutls_bye t, SysCall.close (descriptorOf s h), SysCall.gnutls_deinit t]
        | none => [SysCall.close (descriptorOf s h)]) ∧
    tlsSessionOf (close s h) h = none ∧
    descriptorOf (close s h) h = -1 ∧
    (∀ p, p ≠ h → (close s h).heap[p]? = s.heap[p]?) := by
  obtain ⟨o, hr, ho, _, hd, ht⟩ := registered_of_isValid hv
  rw [hd, ht]
  have hheap : (close s h).heap = s.heap.set h (cleared o) := (close_of_some hr).1
  have hmap : (close s h)._descriptors = StdMap.erase o.descriptor s._descriptors :=
    (close_of_some hr).2.1
  refine ⟨hmap, ?_, ?_, ?_, ?_, ?_⟩
  · rw [hmap, StdMap.find_erase]
    simp
  · cases hts : o.tlsSession with
    | none => simp [close, hr, hts]
    | some t => simp [close, hr, hts]
  · simp [tlsSessionOf, hheap, heap_set_self ho, cleared]
  · simp [descriptorOf, hheap, heap_set_self ho, cleared]
  · intro p hp
    rw [hheap, List.getElem?_set_ne (fun e => hp e.symm)]

/-- C19, at a concrete state: the handle of descriptor `4` has TLS session `7`; `close`
issues `gnutls_bye 7`, `::close 4`, `gnutls_deinit 7`. -/
theorem close_valid_effects_witness :
    (close (run init [Op.add 4, Op.setTlsSession 0 (some 7)]) 0).sysCalls
      = [SysCall.gnutls_bye 7, SysCall.close 4, SysCall.gnutls_deinit 7] :=
  (close_valid_effects (run init [Op.add 4, Op.setTlsSession 0 (some 7)]) 0
    (by decide)).2.2.1.trans (by decide)

/-- C20: `shutdown(h)` on a valid handle leaves map and handles exactly as `close(h)`
does, and its calls differ from those of `close(h)` only by a `::shutdown(d, 0)` issued
before `::close(d)` when, and only when, the handle has no TLS session: with a session the
calls are exactly `gnutls_bye`, `::close`, `gnutls_deinit`; without one they are
`::shutdown`, `::close`. -/
theorem shutdown_valid_effects (s : FileDescriptorManager) (h : Nat)
    (hv : isValid s h = true) :
    (shutdown s h).heap = (close s h).heap ∧
    (shutdown s h)._descriptors = (close s h)._descriptors ∧
    (shutdown s h)._currentID = (close s h)._currentID ∧
    (shutdown s h)._disposed = (close s h)._disposed ∧
    (shutdown s h).sysCalls = s.sysCalls ++
      (match tlsSessionOf s h with
        | some t =>
          [SysCall.gnutls_bye t, SysCall.close (descriptorOf s h), SysCall.gnutls_deinit t]
        | none => [SysCall.shutdown (descriptorOf s h) 0, SysCall.close (descriptorOf s h)]) ∧
    ((∃ fd how, SysCall.shutdown fd how ∈ (shutdown s h).sysCalls.drop s.sysCalls.length) ↔
      tlsSessionOf s h = none) ∧
    (tlsSessionOf s h ≠ none → (shutdown s h).sysCalls = (close s h).sysCalls) := by
  obtain ⟨o, hr, ho, _, hd, ht⟩ := registered_of_isValid hv
  rw [hd, ht]
  have hcalls : (shutdown s h).sysCalls = s.sysCalls ++
      (match o.tlsSession with
        | some t => [SysCall.gnutls_bye t, SysCall.close o.descriptor, SysCall.gnutls_deinit t]
        | none => [SysCall.shutdown o.descriptor 0, SysCall.close o.descriptor]) := by
    cases hts : o.tlsSession with
    | none => simp [shutdown, hr, hts]
    | some t => simp [shutdown, hr, hts]
  refine ⟨?_, ?_, ?_, ?_, hcalls, ?_, ?_⟩
  · rw [(shutdown_of_some hr).1, (close_of_some hr).1]
  · rw [(shutdown_of_some hr).2.1, (close_of_some hr).2.1]
  · simp [shutdown, close, hr]
  · rw [(shutdown_of_some hr).2.2, (close_of_some hr).2.2]
  · rw [hcalls, List.drop_left]
    cases hts : o.tlsSession with
    | none => simp
    | some t => simp
  · intro hne
    rw [hcalls]
    cases hts : o.tlsSession with
    | none => exact absurd hts hne
    | some t => simp [close, hr, hts]

/-- C20, at a concrete state: the handle of descriptor `4` has no TLS session; `shutdown`
issues `::shutdown(4, 0)` and then `::close(4)`. -/
theorem shutdown_valid_effects_witness :
    (shutdown (run init [Op.add 4]) 0).sysCalls
      = [SysCall.shutdown 4 0, SysCall.close 4] :=
  (shutdown_valid_effects (run init [Op.add 4]) 0 (by decide)).2.2.2.2.1.trans (by decide)

theorem erase_of_find_none {V : Type} (k : Int) (m : List (Int × V))
    (h : StdMap.find k m = none) : StdMap.erase k m = m := by
  induction m with
  | nil => rfl
  | cons e rest ih =>
    obtain ⟨a, v⟩ := e
    have ha : ¬ a = k := by
      intro e
      simp [StdMap.find, e] at h
    have hrest : StdMap.find k rest = none := by
      simpa [StdMap.find, ha] using h
    simp [StdMap.erase, ha, ih hrest]

theorem consistent_init : Consistent init := by
  constructor
  · intro k q hq
    simp [init, StdMap.find] at hq
  · left
    intro p hp
    simp [init, descriptorOf] at hp

theorem descriptorOf_alloc_default (s : FileDescriptorManager) (p : Nat)
    (hp : 0 ≤ descriptorOf (alloc s {}).1 p) :
    descriptorOf (alloc s {}).1 p = descriptorOf s p := by
  by_cases hlt : p < s.heap.length
  · simp [descriptorOf, alloc, List.getElem?_append_left hlt]
  · exfalso
    have hge : s.heap.length ≤ p := by omega
    unfold descriptorOf alloc at hp
    simp only at hp
    rw [List.getElem?_append_right hge] at hp
    cases hpl : p - s.heap.length with
    | zero =>
      rw [hpl] at hp
      simp at hp
    | succ n =>
      rw [hpl] at hp
      simp at hp

/-- Every call keeps the registry consistent. -/
theorem consistent_step {s : FileDescriptorManager} (hc : Consistent s) (op : Op) :
    Consistent (step s op) := by
  obtain ⟨hkeys, hlive⟩ := hc
  rcases hlive with hlive | ⟨hdis, hmap⟩
  · cases op with
    | add d =>
      simp only [step]
      by_cases hv : 0 ≤ d ∧ s._disposed = false
      · obtain ⟨hd, hdis⟩ := hv
        have hmap := add_descriptors hd hdis
        constructor
        · intro k q hq
          rw [hmap, StdMap.find_assign] at hq
          by_cases hk : k = d
          · rw [hk]
            exact hd
          · rw [if_neg hk] at hq
            exact hkeys k q hq
        · left
          intro p hp
          have hplt := lt_length_of_descriptorOf hp
          rw [add_length] at hplt
          rw [hmap, StdMap.find_assign]
          by_cases hpl : p = s.heap.length
          · subst hpl
            simp [descriptorOf_add_new hd hdis]
          · have hp' : p < s.heap.length := by omega
            rw [descriptorOf_add_old s d hp'] at hp ⊢
            by_cases hf : StdMap.find d s._descriptors = some p
            · simp [hd, hdis, hf] at hp
            · simp only [hf, and_false, if_false] at hp ⊢
              have hfp := hlive p hp
              have hne : descriptorOf s p ≠ d := by
                intro e
                rw [e] at hfp
                exact hf hfp
              simp [hne, hfp]
      · have hv' : d < 0 ∨ s._disposed = true := by
          by_cases h0 : 0 ≤ d
          · right
            cases hdis : s._disposed with
            | true => rfl
            | false => exact absurd ⟨h0, hdis⟩ hv
          · left
            omega
        rw [add_of_invalid hv']
        constructor
        · exact hkeys
        · left
          intro p hp
          have e := descriptorOf_alloc_default s p hp
          rw [e] at hp ⊢
          exact hlive p hp
    | close h =>
      simp only [step]
      cases hr : registered s h with
      | none =>
        rw [close_of_none hr]
        exact ⟨hkeys, Or.inl hlive⟩
      | some o =>
        obtain ⟨hheap, hmap, _⟩ := close_of_some hr
        obtain ⟨ho, hd⟩ := registered_eq_some hr
        have hdh : descriptorOf s h = o.descriptor := by simp [descriptorOf, ho]
        constructor
        · intro k q hq
          rw [hmap, StdMap.find_erase] at hq
          by_cases hk : k = o.descriptor
          · rw [hk]
            exact hd
          · rw [if_neg hk] at hq
            exact hkeys k q hq
        · left
          intro p hp
          rw [descriptorOf_release hr hheap] at hp ⊢
          by_cases hph : p = h
          · simp [hph] at hp
          · simp only [hph, if_false] at hp ⊢
            have hfp := hlive p hp
            have hne : descriptorOf s p ≠ o.descriptor := by
              intro e
              have hfh := hlive h (by rw [hdh]; exact hd)
              rw [hdh, ← e, hfp] at hfh
              simp only [Option.some.injEq] at hfh
              exact hph hfh
            rw [hmap, StdMap.find_erase]
            simp [hne, hfp]
    | shutdown h =>
      simp only [step]
      cases hr : registered s h with
      | none =>
        rw [shutdown_of_none hr]
        exact ⟨hkeys, Or.inl hlive⟩
      | some o =>
        obtain ⟨hheap, hmap, _⟩ := shutdown_of_some hr
        obtain ⟨ho, hd⟩ := registered_eq_some hr
        have hdh : descriptorOf s h = o.descriptor := by simp [descriptorOf, ho]
        constructor
        · intro k q hq
          rw [hmap, StdMap.find_erase] at hq
          by_cases hk : k = o.descriptor
          · rw [hk]
            exact hd
          · rw [if_neg hk] at hq
            exact hkeys k q hq
        · left
          intro p hp
          rw [descriptorOf_release hr hheap] at hp ⊢
          by_cases hph : p = h
          · simp [hph] at hp
          · simp only [hph, if_false] at hp ⊢
            have hfp := hlive p hp
            have hne : descriptorOf s p ≠ o.descriptor := by
              intro e
              have hfh := hlive h (by rw [hdh]; exact hd)
              rw [hdh, ← e, hfp] at hfh
              simp only [Option.some.injEq] at hfh
              exact hph hfh
            rw [hmap, StdMap.find_erase]
            simp [hne, hfp]
    | setTlsSession h t =>
      simp only [step, setTlsSession]
      cases ho : s.heap[h]? with
      | none => exact ⟨hkeys, Or.inl hlive⟩
      | some o =>
        have hdesc : ∀ p, descriptorOf
            { s with heap := s.heap.set h { o with tlsSession := t } } p = descriptorOf s p :=
          fun p => descriptorOf_set_field s h o { o with tlsSession := t } ho rfl p
        constructor
        · exact hkeys
        · left
          intro p hp
          rw [hdesc] at hp ⊢
          exact hlive p hp
    | remove h =>
      simp only [step, remove]
      cases hr : registered s h with
      | none => exact ⟨hkeys, Or.inl hlive⟩
      | some o =>
        obtain ⟨ho, _⟩ := registered_eq_some hr
        have hlt : h < s.heap.length := by
          rcases List.getElem?_eq_some.mp ho with ⟨hlt, _⟩
          exact hlt
        have hnone : StdMap.find (-1) s._descriptors = none := by
          cases hf : StdMap.find (-1) s._descriptors with
          | none => rfl
          | some q => exact absurd (hkeys (-1) q hf) (by decide)
        simp only [erase_of_find_none (-1) s._descriptors hnone]
        constructor
        · exact hkeys
        · left
          intro p hp
          have hdp : descriptorOf { s with heap := s.heap.set h { o with descriptor := -1 } } p
              = if p = h then -1 else descriptorOf s p := by
            simp only [descriptorOf, List.getElem?_set]
            by_cases e : h = p
            · subst e
              simp [hlt]
            · have e' : ¬ p = h := fun x => e x.symm
              simp [e, e']
          rw [hdp] at hp ⊢
          by_cases hph : p = h
          · simp [hph] at hp
          · simp only [hph, if_false] at hp ⊢
            exact hlive p hp
    | dispose =>
      constructor
      · intro k q hq
        simp [step, dispose, StdMap.find] at hq
      · right
        exact ⟨rfl, rfl⟩
  · obtain ⟨h1, h2⟩ := step_disposed hdis hmap op
    constructor
    · intro k q hq
      rw [h2] at hq
      simp [StdMap.find] at hq
    · right
      exact ⟨h1, h2⟩

theorem consistent_run (ops : List Op) {s : FileDescriptorManager} (hc : Consistent s) :
    Consistent (run s ops) := by
  induction ops generalizing s with
  | nil => exact hc
  | cons op rest ih => exact ih (consistent_step hc op)

/-- C17: `remove(h)` on a valid handle `h` registered under raw descriptor `d`, in any
state reached from a fresh manager by any calls, writes `-1` into the handle's descriptor
and erases by that sentinel key; no map key is negative, so nothing is erased: afterwards
the map is unchanged and still holds `d -> h`, `get(d)` returns `h` and `isValid(d, id)`
is true for the id of `h`, while `isValid(h)` is false. -/
theorem remove_keeps_map_entry (ops : List Op) (h : Nat)
    (hv : isValid (run init ops) h = true) :
    descriptorOf (remove (run init ops) h) h = -1 ∧
    (remove (run init ops) h)._descriptors = StdMap.erase (-1) (run init ops)._descriptors ∧
    (∀ k q, StdMap.find k (run init ops)._descriptors = some q → 0 ≤ k) ∧
    (remove (run init ops) h)._descriptors = (run init ops)._descriptors ∧
    StdMap.find (descriptorOf (run init ops) h) (remove (run init ops) h)._descriptors
      = some h ∧
    get (remove (run init ops) h) (descriptorOf (run init ops) h) = some h ∧
    idOf (remove (run init ops) h) h = idOf (run init ops) h ∧
    isValidId (remove (run init ops) h) (descriptorOf (run init ops) h)
      (idOf (run init ops) h) = true ∧
    isValid (remove (run init ops) h) h = false := by
  have hc : Consistent (run init ops) := consistent_run ops consistent_init
  generalize run init ops = s at *
  obtain ⟨o, hr, ho, hd, hdh, _⟩ := registered_of_isValid hv
  obtain ⟨hkeys, hlive⟩ := hc
  have hnone : StdMap.find (-1) s._descriptors = none := by
    cases hf : StdMap.find (-1) s._descriptors with
    | none => rfl
    | some q => exact absurd (hkeys (-1) q hf) (by decide)
  have hfind : StdMap.find o.descriptor s._descriptors = some h := by
    rcases hlive with hlive | ⟨_, hmap⟩
    · have := hlive h (by rw [hdh]; exact hd)
      rw [hdh] at this
      exact this
    · rw [isValid_of_empty hmap h] at hv
      exact Bool.noConfusion hv
  have hheap : (remove s h).heap = s.heap.set h { o with descriptor := -1 } := by
    simp [remove, hr]
  have hmap1 : (remove s h)._descriptors = StdMap.erase (-1) s._descriptors := by
    simp [remove, hr]
  have hmap : (remove s h)._descriptors = s._descriptors := by
    rw [hmap1, erase_of_find_none _ _ hnone]
  have hself : (remove s h).heap[h]? = some { o with descriptor := -1 } := by
    rw [hheap]
    exact heap_set_self ho
  have hdesc : descriptorOf (remove s h) h = -1 := by
    simp [descriptorOf, hself]
  have hid : idOf s h = o.id := by simp [idOf, ho]
  have hnn : ¬ o.descriptor < 0 := by omega
  rw [hdh]
  refine ⟨hdesc, hmap1, hkeys, hmap, ?_, ?_, ?_, ?_, ?_⟩
  · rw [hmap]
    exact hfind
  · simp [get, hnn, hmap, hfind]
  · simp [idOf, hself, ho]
  · simp [isValidId, hnn, hmap, hfind, entryHasId, hself, hid]
  · exact isValid_eq_false_of_neg (by rw [hdesc]; decide)

/-- C17, at a concrete run: descriptor `5` is added and its handle removed; the map still
binds `5` to the handle. -/
theorem remove_keeps_map_entry_witness :
    get (remove (run init [Op.add 5]) 0) (descriptorOf (run init [Op.add 5]) 0) = some 0 ∧
      isValid (remove (run init [Op.add 5]) 0) 0 = false :=
  ⟨(remove_keeps_map_entry [Op.add 5] 0 (by decide)).2.2.2.2.2.1,
    (remove_keeps_map_entry [Op.add 5] 0 (by decide)).2.2.2.2.2.2.2.2⟩

theorem idOf_set_field (s : FileDescriptorManager) (h : Nat) (o o' : FileDescriptor)
    (ho : s.heap[h]? = some o) (hid : o'.id = o.id) (p : Nat) :
    idOf { s with heap := s.heap.set h o' } p = idOf s p := by
  have hlt : h < s.heap.length := by
    rcases List.getElem?_eq_some.mp ho with ⟨hlt, _⟩
    exact hlt
  simp only [idOf, List.getElem?_set]
  by_cases e : h = p
  · subst e
    simp [hlt, ho, hid]
  · simp [e]

theorem idOf_of_heap {s s' : FileDescriptorManager} {h : Nat} {o o' : FileDescriptor}
    (ho : s.heap[h]? = some o) (hheap : s'.heap = s.heap.set h o') (hid : o'.id = o.id)
    (p : Nat) : idOf s' p = idOf s p := by
  have := idOf_set_field s h o o' ho hid p
  simpa [idOf, hheap] using this

theorem idOf_addInvalidateOld (s : FileDescriptorManager) (d : Int) (p : Nat) :
    idOf (addInvalidateOld s d) p = idOf s p := by
  unfold idOf
  rw [addInvalidateOld_heap]
  cases hf : StdMap.find d s._descriptors with
  | none => simp
  | some q =>
    cases hq : s.heap[q]? with
    | none => simp [hq]
    | some o =>
      have := idOf_set_field s q o (cleared o) hq rfl p
      simpa [idOf, hq] using this

/-- No call changes the id of an existing handle, and the counter either stays or is
incremented. -/
theorem idOf_step (s : FileDescriptorManager) (op : Op) {p : Nat} (hp : p < s.heap.length) :
    idOf (step s op) p = idOf s p ∧
      ((step s op)._currentID = s._currentID ∨
        (step s op)._currentID = (s._currentID + 1) % 2 ^ 32) := by
  cases op with
  | add d =>
    simp only [step]
    unfold add
    split
    · exact ⟨by simp [idOf, alloc, List.getElem?_append_left hp], Or.inl rfl⟩
    · have hp' : p < (addInvalidateOld s d).heap.length := by
        rw [addInvalidateOld_length]
        exact hp
      refine ⟨?_, Or.inr ?_⟩
      · rw [← idOf_addInvalidateOld s d p]
        simp [idOf, addInsertNew, List.getElem?_append_left hp']
      · have : (addInvalidateOld s d)._currentID = s._currentID := by
          unfold addInvalidateOld
          split
          · rfl
          · split
            · rfl
            · split <;> rfl
        simp [addInsertNew, this]
  | close h =>
    simp only [step]
    cases hr : registered s h with
    | none =>
      rw [close_of_none hr]
      exact ⟨rfl, Or.inl rfl⟩
    | some o =>
      obtain ⟨ho, _⟩ := registered_eq_some hr
      exact ⟨idOf_of_heap ho (close_of_some hr).1 rfl p, Or.inl (by simp [close, hr])⟩
  | shutdown h =>
    simp only [step]
    cases hr : registered s h with
    | none =>
      rw [shutdown_of_none hr]
      exact ⟨rfl, Or.inl rfl⟩
    | some o =>
      obtain ⟨ho, _⟩ := registered_eq_some hr
      exact ⟨idOf_of_heap ho (shutdown_of_some hr).1 rfl p, Or.inl (by simp [shutdown, hr])⟩
  | setTlsSession h t =>
    simp only [step, setTlsSession]
    cases ho : s.heap[h]? with
    | none => exact ⟨rfl, Or.inl rfl⟩
    | some o =>
      exact ⟨idOf_set_field s h o { o with tlsSession := t } ho rfl p, Or.inl rfl⟩
  | remove h =>
    simp only [step, remove]
    cases hr : registered s h with
    | none => exact ⟨rfl, Or.inl rfl⟩
    | some o =>
      obtain ⟨ho, _⟩ := registered_eq_some hr
      exact ⟨idOf_set_field s h o { o with descriptor := -1 } ho rfl p, Or.inl rfl⟩
  | dispose => exact ⟨rfl, Or.inl rfl⟩

theorem idOf_run (ops : List Op) (s : FileDescriptorManager) {p : Nat}
    (hp : p < s.heap.length) (hc : s._currentID + ops.length < 2 ^ 32) :
    idOf (run s ops) p = idOf s p ∧ s._currentID ≤ (run s ops)._currentID ∧
      (run s ops)._currentID ≤ s._currentID + ops.length := by
  induction ops generalizing s with
  | nil => exact ⟨rfl, le_refl _, le_refl _⟩
  | cons op rest ih =>
    obtain ⟨h1, h2⟩ := idOf_step s op hp
    have hp1 := (descriptorOf_step s op hp).1
    simp only [List.length_cons] at hc ⊢
    have hlt : s._currentID + 1 < 2 ^ 32 := by omega
    have hbound : s._currentID ≤ (step s op)._currentID ∧
        (step s op)._currentID ≤ s._currentID + 1 := by
      rcases h2 with e | e
      · rw [e]
        omega
      · rw [e, Nat.mod_eq_of_lt hlt]
        omega
    obtain ⟨g1, g2, g3⟩ := ih (step s op) hp1 (by omega)
    have hrun : run s (op :: rest) = run (step s op) rest := rfl
    rw [hrun]
    exact ⟨g1.trans h1, by omega, by omega⟩

/-- C18: an `add` with a non-negative raw descriptor on a registry that is not disposed
returns a fresh handle (an address no earlier handle has) carrying the raw descriptor and,
as id, the value of the counter, which is then incremented modulo `2 ^ 32`. Hence, when
the counter stays below `2 ^ 31` (no wrap-around), a later successful `add`, after any
calls in between, returns a different handle with a strictly greater id, also for the
same raw descriptor. -/
theorem add_assigns_increasing_ids (s : FileDescriptorManager) (mid : List Op)
    (d1 d2 : Int) (hd1 : 0 ≤ d1) (hd2 : 0 ≤ d2) (hdis1 : s._disposed = false)
    (hdis2 : (run (add s d1).1 mid)._disposed = false)
    (hwrap : s._currentID + mid.length + 2 ≤ 2 ^ 31) :
    (add s d1).2 = s.heap.length ∧
    (add s d1).1.heap[(add s d1).2]?
      = some { id := toInt32 s._currentID, descriptor := d1, tlsSession := none } ∧
    (add s d1).1._currentID = (s._currentID + 1) % 2 ^ 32 ∧
    idOf (add s d1).1 (add s d1).2 = s._currentID ∧
    (add s d1).2 ≠ (add (run (add s d1).1 mid) d2).2 ∧
    idOf (add (run (add s d1).1 mid) d2).1 (add s d1).2
      < idOf (add (run (add s d1).1 mid) d2).1 (add (run (add s d1).1 mid) d2).2 := by
  have h32 : (2 : Nat) ^ 31 < 2 ^ 32 := by norm_num
  have hnew : ∀ (t : FileDescriptorManager) (d : Int), 0 ≤ d → t._disposed = false →
      (add t d).1.heap[(add t d).2]?
        = some { id := toInt32 t._currentID, descriptor := d, tlsSession := none } ∧
      (add t d).1._currentID = (t._currentID + 1) % 2 ^ 32 := by
    intro t d hd hdis
    have hl := addInvalidateOld_length t d
    have hcur : (addInvalidateOld t d)._currentID = t._currentID := by
      unfold addInvalidateOld
      split
      · rfl
      · split
        · rfl
        · split <;> rfl
    rw [add_of_valid hd hdis]
    constructor
    · simp [addInsertNew, hcur]
    · simp [addInsertNew, hcur]
  have hint : ∀ n : Nat, n < 2 ^ 31 → toInt32 n = (n : Int) := by
    intro n hn
    have h1 : n % 2 ^ 32 = n := Nat.mod_eq_of_lt (by omega)
    unfold toInt32
    rw [h1, if_pos hn]
  obtain ⟨a1, a2⟩ := hnew s d1 hd1 hdis1
  have hid1 : idOf (add s d1).1 (add s d1).2 = s._currentID := by
    simp only [idOf, a1]
    exact hint _ (by omega)
  have hlt1 : (add s d1).2 < (add s d1).1.heap.length := by
    rw [add_snd, add_length]
    omega
  have hc1 : (add s d1).1._currentID = s._currentID + 1 := by
    rw [a2, Nat.mod_eq_of_lt (by omega)]
  obtain ⟨r1, r2, r3⟩ := idOf_run mid (add s d1).1 hlt1 (by rw [hc1]; omega)
  have hlt2 := lt_length_run mid (add s d1).1 hlt1
  obtain ⟨b1, _⟩ := hnew (run (add s d1).1 mid) d2 hd2 hdis2
  have hid2 : idOf (add (run (add s d1).1 mid) d2).1 (add (run (add s d1).1 mid) d2).2
      = (run (add s d1).1 mid)._currentID := by
    simp only [idOf, b1]
    exact hint _ (by rw [hc1] at r3; omega)
  have hkeep : idOf (add (run (add s d1).1 mid) d2).1 (add s d1).2
      = idOf (run (add s d1).1 mid) (add s d1).2 :=
    (idOf_step (run (add s d1).1 mid) (Op.add d2) hlt2).1
  refine ⟨add_snd s d1, a1, a2, hid1, ?_, ?_⟩
  · rw [add_snd (run (add s d1).1 mid) d2]
    omega
  · rw [hkeep, r1, hid1, hid2]
    rw [hc1] at r2
    exact_mod_cast (by omega : s._currentID < (run (add s d1).1 mid)._currentID)

/-- C18, at a concrete run: descriptor `5` is added, closed and added again; the two
handles differ and the second has the greater id. -/
theorem add_assigns_increasing_ids_witness :
    (add init 5).2 ≠ (add (run (add init 5).1 [Op.close 0]) 5).2 ∧
      idOf (add (run (add init 5).1 [Op.close 0]) 5).1 (add init 5).2
        < idOf (add (run (add init 5).1 [Op.close 0]) 5).1
            (add (run (add init 5).1 [Op.close 0]) 5).2 :=
  (add_assigns_increasing_ids init [Op.close 0] 5 5 (by decide) (by decide) rfl
    (by decide) (by decide)).2.2.2.2

/-- A handle that is valid stays valid when a further handle object is allocated. -/
theorem isValid_alloc_of_isValid (s : FileDescriptorManager) (o' : FileDescriptor) (p : Nat)
    (hv : isValid s p = true) : isValid (alloc s o').1 p = true := by
  have hget : ∀ (q : Nat) (e : FileDescriptor), s.heap[q]? = some e →
      (alloc s o').1.heap[q]? = some e := by
    intro q e hq
    have hlt : q < s.heap.length := by
      rcases List.getElem?_eq_some.mp hq with ⟨h, _⟩
      exact h
    show (s.heap ++ [o'])[q]? = some e
    rw [List.getElem?_append_left hlt, hq]
  unfold isValid at hv ⊢
  cases hp : s.heap[p]? with
  | none => simp [hp] at hv
  | some o =>
    rw [hp] at hv
    rw [hget p o hp]
    simp only at hv ⊢
    by_cases hneg : o.descriptor < 0
    · simp [hneg] at hv
    · rw [if_neg hneg] at hv ⊢
      show (match StdMap.find o.descriptor s._descriptors with
        | some q => entryHasId (alloc s o').1 q o.id
        | none => false) = true
      cases hf : StdMap.find o.descriptor s._descriptors with
      | none => simp [hf] at hv
      | some q =>
        rw [hf] at hv
        simp only at hv ⊢
        unfold entryHasId at hv ⊢
        cases hq : s.heap[q]? with
        | none => simp [hq] at hv
        | some e =>
          rw [hq] at hv
          rw [hget q e hq]
          exact hv

/-- The handle object that `alloc` creates from the default handle is the invalid
placeholder. -/
theorem descriptorOf_alloc_new (s : FileDescriptorManager) :
    descriptorOf (alloc s {}).1 (alloc s {}).2 = -1 := by
  show descriptorOf { s with heap := s.heap ++ [{}] } s.heap.length = -1
  unfold descriptorOf
  simp

end FileDescriptorManager

/-! ## Theorems on the hand-over of a connection and on the reader loop -/

namespace HttpServer

/-- The hand-over of a connection whose handle is valid: the socket is passed to
`addWebSocketServer`, the record is flagged closed and gets a fresh placeholder handle; no
call is issued on the descriptor, the registry map is as before and the original handle
stays valid. -/
theorem transferToRpcClient_effects (s : HttpServer) (client : Client)
    (hv : FileDescriptorManager.isValid s.fdm client.socketDescriptor = true) :
    (transferToRpcClient s client).1.actions
      = s.actions ++ [ServerAction.addWebSocketServer client.socket client.webSocketClientId
          client.address client.nodeClient] ∧
    (transferToRpcClient s client).2.closed = true ∧
    (transferToRpcClient s client).2.socketDescriptor ≠ client.socketDescriptor ∧
    FileDescriptorManager.descriptorOf (transferToRpcClient s client).1.fdm
      (transferToRpcClient s client).2.socketDescriptor = -1 ∧
    (transferToRpcClient s client).1.fdm.sysCalls = s.fdm.sysCalls ∧
    (transferToRpcClient s client).1.fdm._descriptors = s.fdm._descriptors ∧
    FileDescriptorManager.isValid (transferToRpcClient s client).1.fdm
      client.socketDescriptor = true := by
  have hlt : client.socketDescriptor < s.fdm.heap.length :=
    FileDescriptorManager.lt_length_of_descriptorOf
      (FileDescriptorManager.descriptorOf_of_isValid hv)
  refine ⟨rfl, rfl, ?_, FileDescriptorManager.descriptorOf_alloc_new s.fdm, rfl, rfl,
    FileDescriptorManager.isValid_alloc_of_isValid s.fdm {} _ hv⟩
  show s.fdm.heap.length ≠ client.socketDescriptor
  omega

/-- The end of `readClient` for a record whose handle is a placeholder: nothing is written,
no call is issued, the server is as before. -/
theorem readClientExit_placeholder (codecs : Codecs) (s : HttpServer) (client : Client)
    (w : WriteOutcome)
    (hneg : FileDescriptorManager.descriptorOf s.fdm client.socketDescriptor < 0) :
    readClientExit codecs s client w = (s, { client with closed := true }) := by
  have hinvalid : clientValid s client = false := by
    unfold clientValid
    rw [if_pos hneg]
  have hsend : ∀ data, sendRPCResponseToClient s client data false w = (s, client) := by
    intro data
    unfold sendRPCResponseToClient
    split
    · rfl
    · rw [hinvalid]
      rfl
  have hclose : closeClientConnection s client = (s, { client with closed := true }) := by
    unfold closeClientConnection
    rw [FileDescriptorManager.shutdown_of_none (FileDescriptorManager.registered_of_neg hneg)]
  unfold readClientExit
  split
  · rw [hsend]
    exact hclose
  · exact hclose

/-- A valid handle makes the client valid for the server. -/
theorem clientValid_of_isValid (s : HttpServer) (client : Client)
    (hv : FileDescriptorManager.isValid s.fdm client.socketDescriptor = true) :
    clientValid s client = true := by
  have h := FileDescriptorManager.descriptorOf_of_isValid hv
  unfold clientValid
  rw [if_neg (not_lt.mpr h)]

/-- The hand-over as the last step of a pass: what `transferToRpcClient` leaves is handed
over in the sense of `HandedOver`, given that the server before it differs from `s` in the
recorded writes only. -/
theorem handedOver_of_transfer (codecs : Codecs) (s s1 : HttpServer) (client c1 : Client)
    (written : List ServerAction)
    (hv : FileDescriptorManager.isValid s.fdm client.socketDescriptor = true)
    (hfdm : s1.fdm = s.fdm) (hact : s1.actions = s.actions ++ written)
    (hsock : c1.socket = client.socket) (haddr : c1.address = client.address)
    (hdesc : c1.socketDescriptor = client.socketDescriptor) :
    HandedOver codecs s client (transferToRpcClient s1 c1) written := by
  have hv1 : FileDescriptorManager.isValid s1.fdm c1.socketDescriptor = true := by
    rw [hfdm, hdesc]
    exact hv
  obtain ⟨h1, h2, h3, h4, h5, _, h7⟩ := transferToRpcClient_effects s1 c1 hv1
  refine ⟨?_, h2, h4, ?_, ?_, ?_, ?_⟩
  · rw [h1, hact, hsock, haddr]
    rfl
  · rw [← hdesc]
    exact h3
  · rw [h5, hfdm]
  · rw [← hdesc]
    exact h7
  · intro w
    rw [readClientExit_placeholder codecs _ _ w (by rw [h4]; decide)]
    rfl

/-- A client-role upgrade with websocket auth type `none` whose response write does not
raise a socket-operation error: the response is written and the connection handed over. -/
theorem handleConnectionUpgrade_client_handover (s : HttpServer) (client : Client)
    (http : HttpHeader) (w : WriteOutcome) (key protocol pathProtocol : String)
    (hup : (StdMap.find "upgrade" http.fields).map HelperFunctions.toLower
      = some "websocket")
    (hkey : StdMap.find "sec-websocket-key" http.fields = some key)
    (hind : ¬ (StdMap.find "sec-websocket-protocol" http.fields = none
      ∧ (http.path = "" ∨ http.path = "/")))
    (hprot : protocol = HelperFunctions.toLower
      ((StdMap.find "sec-websocket-protocol" http.fields).getD ""))
    (hpath : pathProtocol = (resolvePath http.path client.webSocketClientId).1)
    (hnoserver : ¬ (protocol = "server" ∨ pathProtocol = "server" ∨ protocol = "nodeserver"
      ∨ pathProtocol = "nodeserver"))
    (hclient : protocol = "client" ∨ pathProtocol = "client" ∨ protocol = "nodeclient"
      ∨ pathProtocol = "nodeclient")
    (hauth : s.websocketAuthType = AuthType.none)
    (hrun : s._stopped = false) (hvalid : clientValid s client = true)
    (hw : w ≠ WriteOutcome.operationException) :
    handleConnectionUpgrade s client http w
      = transferToRpcClient
          { s with
            actions := s.actions ++ [ServerAction.proofwrite client.id client.socket
              (switchingProtocolsHeader (websocketAccept key) protocol)] }
          { client with
            webSocketClientId :=
              HelperFunctions.toLower (resolvePath http.path client.webSocketClientId).2
            rpcType := RpcType.websocket
            webSocketClient := true
            nodeClient :=
              if protocol = "nodeclient" ∨ pathProtocol = "nodeclient" then true
              else client.nodeClient } := by
  subst hprot hpath
  have hne := switchingProtocolsHeader_ne_empty (websocketAccept key)
    (HelperFunctions.toLower ((StdMap.find "sec-websocket-protocol" http.fields).getD ""))
  unfold handleConnectionUpgrade
  rw [if_pos hup, if_neg hind, hkey]
  simp only []
  rw [if_neg hnoserver, if_pos hclient]
  have hv1 : clientValid s
      { client with
        webSocketClientId :=
          HelperFunctions.toLower (resolvePath http.path client.webSocketClientId).2
        rpcType := RpcType.websocket
        webSocketClient := true
        nodeClient :=
          if HelperFunctions.toLower
                ((StdMap.find "sec-websocket-protocol" http.fields).getD "") = "nodeclient"
              ∨ (resolvePath http.path client.webSocketClientId).1 = "nodeclient" then true
          else client.nodeClient } = true := hvalid
  rw [sendRPCResponseToClient_eq s _ _ true w hrun hv1 hne]
  cases w
  · simp only [Bool.not_true, Bool.false_eq_true, if_false]
    rw [if_pos hauth]
    rfl
  · simp only [Bool.not_true, Bool.false_eq_true, if_false]
    rw [if_pos hauth]
    rfl
  · exact absurd rfl hw
  · simp only
    rw [if_pos hauth]
    rfl

/-- C24: the hand-over of a client-role connection releases the socket without closing it.
For a running server and a record whose handle is valid in the registry: (1) when a
client-role upgrade (key and indicator present, sub-protocol or path role `client` or
`nodeclient` and none of them a server role) is handled with websocket auth type `none` and
the write of the `101` response raises no socket-operation error, and (2) when, with auth
type `basic` or `session`, the authentication check accepts a frame of a not yet authorised
client-role connection, in which case the reader loop is left: the socket is passed to
`addWebSocketServer` with the record's id, the record is flagged closed, its handle is
replaced by a fresh placeholder, no `shutdown` or `close` is issued, the original handle
stays valid in the registry, and the end of `readClient` (close frame and
`closeClientConnection`) changes nothing: no call and no write. -/
theorem client_handover_keeps_socket_open (codecs : Codecs) (s : HttpServer)
    (client : Client) (hrun : s._stopped = false)
    (hv : FileDescriptorManager.isValid s.fdm client.socketDescriptor = true) :
    (∀ (http : HttpHeader) (w : WriteOutcome) (key protocol pathProtocol : String),
      (StdMap.find "upgrade" http.fields).map HelperFunctions.toLower = some "websocket" →
      StdMap.find "sec-websocket-key" http.fields = some key →
      ¬ (StdMap.find "sec-websocket-protocol" http.fields = none
        ∧ (http.path = "" ∨ http.path = "/")) →
      protocol = HelperFunctions.toLower
        ((StdMap.find "sec-websocket-protocol" http.fields).getD "") →
      pathProtocol = (resolvePath http.path client.webSocketClientId).1 →
      ¬ (protocol = "server" ∨ pathProtocol = "server" ∨ protocol = "nodeserver"
        ∨ pathProtocol = "nodeserver") →
      (protocol = "client" ∨ pathProtocol = "client" ∨ protocol = "nodeclient"
        ∨ pathProtocol = "nodeclient") →
      s.websocketAuthType = AuthType.none →
      w ≠ WriteOutcome.operationException →
      HandedOver codecs s client (handleConnectionUpgrade s client http w)
        [ServerAction.proofwrite client.id client.socket
          (switchingProtocolsHeader (websocketAccept key) protocol)]) ∧
    (∀ (frame : WebSocketFrame) (packetType : PacketType) (env : DispatchEnv),
      frame.close = false →
      (s.websocketAuthType = AuthType.basic ∨ s.websocketAuthType = AuthType.session) →
      client.webSocketAuthorized = false →
      client.webSocketClient = true →
      (readClientWebSocketFrame codecs s client frame packetType AuthOutcome.accepted env).2
        = LoopControl.exit ∧
      HandedOver codecs s client
        (readClientWebSocketFrame codecs s client frame packetType AuthOutcome.accepted env).1
        []) := by
  constructor
  · intro http w key protocol pathProtocol hup hkey hind hprot hpath hnoserver hclient hauth
      hw
    rw [handleConnectionUpgrade_client_handover s client http w key protocol pathProtocol
      hup hkey hind hprot hpath hnoserver hclient hauth hrun
      (clientValid_of_isValid s client hv) hw]
    exact handedOver_of_transfer codecs s _ client _ _ hv rfl rfl rfl rfl rfl
  · intro frame packetType env hopen hauth hun hcl
    have e : readClientWebSocketFrame codecs s client frame packetType AuthOutcome.accepted
        env = (transferToRpcClient s { client with webSocketAuthorized := true },
          LoopControl.exit) := by
      unfold readClientWebSocketFrame
      rw [if_neg (by simp [hopen]), if_pos ⟨hauth, hun⟩]
      simp only []
      rw [if_pos hcl]
    rw [e]
    refine ⟨rfl, ?_⟩
    exact handedOver_of_transfer codecs s s client _ [] hv rfl (by simp) rfl rfl rfl

set_option maxRecDepth 100000 in
/-- C24, at concrete requests on the sample server (one connection on raw descriptor `10`):
an upgrade with path `/client/abc` and auth type `none`, and an accepted frame of a
client-role connection with auth type `session`. In both the socket is passed on with the
record flagged closed, and the registry has issued no call. -/
theorem client_handover_keeps_socket_open_witness :
    FileDescriptorManager.isValid sampleServer.fdm sampleClient.socketDescriptor = true ∧
      (handleConnectionUpgrade sampleServer sampleClient
        { path := "/client/abc"
          fields :=
            [("sec-websocket-key", "dGhlIHNhbXBsZSBub25jZQ=="), ("upgrade", "websocket")] }
        WriteOutcome.ok).1.fdm.sysCalls = [] ∧
      (readClientWebSocketFrame sampleCodecs
        { sampleServer with websocketAuthType := AuthType.session }
        { sampleClient with rpcType := RpcType.websocket, webSocketClient := true }
        { content := "auth" } PacketType.webSocketRequest AuthOutcome.accepted {}).1.1.actions
        = [ServerAction.addWebSocketServer (some 0) "" "" false] :=
  ⟨by decide,
    (((client_handover_keeps_socket_open sampleCodecs sampleServer sampleClient rfl
        (by decide)).1
      { path := "/client/abc"
        fields :=
          [("sec-websocket-key", "dGhlIHNhbXBsZSBub25jZQ=="), ("upgrade", "websocket")] }
      WriteOutcome.ok "dGhlIHNhbXBsZSBub25jZQ==" "" "client" (by decide) (by decide)
      (by decide) (by decide) (by decide) (by decide) (by decide) (by decide)
      (by decide)).noCalls).trans (by decide),
    (((client_handover_keeps_socket_open sampleCodecs
        { sampleServer with websocketAuthType := AuthType.session }
        { sampleClient with rpcType := RpcType.websocket, webSocketClient := true } rfl
        (by decide)).2
      { content := "auth" } PacketType.webSocketRequest {} rfl (Or.inr rfl) rfl rfl).2.passed).trans
      (by decide)⟩

/-- The final `else` of the framing chain is never taken. -/
theorem framingBranch_ne_uninterpretable (r : ReaderState) (buffer : String) :
    framingBranch r buffer ≠ FramingBranch.uninterpretable := by
  unfold framingBranch
  cases r.binaryRpc.processingStarted <;> cases r.http.headerProcessingStarted <;>
    cases r.webSocket.dataProcessingStarted <;> cases strncmpIsZero buffer "Bin" 3 <;> simp

/-- The branch of the framing chain when no parser has started. -/
theorem framingBranch_idle (r : ReaderState) (buffer : String)
    (hb : r.binaryRpc.processingStarted = false)
    (hh : r.http.headerProcessingStarted = false)
    (hw : r.webSocket.dataProcessingStarted = false) :
    framingBranch r buffer
      = if strncmpIsZero buffer "Bin" 3 = true then FramingBranch.binary
        else FramingBranch.sniff := by
  unfold framingBranch
  rw [hb, hh, hw]
  cases strncmpIsZero buffer "Bin" 3 <;> simp

/-- C28: the branch `Uninterpretable packet received. Closing connection.` of the framing
chain of `readClient` is unreachable: for every state of the three parsers and every
buffer one of the three conditions before it holds. So a pass that reads bytes none of
the sniffed prefixes matches, on a valid connection that is not a WebSocket connection,
with no parser started and no finished HTTP message pending, changes nothing and goes on
with the next pass: the bytes are skipped and the connection is not closed. -/
theorem uninterpretable_branch_unreachable (codecs : Codecs) (info : ServerInfo)
    (s : HttpServer) (client : Client) (r : ReaderState) (env : ReaderEnv)
    (hread : env.read = ReadOutcome.data) (hvalid : clientValid s client = true)
    (hb : r.binaryRpc.processingStarted = false)
    (hh : r.http.headerProcessingStarted = false)
    (hw : r.webSocket.dataProcessingStarted = false)
    (hfin : r.http.finished = false)
    (hbin : strncmpIsZero env.buffer "Bin" 3 = false)
    (hget : strncmpIsZero env.buffer "GET " 4 = false)
    (hhead : strncmpIsZero env.buffer "HEAD " 5 = false)
    (hpost : strncmpIsZero env.buffer "POST" 4 = false)
    (hhttp : strncmpIsZero env.buffer "HTTP/1." 7 = false)
    (hrpc : client.rpcType ≠ RpcType.websocket) :
    (∀ (r' : ReaderState) (buffer : String),
      framingBranch r' buffer ≠ FramingBranch.uninterpretable) ∧
    (∀ (r' : ReaderState) (buffer : String),
      framingBranch r' buffer = FramingBranch.binary
        ∨ framingBranch r' buffer = FramingBranch.sniff
        ∨ framingBranch r' buffer = FramingBranch.continuation) ∧
    readClientPass codecs info s client r env = some ((s, client), r, LoopControl.next) := by
  refine ⟨framingBranch_ne_uninterpretable, ?_, ?_⟩
  · intro r' buffer
    have h := framingBranch_ne_uninterpretable r' buffer
    cases hf : framingBranch r' buffer
    · exact Or.inl rfl
    · exact Or.inr (Or.inl rfl)
    · exact Or.inr (Or.inr rfl)
    · exact absurd hf h
  · have hbranch : framingBranch r env.buffer = FramingBranch.sniff := by
      rw [framingBranch_idle r env.buffer hb hh hw, hbin]
      rfl
    have hsniff : readClientSniff info s client r env = ((s, client), r, none) := by
      unfold readClientSniff
      rw [hget, hhead, hpost, hhttp]
      simp [hrpc]
    have hframing : readClientFraming codecs info s client r env
        = some ((s, client), r, none) := by
      unfold readClientFraming
      rw [hbranch]
      simp only [hsniff]
    have hafter : readClientAfterFraming codecs info s client r env
        = ((s, client), r, LoopControl.next) := by
      unfold readClientAfterFraming
      rw [if_neg (fun h => hrpc h.1), if_neg (by rw [hfin]; decide)]
    unfold readClientPass
    rw [hread]
    simp only [hvalid, hframing, hafter, Bool.true_eq_false, if_false]

/-- C28, at a concrete pass: the bytes `hello` on the sample connection, which has not
upgraded; the pass changes nothing and the loop goes on. -/
theorem uninterpretable_branch_unreachable_witness :
    clientValid sampleServer sampleClient = true ∧
      readClientPass sampleCodecs {} sampleServer sampleClient {}
          { buffer := "hello", bytesRead := 5 }
        = some ((sampleServer, sampleClient), {}, LoopControl.next) :=
  ⟨by decide,
    (uninterpretable_branch_unreachable sampleCodecs {} sampleServer sampleClient {}
      { buffer := "hello", bytesRead := 5 } rfl (by decide) rfl rfl rfl rfl (by decide)
      (by decide) (by decide) (by decide) (by decide) (by decide)).2.2⟩

/-- C21 (amended): protocol sniffing in `readClient` when no parser has started. A buffer
that starts with `Bin` takes the binary branch: with the XML-RPC server enabled the bytes
go through the loop of `binaryRpc.process`, otherwise the pass ends without feeding a
parser. Any other buffer takes the sniffing branch, where: a buffer that starts with
`GET ` or `HEAD ` sets the packet type `xmlRequest`, and is fed to the reset HTTP parser
when no redirect is configured and the web server is enabled; otherwise a buffer that
starts with `POST` or `HTTP/1.` is skipped when fewer than 8 bytes were read, and else sets
the packet type `xmlRequest` (for `POST`) or `xmlResponse` and is fed to the reset HTTP
parser; otherwise the bytes are fed to the reset WebSocket parser, with packet type
`webSocketRequest`, if the record's `rpcType` is `websocket`, and nothing is fed if it is
not. -/
theorem sniffing_selects_framing (codecs : Codecs) (info : ServerInfo) (s : HttpServer)
    (client : Client) (r : ReaderState) (env : ReaderEnv)
    (hb : r.binaryRpc.processingStarted = false)
    (hh : r.http.headerProcessingStarted = false)
    (hw : r.webSocket.dataProcessingStarted = false) :
    (strncmpIsZero env.buffer "Bin" 3 = true →
      framingBranch r env.buffer = FramingBranch.binary ∧
      (info.xmlrpcServer = true →
        readClientFraming codecs info s client r env
          = (readClientBinaryLoop codecs info env.bytesRead env.binaryRounds 0 s client r).map
              (fun x => (x.1, x.2.1, some x.2.2))) ∧
      (info.xmlrpcServer = false →
        readClientFraming codecs info s client r env
          = some ((s, client), r, some LoopControl.next))) ∧
    (strncmpIsZero env.buffer "Bin" 3 = false →
      framingBranch r env.buffer = FramingBranch.sniff ∧
      readClientFraming codecs info s client r env
        = some (readClientSniff info s client r env)) ∧
    (strncmpIsZero env.buffer "GET " 4 = true ∨ strncmpIsZero env.buffer "HEAD " 5 = true →
      (readClientSniff info s client r env).2.1.packetType = PacketType.xmlRequest ∧
      (info.redirectTo = "" → info.webServer = true →
        (readClientSniff info s client r env).2.1.http
          = (env.httpProcess {} env.buffer env.bytesRead).1)) ∧
    (strncmpIsZero env.buffer "GET " 4 = false → strncmpIsZero env.buffer "HEAD " 5 = false →
      strncmpIsZero env.buffer "POST" 4 = true →
      (8 ≤ env.bytesRead →
        readClientSniff info s client r env
          = ((s, client),
              { r with
                packetType := PacketType.xmlRequest
                http := (env.httpProcess {} env.buffer env.bytesRead).1 }, none)) ∧
      (env.bytesRead < 8 →
        readClientSniff info s client r env = ((s, client), r, some LoopControl.next))) ∧
    (strncmpIsZero env.buffer "GET " 4 = false → strncmpIsZero env.buffer "HEAD " 5 = false →
      strncmpIsZero env.buffer "POST" 4 = false →
      strncmpIsZero env.buffer "HTTP/1." 7 = true →
      (8 ≤ env.bytesRead →
        readClientSniff info s client r env
          = ((s, client),
              { r with
                packetType := PacketType.xmlResponse
                http := (env.httpProcess {} env.buffer env.bytesRead).1 }, none)) ∧
      (env.bytesRead < 8 →
        readClientSniff info s client r env = ((s, client), r, some LoopControl.next))) ∧
    (strncmpIsZero env.buffer "GET " 4 = false → strncmpIsZero env.buffer "HEAD " 5 = false →
      strncmpIsZero env.buffer "POST" 4 = false →
      strncmpIsZero env.buffer "HTTP/1." 7 = false →
      (client.rpcType = RpcType.websocket →
        readClientSniff info s client r env
          = ((s, client),
              { r with
                packetType := PacketType.webSocketRequest
                webSocket := env.webSocketProcess {} env.buffer env.bytesRead }, none)) ∧
      (client.rpcType ≠ RpcType.websocket →
        readClientSniff info s client r env = ((s, client), r, none))) := by
  refine ⟨?_, ?_, ?_, ?_, ?_, ?_⟩
  · intro hbin
    have hbranch : framingBranch r env.buffer = FramingBranch.binary := by
      rw [framingBranch_idle r env.buffer hb hh hw, if_pos hbin]
    refine ⟨hbranch, ?_, ?_⟩
    · intro hx
      unfold readClientFraming readClientBinary
      rw [hbranch]
      simp only [hx, Bool.true_eq_false, if_false]
    · intro hx
      unfold readClientFraming readClientBinary
      rw [hbranch]
      simp only [hx, if_true, Option.map_some']
  · intro hbin
    have hbranch : framingBranch r env.buffer = FramingBranch.sniff := by
      rw [framingBranch_idle r env.buffer hb hh hw, hbin]
      rfl
    refine ⟨hbranch, ?_⟩
    unfold readClientFraming
    rw [hbranch]
  · intro hget
    unfold readClientSniff
    rw [if_pos hget]
    constructor
    · split_ifs <;> rfl
    · intro hred hweb
      rw [if_neg (by simp [hred]), if_neg (by simp [hweb])]
      split_ifs <;> rfl
  · intro hget hhead hpost
    unfold readClientSniff
    rw [hget, hhead, hpost]
    constructor
    · intro h8
      simp [Nat.not_lt.mpr h8]
    · intro h8
      simp [h8]
  · intro hget hhead hpost hhttp
    unfold readClientSniff
    rw [hget, hhead, hpost, hhttp]
    constructor
    · intro h8
      simp [Nat.not_lt.mpr h8]
    · intro h8
      simp [h8]
  · intro hget hhead hpost hhttp
    unfold readClientSniff
    rw [hget, hhead, hpost, hhttp]
    constructor
    · intro hrpc
      simp [hrpc]
    · intro hrpc
      simp [hrpc]

/-- C21 (amended), at a concrete pass: a first read of `POST / HTTP/1.1` (15 bytes) on the
sample connection is fed to the HTTP parser, with packet type `xmlRequest`. -/
theorem sniffing_selects_framing_witness :
    (readClientSniff {} sampleServer sampleClient {}
        { buffer := "POST / HTTP/1.1", bytesRead := 15
          httpProcess := fun h _ _ => ({ h with headerProcessingStarted := true }, false) })
      = ((sampleServer, sampleClient),
          { packetType := PacketType.xmlRequest
            http := { headerProcessingStarted := true } }, none) :=
  ((sniffing_selects_framing sampleCodecs {} sampleServer sampleClient {}
      { buffer := "POST / HTTP/1.1", bytesRead := 15
        httpProcess := fun h _ _ => ({ h with headerProcessingStarted := true }, false) }
      rfl rfl rfl).2.2.2.1 (by decide) (by decide) (by decide)).1 (by decide)

/-- C21, counterexample: with no parser started, a buffer that starts with `POST` is not
taken as an HTTP request when fewer than 8 bytes were read: after a read of the 6 bytes
`POST /` the packet type is still `binaryRequest`, the HTTP parser has not been fed and the
pass ends. And a buffer that starts with `Bin` is not fed to the binary parser when the
XML-RPC server is disabled: the parser is as before and the pass ends. -/
theorem sniffing_counterexample :
    strncmpIsZero "POST /" "POST" 4 = true ∧
      readClientFraming sampleCodecs {} sampleServer sampleClient {}
          { buffer := "POST /", bytesRead := 6
            httpProcess := fun h _ _ => ({ h with headerProcessingStarted := true }, false) }
        = some ((sampleServer, sampleClient),
            { packetType := PacketType.binaryRequest, http := {} },
            some LoopControl.next) ∧
      strncmpIsZero "Bin\x01" "Bin" 3 = true ∧
      readClientFraming sampleCodecs { xmlrpcServer := false } sampleServer sampleClient {}
          { buffer := "Bin\x01", bytesRead := 4
            binaryRounds := [{ processed := some (4, { processingStarted := true }) }] }
        = some ((sampleServer, sampleClient), { binaryRpc := {} }, some LoopControl.next) ∧
      readClientFraming sampleCodecs {} sampleServer sampleClient {}
          { buffer := "Bin\x01", bytesRead := 4
            binaryRounds := [{ processed := some (4, { processingStarted := true }) }] }
        = some ((sampleServer, sampleClient), { binaryRpc := { processingStarted := true } },
            some LoopControl.next) := by
  decide

end HttpServer

end BaseLib
